import Mathlib

/-!
kdisplay-presets: matcher, store and change detection.

A shallow embedding of the core of `src/common/presets.cpp`,
`src/kcm/preset_manager.cpp` and `src/daemon/presetsservice.cpp`.

Conventions of the embedding:

* A `QVariantMap` describing one output of a preset is represented by the typed
  record `OutputSpec`, whose fields are the values the code reads through
  `toString()`, `toBool()`, `toInt()`, `toReal()`; an entry whose absence the
  code can observe (`mode`, `scale`, `rotation`) is an `Option`.
* A `float` (IEEE 754 binary32) or `qreal` (`double`, binary64) quantity is the
  rational number it denotes; infinities and NaN are not represented. A
  conversion to one of the formats and an arithmetic operation of a format
  round the exact result to the nearest number of the format, ties to the even
  significand (`toFloat`, `toDouble`). A field of such a type is read through
  the rounding of its type, which leaves the numbers of the format unchanged
  (`roundNearestEven_of_representable`): a decimal such as `143.9` in a field
  stands for the floating-point number nearest to it. A `float` expression is
  evaluated in `float`, as it is on x86-64 and AArch64. The exponent range is
  bounded below (subnormal numbers) and not above: where the hardware
  overflows to an infinity the embedding has a finite number of at least
  `2 ^ 128`, and the two tolerance tests of the matcher, which compare with
  `0.1` and `0.01`, fail for both.
* `uint32_t` is a `Nat`, `int` is an `Int`; the conversion
  `static_cast<uint32_t>(int)` is reduction modulo `2 ^ 32`.
* `KScreen::ConfigPtr` is an `Option Config`: `none` is the null pointer.
* `KScreen::Config::outputs()` is the list of outputs in iteration order.
* A `QHash` is an association list with pairwise distinct keys; its iteration
  order, which Qt leaves unspecified, is the order of the list.
* The results of `QUuid::createUuid()` and `QDateTime::currentDateTime()` are
  arguments of the operation that calls them, and so are the outcomes of
  `KScreen::GetConfigOperation` and `KScreen::SetConfigOperation`.
* The setters of `KScreen::Output` assign the attribute they are named after.
* A text written by Qt is represented by what it denotes: an ISO date
  (`Qt::ISODate`) by a number of whole seconds, the text of a key sequence by
  the sequence; where only the characters matter they are a parameter
  (`TextFormat`).
-/

namespace KDisplayPresets

/-! ## Floating-point numbers -/

/-- The power `2 ^ k` of two for an integer exponent `k`. -/
def pow2 (k : Int) : ℚ :=
  if 0 ≤ k then ((2 ^ k.toNat : Nat) : ℚ) else 1 / ((2 ^ (-k).toNat : Nat) : ℚ)

/-- The number of times `n` can be halved before it drops below 2, at most `fuel`
times: for `1 ≤ n ≤ fuel` the integer part of the binary logarithm of `n`. -/
def log2Loop : Nat → Nat → Nat
  | 0, _ => 0
  | fuel + 1, n => if n < 2 then 0 else log2Loop fuel (n / 2) + 1

/-- The binary exponent of a positive rational `a`: the integer `e` with
`2 ^ e ≤ a < 2 ^ (e + 1)`. The difference of the exponents of the numerator and
of the denominator is `e` or `e + 1`. -/
def floorLog2 (a : ℚ) : Int :=
  let k : Int := (log2Loop a.num.natAbs a.num.natAbs : Int) - (log2Loop a.den a.den : Int)
  if pow2 k ≤ a then k else k - 1

/-- Rounding to the nearest binary floating-point number with a significand of
`precision` bits and exponents from `emin` upwards, ties to the even
significand (the IEEE 754 default). The numbers of the format around `x` are the
multiples of `ulp = 2 ^ (e - precision + 1)`, where `e` is the exponent of `|x|`,
raised to `emin` in the subnormal range. -/
def roundNearestEven (precision : Nat) (emin : Int) (x : ℚ) : ℚ :=
  if x = 0 then 0
  else
    let a := |x|
    let e := max (floorLog2 a) emin
    let ulp := pow2 (e - precision + 1)
    let q := a / ulp
    let n : Int := ⌊q⌋
    let r := q - n
    let n' : Int :=
      if r < 1 / 2 then n else if 1 / 2 < r then n + 1 else if n % 2 = 0 then n else n + 1
    if x < 0 then -(n' * ulp) else n' * ulp

/-- The `float` nearest to `x` (binary32: 24 bits, exponents from -126): the
result of a conversion to `float` and of a `float` operation whose exact result
is `x`. -/
def toFloat (x : ℚ) : ℚ := roundNearestEven 24 (-126) x

/-- The `double` nearest to `x` (binary64: 53 bits, exponents from -1022): the
value of a `double` literal and the result of a `double` operation whose exact
result is `x`. -/
def toDouble (x : ℚ) : ℚ := roundNearestEven 53 (-1022) x

/-! ## Data model -/

/-- The mode of a live output (`KScreen::Mode`): identifier, size, refresh rate. -/
structure Mode where
  id : String
  width : Int
  height : Int
  /-- The refresh rate, a `float`. -/
  refreshRate : ℚ
  deriving DecidableEq

/-- Secondary attributes of an output, written by `configToVariantMap` and
never read by the matcher. -/
structure SecondaryAttributes where
  model : String := ""
  vendor : String := ""
  type : Int := 0
  displayName : String := ""
  connected : Bool := false
  logicalSize : Option (ℚ × ℚ) := none
  overscan : Nat := 0
  vrrPolicy : Int := 0
  rgbRange : Int := 0
  hdr : Bool := false
  sdrBrightness : Nat := 0
  wideColorGamut : Bool := false
  iccProfilePath : String := ""
  brightness : ℚ := 0
  autoRotatePolicy : Int := 0
  capabilities : Int := 0
  edrPolicy : Int := 0
  deriving DecidableEq

/-- A live output (`KScreen::Output`) as read by the code. -/
structure LiveOutput where
  hashMd5 : String := ""
  name : String
  connected : Bool
  enabled : Bool
  primary : Bool := false
  /-- The value of `priority()`, a `uint32_t`. -/
  priority : Nat := 0
  posX : Int := 0
  posY : Int := 0
  /-- The scale, a `qreal`. -/
  scale : ℚ := 1
  /-- The value of `static_cast<int>(rotation())`. -/
  rotation : Int := 1
  currentModeId : String := ""
  /-- The supported modes (`modes()`), keyed by `Mode.id`. -/
  modes : List Mode := []
  secondary : SecondaryAttributes := {}
  deriving DecidableEq

/-- The current mode (`KScreen::Output::currentMode()`): the supported mode whose
identifier is `currentModeId`, a null pointer when there is none. -/
def LiveOutput.currentMode (o : LiveOutput) : Option Mode :=
  o.modes.find? (fun m => m.id == o.currentModeId)

/-- The `"mode"` entry of an output of a preset. -/
structure ModeSpec where
  id : String := ""
  width : Int
  height : Int
  refreshRate : ℚ
  deriving DecidableEq

/-- One entry of the `"outputs"` list of a preset's configuration. -/
structure OutputSpec where
  id : String := ""
  name : String
  enabled : Bool
  primary : Bool := false
  /-- The value of `["priority"].toInt()`. -/
  priority : Int := 0
  posX : Int := 0
  posY : Int := 0
  /-- The `"scale"` entry, `none` when the key is absent. -/
  scale : Option ℚ := none
  /-- The `"rotation"` entry, `none` when the key is absent. -/
  rotation : Option Int := none
  /-- The `"mode"` entry, `none` when the key is absent. -/
  mode : Option ModeSpec := none
  currentModeId : String := ""
  secondary : SecondaryAttributes := {}
  deriving DecidableEq

/-- The value of `presetMode["width"].toInt()`: `0` when there is no mode entry. -/
def OutputSpec.modeWidth (s : OutputSpec) : Int :=
  match s.mode with
  | some m => m.width
  | none => 0

/-- The value of `presetMode["height"].toInt()`: `0` when there is no mode entry. -/
def OutputSpec.modeHeight (s : OutputSpec) : Int :=
  match s.mode with
  | some m => m.height
  | none => 0

/-- The number stored under `presetMode["refreshRate"]`: `0` when there is no mode
entry. -/
def OutputSpec.storedRefresh (s : OutputSpec) : ℚ :=
  match s.mode with
  | some m => m.refreshRate
  | none => 0

/-- The value of `presetMode["refreshRate"].toFloat()`: the stored number converted
to a `float`, `0` when there is no mode entry. -/
def OutputSpec.modeRefresh (s : OutputSpec) : ℚ := toFloat s.storedRefresh

/-- The number stored under `"scale"`: `0` when the key is absent. -/
def OutputSpec.storedScale (s : OutputSpec) : ℚ := s.scale.getD 0

/-- The value of `["scale"].toReal()`, a `double`: `0` when the key is absent. -/
def OutputSpec.scaleToReal (s : OutputSpec) : ℚ := toDouble s.storedScale

/-- The value of `["rotation"].toInt()`: `0` when the key is absent. -/
def OutputSpec.rotationToInt (s : OutputSpec) : Int := s.rotation.getD 0

/-- The conversion `static_cast<uint32_t>(n)` of an `int`. -/
def castUInt32 (n : Int) : Nat := (n % 4294967296).toNat

/-- The `configuration` map of a preset. -/
structure Configuration where
  features : Int := 0
  tabletModeEngaged : Bool := false
  outputs : List OutputSpec := []
  deriving DecidableEq

/-- A `QDateTime`: milliseconds since the epoch, `none` for the invalid value of a
default-constructed `QDateTime`. -/
abbrev QDateTime := Option Int

/-- A `QKeySequence`: its key codes, the empty list for the empty sequence. -/
abbrev QKeySequence := List Nat

/-- The struct `DisplayPreset` of `presets.h`. The `configuration` is `none` for
the empty `QVariantMap`. -/
structure DisplayPreset where
  id : String := ""
  name : String := ""
  description : String := ""
  created : QDateTime := none
  lastUsed : QDateTime := none
  outputIds : List String := []
  configuration : Option Configuration := none
  shortcut : QKeySequence := []
  deriving DecidableEq

/-- The value of `preset.configuration["outputs"].toList()`. -/
def DisplayPreset.outputsList (p : DisplayPreset) : List OutputSpec :=
  match p.configuration with
  | some c => c.outputs
  | none => []

/-- A live screen configuration (`KScreen::Config`). -/
structure Config where
  supportedFeatures : Int := 0
  tabletModeEngaged : Bool := false
  outputs : List LiveOutput := []
  deriving DecidableEq

/-- The state of a `Presets` object: `m_presets` and `m_screenConfiguration`. -/
structure Presets where
  m_presets : List DisplayPreset := []
  m_screenConfiguration : Option Config := none
  deriving DecidableEq

/-! ## `Presets`: lookup -/

/-- The function `Presets::getPreset`: the first preset with the identifier, or a
default-constructed `DisplayPreset`. -/
def Presets.getPreset (self : Presets) (presetId : String) : DisplayPreset :=
  match self.m_presets.find? (fun preset => preset.id == presetId) with
  | some preset => preset
  | none => {}

/-! ## `Presets::isPresetAvailable` -/

/-- The inner loop of `isPresetAvailable` (lines 123-129): is there a live output
with this name that is connected? -/
def availableFound (presetOutputName : String) : List LiveOutput → Bool
  | [] => false
  | currentOutput :: rest =>
    if currentOutput.name == presetOutputName && currentOutput.connected then true
    else availableFound presetOutputName rest

/-- The outer loop of `isPresetAvailable` (lines 114-135). -/
def availableLoop (currentOutputs : List LiveOutput) : List OutputSpec → Bool
  | [] => true
  | presetOutput :: rest =>
    if !presetOutput.enabled then availableLoop currentOutputs rest
    else if !availableFound presetOutput.name currentOutputs then false
    else availableLoop currentOutputs rest

/-- The function `Presets::isPresetAvailable`. -/
def Presets.isPresetAvailable (self : Presets) (presetId : String) : Bool :=
  match self.m_screenConfiguration with
  | none => false
  | some config =>
    let preset := self.getPreset presetId
    if preset.id.isEmpty then false
    else availableLoop config.outputs preset.outputsList

/-! ## `Presets::isPresetCurrent` -/

/-- The comparison of an enabled live output with the preset entry of the same
name (lines 180-233): `true` when no `return false` is reached. The stored
refresh rate is converted by `toFloat()`, the live one is a `float`, their
difference is a `float`, and `qAbs` of it is compared with the `double` literal
`0.1` (lines 202-208); the scales are `double`s, their difference is a `double`,
and `qAbs` of it is compared with the `double` literal `0.01` (line 219). -/
def enabledPropertiesMatch (currentOutput : LiveOutput) (presetOutput : OutputSpec) : Bool :=
  if castUInt32 presetOutput.priority != currentOutput.priority then false
  else if (currentOutput.posX, currentOutput.posY) != (presetOutput.posX, presetOutput.posY) then
    false
  else
    let presetRefresh := presetOutput.modeRefresh
    match currentOutput.currentMode with
    | none => false
    | some currentMode =>
      let currentRefresh := toFloat currentMode.refreshRate
      if (currentMode.width, currentMode.height) != (presetOutput.modeWidth, presetOutput.modeHeight)
          || decide (|toFloat (currentRefresh - presetRefresh)| > toDouble (1 / 10)) then false
      else if decide (|toDouble (toDouble currentOutput.scale - presetOutput.scaleToReal)|
          > toDouble (1 / 100)) then false
      else if currentOutput.rotation != presetOutput.rotationToInt then false
      else true

/-- The outcome of the inner loop of the forward check for one live output. -/
inductive ForwardResult where
  /-- A `return false` was reached. -/
  | mismatch
  /-- The loop ended with `found = true`. -/
  | found
  /-- The loop ended with `found = false`. -/
  | notFound
  deriving DecidableEq

/-- The inner loop of the forward check (lines 166-236): the first preset entry
with the name of the live output decides, later ones are not looked at. -/
def forwardInner (currentOutput : LiveOutput) : List OutputSpec → ForwardResult
  | [] => .notFound
  | presetOutput :: rest =>
    if presetOutput.name == currentOutput.name then
      if currentOutput.enabled != presetOutput.enabled then .mismatch
      else if currentOutput.enabled then
        if enabledPropertiesMatch currentOutput presetOutput then .found else .mismatch
      else .found
    else forwardInner currentOutput rest

/-- The forward loop of `isPresetCurrent` (lines 160-243). -/
def forwardLoop (presetOutputsList : List OutputSpec) : List LiveOutput → Bool
  | [] => true
  | currentOutput :: rest =>
    if !currentOutput.connected then forwardLoop presetOutputsList rest
    else
      match forwardInner currentOutput presetOutputsList with
      | .mismatch => false
      | .found => forwardLoop presetOutputsList rest
      | .notFound =>
        if currentOutput.enabled then false else forwardLoop presetOutputsList rest

/-- The inner loop of the reverse check (lines 251-257). -/
def reverseFound (presetOutputName : String) : List LiveOutput → Bool
  | [] => false
  | currentOutput :: rest =>
    if currentOutput.name == presetOutputName && currentOutput.connected
        && currentOutput.enabled then true
    else reverseFound presetOutputName rest

/-- The reverse loop of `isPresetCurrent` (lines 246-264). -/
def reverseLoop (currentOutputs : List LiveOutput) : List OutputSpec → Bool
  | [] => true
  | presetOutput :: rest =>
    if presetOutput.enabled then
      if !reverseFound presetOutput.name currentOutputs then false
      else reverseLoop currentOutputs rest
    else reverseLoop currentOutputs rest

/-- The function `Presets::isPresetCurrent`. -/
def Presets.isPresetCurrent (self : Presets) (presetId : String) : Bool :=
  match self.m_screenConfiguration with
  | none => false
  | some config =>
    let preset := self.getPreset presetId
    if preset.id.isEmpty then false
    else if !forwardLoop preset.outputsList config.outputs then false
    else reverseLoop config.outputs preset.outputsList

/-! ## `Presets`: store operations used by `savePreset` -/

/-- The function `Presets::findPresetByName`: the first preset with the name, `none` for the
null pointer. -/
def Presets.findPresetByName (self : Presets) (name : String) : Option DisplayPreset :=
  self.m_presets.find? (fun preset => preset.name == name)

/-- The assignment `m_presets[row] = preset` of `updatePreset`, where `row` is the
first row whose identifier is `presetId`; the list is unchanged when there is no
such row. -/
def replaceFirstById (presetId : String) (preset : DisplayPreset) :
    List DisplayPreset → List DisplayPreset
  | [] => []
  | p :: rest =>
    if p.id == presetId then preset :: rest
    else p :: replaceFirstById presetId preset rest

/-- The function `Presets::updatePreset`. -/
def Presets.updatePreset (self : Presets) (presetId : String) (preset : DisplayPreset) :
    Presets :=
  { self with m_presets := replaceFirstById presetId preset self.m_presets }

/-- The function `Presets::addPreset`. -/
def Presets.addPreset (self : Presets) (preset : DisplayPreset) : Presets :=
  { self with m_presets := self.m_presets ++ [preset] }

/-! ## `PresetManager` -/

/-- The value that `toInt()` returns for a stored `uint32_t`: the conversion to a
32-bit `int`. -/
def castInt32 (n : Nat) : Int := ((n : Int) + 2147483648) % 4294967296 - 2147483648

/-- The map that `configToVariantMap` stores for one enabled output. -/
def outputToVariantMap (output : LiveOutput) : OutputSpec :=
  { id := output.hashMd5
    name := output.name
    enabled := output.enabled
    primary := output.primary
    priority := castInt32 output.priority
    posX := output.posX
    posY := output.posY
    scale := some output.scale
    rotation := some output.rotation
    mode := output.currentMode.map (fun m =>
      { id := output.currentModeId, width := m.width, height := m.height,
        refreshRate := m.refreshRate })
    currentModeId := if output.currentMode.isSome then output.currentModeId else ""
    secondary :=
      { output.secondary with
        connected := output.connected
        logicalSize := output.secondary.logicalSize.filter
          (fun size => !(decide (size.1 ≤ 0) || decide (size.2 ≤ 0))) } }

/-- The function `PresetManager::configToVariantMap`: only the enabled outputs are stored. -/
def configToVariantMap (config : Config) : Configuration :=
  { features := config.supportedFeatures
    tabletModeEngaged := config.tabletModeEngaged
    outputs := (config.outputs.filter (fun output => output.enabled)).map outputToVariantMap }

/-- The function `PresetManager::savePreset` as a function of the store. `presetId` is the
result of `generatePresetId()`, `createdNow` and `lastUsedNow` are the results of
the two calls of `QDateTime::currentDateTime()`. -/
def savePreset (self : Presets) (name description : String) (config : Option Config)
    (presetId : String) (createdNow lastUsedNow : QDateTime) : Presets :=
  match config with
  | none => self
  | some config =>
    let preset : DisplayPreset :=
      { id := presetId
        name := name
        description := description
        created := createdNow
        lastUsed := lastUsedNow
        configuration := some (configToVariantMap config)
        outputIds := (config.outputs.filter (fun output => output.enabled)).map
          (fun output => output.hashMd5) }
    match self.findPresetByName name with
    | some existingPreset =>
      self.updatePreset existingPreset.id { preset with created := existingPreset.created }
    | none => self.addPreset preset

/-! ## `PresetsService::detectChangedPresets` -/

/-- One record of the projection returned by `getPresets()`. -/
structure PresetSummary where
  presetId : String
  name : String := ""
  description : String := ""
  lastUsed : String := ""
  outputCount : Int := 0
  configuration : Option Configuration := none
  shortcut : String := ""
  isAvailable : Bool := false
  isCurrent : Bool := false
  deriving DecidableEq

/-- A `QHash<QString, T>`. -/
abbrev QHash (α : Type) := List (String × α)

/-- The assignment `hash[key] = value`: the value of an existing key is replaced,
a new key is added. -/
def QHash.assign {α : Type} (key : String) (value : α) : QHash α → QHash α
  | [] => [(key, value)]
  | (k, v) :: rest =>
    if k == key then (k, value) :: rest else (k, v) :: QHash.assign key value rest

/-- The method `QHash::contains`. -/
def QHash.containsKey {α : Type} (hash : QHash α) (key : String) : Bool :=
  hash.any (fun entry => entry.1 == key)

/-- The method `QHash::value`: `none` stands for the default-constructed value. -/
def QHash.lookup {α : Type} (hash : QHash α) (key : String) : Option α :=
  (hash.find? (fun entry => entry.1 == key)).map (fun entry => entry.2)

/-- The loops of lines 408-418 that turn a projection into a map keyed by
`presetId`. -/
def buildSummaryMap (presets : List PresetSummary) : QHash PresetSummary :=
  presets.foldl (fun hash presetMap => QHash.assign presetMap.presetId presetMap hash) []

/-- The fields of `fieldsToCompare` (line 433). -/
def fieldsToCompare : List (PresetSummary → String) :=
  [PresetSummary.name, PresetSummary.description, PresetSummary.shortcut,
   PresetSummary.lastUsed]

/-- The flag `isModified` (lines 435-441). -/
def isModified (currentPreset previousPreset : PresetSummary) : Bool :=
  fieldsToCompare.any (fun field => field currentPreset != field previousPreset)

/-- The first loop of `detectChangedPresets` (lines 421-447), over the entries of
the current map. The lookup returns `none` exactly when
`!previousMap.contains(presetId)` holds, and otherwise the value that
`previousMap.value(presetId)` returns. -/
def newOrModifiedLoop (previousMap : QHash PresetSummary) :
    List (String × PresetSummary) → List String
  | [] => []
  | (presetId, currentPreset) :: rest =>
    match QHash.lookup previousMap presetId with
    | none => presetId :: newOrModifiedLoop previousMap rest
    | some previousPreset =>
      if isModified currentPreset previousPreset then
        presetId :: newOrModifiedLoop previousMap rest
      else newOrModifiedLoop previousMap rest

/-- The second loop of `detectChangedPresets` (lines 450-456), over the entries of
the previous map. -/
def deletedLoop (currentMap : QHash PresetSummary) :
    List (String × PresetSummary) → List String
  | [] => []
  | (presetId, _) :: rest =>
    if !QHash.containsKey currentMap presetId then presetId :: deletedLoop currentMap rest
    else deletedLoop currentMap rest

/-- The function `PresetsService::detectChangedPresets`, as a function of the
cached projection `m_previousPresets` and of the projection `currentPresets`
computed on line 405. -/
def detectChangedPresets (m_previousPresets currentPresets : List PresetSummary) :
    List String :=
  let previousMap := buildSummaryMap m_previousPresets
  let currentMap := buildSummaryMap currentPresets
  newOrModifiedLoop previousMap currentMap ++ deletedLoop currentMap previousMap

/-! ## Specification predicates -/

/-- The preset entry that the forward check compares a live output with: the
first entry of the list with that name. -/
def findSpec (specs : List OutputSpec) (name : String) : Option OutputSpec :=
  specs.find? (fun s => s.name == name)

/-- The refresh-rate test of the matcher is passed: the `float` difference of the
live rate and of the stored rate converted to `float` is, in absolute value, not
greater than the `double` nearest to `0.1`. -/
def RefreshWithinTolerance (liveRefresh storedRefresh : ℚ) : Prop :=
  |toFloat (toFloat liveRefresh - toFloat storedRefresh)| ≤ toDouble (1 / 10)

/-- The scale test of the matcher is passed: the `double` difference of the live
scale and of the stored scale is, in absolute value, not greater than the
`double` nearest to `0.01`. -/
def ScaleWithinTolerance (liveScale storedScale : ℚ) : Prop :=
  |toDouble (toDouble liveScale - toDouble storedScale)| ≤ toDouble (1 / 100)

/-- The compared properties of an enabled live output and a preset entry agree:
priority (the stored integer taken modulo `2 ^ 32`), position, a current mode of
the stored size and of a refresh rate that passes the test in `float`, a scale
that passes the test in `double`, rotation. -/
def PropertiesAgree (o : LiveOutput) (s : OutputSpec) : Prop :=
  castUInt32 s.priority = o.priority ∧ o.posX = s.posX ∧ o.posY = s.posY ∧
  (∃ m, o.currentMode = some m ∧ m.width = s.modeWidth ∧ m.height = s.modeHeight ∧
    RefreshWithinTolerance m.refreshRate s.storedRefresh) ∧
  ScaleWithinTolerance o.scale s.storedScale ∧ o.rotation = s.rotationToInt

/-- The forward condition for one connected live output: it is disabled when the
preset has no entry of its name; otherwise the first such entry has the same
enabled flag and, when the output is enabled, the compared properties agree. -/
def ForwardOk (specs : List OutputSpec) (o : LiveOutput) : Prop :=
  match findSpec specs o.name with
  | none => o.enabled = false
  | some s => s.enabled = o.enabled ∧ (o.enabled = true → PropertiesAgree o s)

/-- The reverse condition: every enabled preset entry has a live output of its
name that is connected and enabled. -/
def ReverseOk (specs : List OutputSpec) (L : List LiveOutput) : Prop :=
  ∀ s ∈ specs, s.enabled = true →
    ∃ o ∈ L, o.name = s.name ∧ o.connected = true ∧ o.enabled = true

/-- The hypothesis of the tolerance claims in the words of the specification: the
live output is connected and enabled and has the current mode `m`, the entry has
its name and is enabled, and the two agree on priority, position, mode size and
rotation. -/
def OtherFieldsAgree (o : LiveOutput) (s : OutputSpec) (m : Mode) : Prop :=
  o.connected = true ∧ o.enabled = true ∧ s.name = o.name ∧ s.enabled = true ∧
  o.currentMode = some m ∧ s.priority = (o.priority : Int) ∧
  o.posX = s.posX ∧ o.posY = s.posY ∧
  m.width = s.modeWidth ∧ m.height = s.modeHeight ∧ o.rotation = s.rotationToInt

/-- The condition of currency in the words of the specification: a connected
live output needs some preset entry of its name that agrees with it, the
priorities are compared as integers, and the refresh rates and the scales
differ by at most `0.1` and `0.01` as numbers. -/
def CurrentAsStated (specs : List OutputSpec) (L : List LiveOutput) : Prop :=
  (∀ o ∈ L, o.connected = true →
    ((¬ ∃ s ∈ specs, s.name = o.name) ∧ o.enabled = false) ∨
    (∃ s ∈ specs, s.name = o.name ∧ s.enabled = o.enabled ∧
      (s.enabled = true → o.enabled = true →
        s.priority = (o.priority : Int) ∧ o.posX = s.posX ∧ o.posY = s.posY ∧
        (∃ m, o.currentMode = some m ∧ m.width = s.modeWidth ∧ m.height = s.modeHeight ∧
          |m.refreshRate - s.storedRefresh| ≤ 1 / 10) ∧
        |o.scale - s.storedScale| ≤ 1 / 100 ∧ o.rotation = s.rotationToInt))) ∧
  (∀ s ∈ specs, s.enabled = true →
    ∃ o ∈ L, o.name = s.name ∧ o.connected = true ∧ o.enabled = true)

/-! ## The scenarios of the specification -/

/-- The preset entry of Scenario A: `eDP-1`, 1920x1080 at 60.0, scale 1.0. -/
def scenarioASpec : OutputSpec :=
  { name := "eDP-1", enabled := true, priority := 0, posX := 0, posY := 0,
    scale := some 1, rotation := some 1,
    mode := some { width := 1920, height := 1080, refreshRate := 60 } }

/-- The snapshot of Scenario A. -/
def scenarioAPreset : DisplayPreset :=
  { id := "preset-a", name := "Desk",
    configuration := some { outputs := [scenarioASpec] } }

/-- A live `eDP-1`, connected and enabled at the origin, with one mode of the given
size and refresh rate, and the given scale and priority. -/
def liveEDP (width height : Int) (refreshRate scale : ℚ) (priority : Nat) : LiveOutput :=
  { name := "eDP-1", connected := true, enabled := true, priority := priority,
    posX := 0, posY := 0, scale := scale, rotation := 1, currentModeId := "m0",
    modes := [{ id := "m0", width := width, height := height, refreshRate := refreshRate }] }

/-- A store holding the snapshot of Scenario A, with the given live outputs. -/
def scenarioAStore (outputs : List LiveOutput) : Presets :=
  { m_presets := [scenarioAPreset], m_screenConfiguration := some { outputs := outputs } }

/-- A store whose only snapshot was loaded with an empty identifier and has no
outputs, with a live configuration without outputs. -/
def emptyIdStore : Presets :=
  { m_presets := [{ id := "", name := "Untitled", configuration := some {} }],
    m_screenConfiguration := some {} }

/-- A preset entry named `HDMI-1`, enabled. -/
def hdmiSpec : OutputSpec :=
  { name := "HDMI-1", enabled := true, scale := some 1, rotation := some 1,
    mode := some { width := 1920, height := 1080, refreshRate := 60 } }

/-- The store of Scenario C: the snapshot enables `HDMI-1`, the only live output
is `eDP-1`. -/
def scenarioCStore : Presets :=
  { m_presets := [{ id := "preset-c", name := "Docked",
                    configuration := some { outputs := [hdmiSpec] } }],
    m_screenConfiguration := some { outputs := [liveEDP 1920 1080 60 1 0] } }

/-- A store whose snapshot lists `eDP-1` twice, first disabled and then as in
Scenario A, with the live output of Scenario A at exactly 60 Hz and scale 1. -/
def duplicateNameStore : Presets :=
  { m_presets := [{ id := "preset-d", name := "Twice",
                    configuration := some
                      { outputs := [{ scenarioASpec with enabled := false }, scenarioASpec] } }],
    m_screenConfiguration := some { outputs := [liveEDP 1920 1080 60 1 0] } }

/-- A store whose snapshot is that of Scenario A with the stored priority `-1`,
with a live output of priority `4294967295`. -/
def wrappedPriorityStore : Presets :=
  { m_presets := [{ id := "preset-w", name := "Wrapped",
                    configuration := some
                      { outputs := [{ scenarioASpec with priority := -1 }] } }],
    m_screenConfiguration := some { outputs := [liveEDP 1920 1080 60 1 4294967295] } }

/-- The entry of Scenario A with another stored refresh rate and another `"scale"`
entry. -/
def toleranceSpec (refreshRate : ℚ) (scale : Option ℚ) : OutputSpec :=
  { name := "eDP-1", enabled := true, priority := 0, posX := 0, posY := 0,
    scale := scale, rotation := some 1,
    mode := some { width := 1920, height := 1080, refreshRate := refreshRate } }

/-- A store whose only snapshot has the entry `toleranceSpec refreshRate scale`,
with the given live outputs. -/
def toleranceStore (refreshRate : ℚ) (scale : Option ℚ) (outputs : List LiveOutput) :
    Presets :=
  { m_presets := [{ id := "preset-t", name := "Desk",
                    configuration := some { outputs := [toleranceSpec refreshRate scale] } }],
    m_screenConfiguration := some { outputs := outputs } }

/-- The `double` nearest to `0.01`, which is greater than `0.01`. -/
def doubleHundredth : ℚ := 5764607523034235 / 576460752303423488

/-- The store of Scenario E: one snapshot named `Work` with identifier `X`, created
at time `1000`, last used at `1500`, with a shortcut. -/
def scenarioEStore : Presets :=
  { m_presets := [{ id := "X", name := "Work", description := "old", created := some 1000,
                    lastUsed := some 1500, shortcut := [87],
                    configuration := some { outputs := [hdmiSpec] } }] }

/-- The live configuration saved in Scenario E. -/
def scenarioEConfig : Config := { outputs := [liveEDP 1920 1080 60 1 0] }

/-- The previous projection of Scenario D: the snapshots `P1` and `P2`. -/
def scenarioDPrevious : List PresetSummary :=
  [{ presetId := "P1", name := "Home" }, { presetId := "P2", name := "Office" }]

/-- The current projection of Scenario D: `P1` renamed, and the new snapshot `P3`. -/
def scenarioDCurrent : List PresetSummary :=
  [{ presetId := "P1", name := "Home office" }, { presetId := "P3", name := "Beamer" }]

/-! ## `Presets` and `PresetManager`: the remaining store operations -/

/-- The function `Presets::findPreset`: the first preset with the identifier,
`none` for the null pointer. An assignment through the returned pointer is
`modifyFirstById`. -/
def Presets.findPreset (self : Presets) (presetId : String) : Option DisplayPreset :=
  self.m_presets.find? (fun preset => preset.id == presetId)

/-- An assignment to a field of the first preset whose identifier is `presetId`;
the list is unchanged when there is no such preset. -/
def modifyFirstById (presetId : String) (f : DisplayPreset → DisplayPreset) :
    List DisplayPreset → List DisplayPreset
  | [] => []
  | p :: rest =>
    if p.id == presetId then f p :: rest
    else p :: modifyFirstById presetId f rest

/-- The call `m_presets.erase(it)` of `removePreset`, where `it` points to the
first preset whose identifier is `presetId`. -/
def eraseFirstById (presetId : String) : List DisplayPreset → List DisplayPreset
  | [] => []
  | p :: rest =>
    if p.id == presetId then rest
    else p :: eraseFirstById presetId rest

/-- The function `Presets::updateLastUsed`; `now` is the result of
`QDateTime::currentDateTime()`. -/
def Presets.updateLastUsed (self : Presets) (presetId : String) (now : QDateTime) : Presets :=
  match self.m_presets.find? (fun preset => preset.id == presetId) with
  | some _ =>
    { self with
      m_presets := modifyFirstById presetId (fun p => { p with lastUsed := now })
        self.m_presets }
  | none => self

/-- The function `Presets::removePreset`. -/
def Presets.removePreset (self : Presets) (presetId : String) : Presets :=
  match self.m_presets.find? (fun preset => preset.id == presetId) with
  | some _ => { self with m_presets := eraseFirstById presetId self.m_presets }
  | none => self

/-- The function `PresetManager::deletePreset` as a function of the store. -/
def deletePreset (self : Presets) (presetId : String) : Presets :=
  self.removePreset presetId

/-- The function `PresetManager::renamePreset` as a function of the store. -/
def renamePreset (self : Presets) (presetId newName : String) : Presets :=
  match self.findPreset presetId with
  | some _ =>
    { self with
      m_presets := modifyFirstById presetId (fun p => { p with name := newName })
        self.m_presets }
  | none => self

/-- The function `PresetManager::updatePresetDescription` as a function of the
store. -/
def updatePresetDescription (self : Presets) (presetId newDescription : String) : Presets :=
  match self.findPreset presetId with
  | some _ =>
    { self with
      m_presets := modifyFirstById presetId (fun p => { p with description := newDescription })
        self.m_presets }
  | none => self

/-- The function `PresetManager::updatePresetShortcut` as a function of the
store. -/
def updatePresetShortcut (self : Presets) (presetId : String) (shortcut : QKeySequence) :
    Presets :=
  match self.findPreset presetId with
  | some _ =>
    { self with
      m_presets := modifyFirstById presetId (fun p => { p with shortcut := shortcut })
        self.m_presets }
  | none => self

/-! ## `PresetsService::applyPreset` -/

/-- The function `PresetsService::buildPresetOutputsMap`: the entries with a
non-empty name, keyed by name; a later entry replaces an earlier one of the
same name. -/
def buildPresetOutputsMap (presetOutputsList : List OutputSpec) : QHash OutputSpec :=
  presetOutputsList.foldl
    (fun outputsMap outputMap =>
      if !outputMap.name.isEmpty then QHash.assign outputMap.name outputMap outputsMap
      else outputsMap)
    []

/-- The function `PresetsService::applyPresetToOutput`. The setters of
`KScreen::Output` assign the attribute they are named after. An absent
`"rotation"` entry is read as `1`, an absent `"scale"` entry as `1.0`. -/
def applyPresetToOutput (output : LiveOutput) (presetOutputMap : OutputSpec) : LiveOutput :=
  let enabled := presetOutputMap.enabled
  let output := { output with enabled := enabled }
  if !enabled then output
  else
    let output := { output with posX := presetOutputMap.posX, posY := presetOutputMap.posY }
    let modeId := presetOutputMap.currentModeId
    let output :=
      if !modeId.isEmpty && output.modes.any (fun m => m.id == modeId) then
        { output with currentModeId := modeId }
      else output
    let output := { output with rotation := presetOutputMap.rotation.getD 1 }
    let output := { output with scale := presetOutputMap.scale.getD 1 }
    { output with primary := presetOutputMap.primary }

/-- The loop of lines 168-173 over `config->outputs()`: the outputs after the
loop, and the calls of `applyPresetToOutput` in the order in which they are
made, each with the output it is made on and the entry it is given. The
lookup returns `none` exactly when `!presetOutputsMap.contains(output->name())`
holds. -/
def applyLoop (presetOutputsMap : QHash OutputSpec) :
    List LiveOutput → List LiveOutput × List (LiveOutput × OutputSpec)
  | [] => ([], [])
  | output :: rest =>
    match QHash.lookup presetOutputsMap output.name with
    | some presetOutputMap =>
      (applyPresetToOutput output presetOutputMap :: (applyLoop presetOutputsMap rest).1,
       (output, presetOutputMap) :: (applyLoop presetOutputsMap rest).2)
    | none => (output :: (applyLoop presetOutputsMap rest).1, (applyLoop presetOutputsMap rest).2)

/-- A signal that `PresetsService` emits to its host. -/
inductive Signal where
  | errorOccurred (error : String)
  | presetApplied (presetId : String)
  deriving DecidableEq

/-- The outcome of a `KScreen::GetConfigOperation`: an error string, or the
configuration, which may be a null pointer. -/
inductive GetConfigResult where
  | failed (errorString : String)
  | finished (config : Option Config)
  deriving DecidableEq

/-- What a run of `applyPreset` leaves behind. -/
structure ApplyOutcome where
  /-- The `Presets` object after the run. -/
  presets : Presets
  /-- The signals emitted, in order. -/
  signals : List Signal
  /-- The messages written with `qCWarning`, in order. -/
  warnings : List String
  /-- The configuration handed to `KScreen::SetConfigOperation`, if the run got
  that far. -/
  submitted : Option Config
  /-- The calls of `applyPresetToOutput`, in order. -/
  calls : List (LiveOutput × OutputSpec)
  deriving DecidableEq

/-- A run of `applyPreset` that stops with an error: the message is logged as a
warning and emitted with `errorOccurred`. -/
def applyFailed (self : Presets) (error : String) : ApplyOutcome :=
  { presets := self, signals := [Signal.errorOccurred error], warnings := [error],
    submitted := none, calls := [] }

/-- The value of `presetData` after the loop of lines 128-135: the configuration
of the first preset with the identifier, the empty map (`none`) when there is
none. -/
def findPresetData (self : Presets) (presetId : String) : Option Configuration :=
  match self.m_presets.find? (fun preset => preset.id == presetId) with
  | some preset => preset.configuration
  | none => none

/-- The function `PresetsService::applyPreset`, run to the end of its callbacks.
`getConfigOp` is the outcome of the `GetConfigOperation`, `setConfigError` the
outcome of the `SetConfigOperation` (`none` when it reports no error), `now`
the result of `QDateTime::currentDateTime()` in `updateLastUsed`. -/
def applyPreset (self : Presets) (presetId : String) (getConfigOp : GetConfigResult)
    (setConfigError : Option String) (now : QDateTime) : ApplyOutcome :=
  if !self.isPresetAvailable presetId then
    applyFailed self ("Preset not available: " ++ presetId)
  else
    match findPresetData self presetId with
    | none => applyFailed self ("Preset data not found: " ++ presetId)
    | some presetData =>
      match getConfigOp with
      | .failed errorString => applyFailed self ("Failed to get current config: " ++ errorString)
      | .finished none => applyFailed self "Invalid config received"
      | .finished (some config) =>
        let presetOutputsMap := buildPresetOutputsMap presetData.outputs
        let applied := applyLoop presetOutputsMap config.outputs
        let config := { config with outputs := applied.1 }
        match setConfigError with
        | some errorString =>
          { presets := self
            signals := [Signal.errorOccurred ("Failed to apply preset: " ++ errorString)]
            warnings := ["Failed to apply preset: " ++ errorString]
            submitted := some config
            calls := applied.2 }
        | none =>
          { presets := self.updateLastUsed presetId now
            signals := [Signal.presetApplied presetId]
            warnings := []
            submitted := some config
            calls := applied.2 }

/-! ## Inputs of the apply scenarios -/

/-- A live `HDMI-1`, connected and disabled, at position `(0, 0)`, supporting the
modes `m0` (1920x1080 at 60) and `m1` (1280x720 at 60), with `m0` current. -/
def liveHDMI : LiveOutput :=
  { name := "HDMI-1", connected := true, enabled := false, priority := 0,
    posX := 0, posY := 0, scale := 1, rotation := 1, currentModeId := "m0",
    modes := [{ id := "m0", width := 1920, height := 1080, refreshRate := 60 },
              { id := "m1", width := 1280, height := 720, refreshRate := 60 }] }

/-- A preset entry for `HDMI-1`: enabled, at `(1920, 0)`, mode `m1`, rotated,
scale 2, primary. -/
def hdmiTargetSpec : OutputSpec :=
  { name := "HDMI-1", enabled := true, primary := true, posX := 1920, posY := 0,
    scale := some 2, rotation := some 2, currentModeId := "m1",
    mode := some { id := "m1", width := 1280, height := 720, refreshRate := 60 } }

/-- A preset entry for `HDMI-1` whose mode `m9` the live output does not
support. -/
def hdmiMissingModeSpec : OutputSpec :=
  { hdmiTargetSpec with currentModeId := "m9" }

/-- A preset entry that disables `HDMI-1`, with other values than the live output
has. -/
def hdmiDisabledSpec : OutputSpec :=
  { hdmiTargetSpec with enabled := false }

/-- The entry that `applyPreset` applies to a live output named `name`: the last
entry of the list with that name, and none for the empty name. -/
def lastSpecNamed (name : String) : List OutputSpec → Option OutputSpec
  | [] => none
  | s :: rest =>
    match lastSpecNamed name rest with
    | some t => some t
    | none => if s.name == name && !name.isEmpty then some s else none

/-- The order of mutations in the words of the specification: the names of the
entries that have a same-named live output, in the order of the entries. -/
def namesInPresetOrder (specs : List OutputSpec) (outputs : List LiveOutput) : List String :=
  (specs.filter (fun s => outputs.any (fun o => o.name == s.name))).map (fun s => s.name)

/-- A store whose snapshot lists `HDMI-1` before `eDP-1`; the live configuration
known to the store holds both outputs, connected. -/
def twoOutputStore : Presets :=
  { m_presets := [{ id := "preset-2", name := "Both", lastUsed := some 1500,
                    configuration := some { outputs := [hdmiTargetSpec, scenarioASpec] } }],
    m_screenConfiguration := some { outputs := [liveEDP 1920 1080 60 1 0, liveHDMI] } }

/-- The live configuration fetched by the apply scenarios: `eDP-1` before
`HDMI-1`, and a `DP-2` that no snapshot mentions. -/
def twoOutputConfig : Config :=
  { outputs := [liveEDP 1920 1080 60 1 0, liveHDMI,
                { name := "DP-2", connected := true, enabled := true }] }

/-- A store whose snapshot enables `HDMI-1` with the mode `m9`, which the live
`HDMI-1` does not support. -/
def missingModeStore : Presets :=
  { m_presets := [{ id := "preset-m", name := "Beamer", lastUsed := some 1500,
                    configuration := some { outputs := [hdmiMissingModeSpec] } }],
    m_screenConfiguration := some { outputs := [liveHDMI] } }

/-- A store whose snapshot was loaded with an empty configuration map. -/
def emptyDataStore : Presets :=
  { m_presets := [{ id := "preset-e", name := "Bare", lastUsed := some 1500,
                    configuration := none }],
    m_screenConfiguration := some { outputs := [liveHDMI] } }

/-- A projection taken while `P1` was neither available nor current. -/
def statusBefore : List PresetSummary :=
  [{ presetId := "P1", name := "Home", description := "desk", lastUsed := "2025-01-01T10:00:00",
     shortcut := "Meta+1", outputCount := 1, isAvailable := false, isCurrent := false }]

/-- The same snapshot projected while available and current, with another output
count and configuration. -/
def statusAfter : List PresetSummary :=
  [{ presetId := "P1", name := "Home", description := "desk", lastUsed := "2025-01-01T10:00:00",
     shortcut := "Meta+1", outputCount := 2, configuration := some {},
     isAvailable := true, isCurrent := true }]

/-- A store with two snapshots that share the identifier `X`: `Home` and `Work`. -/
def sharedIdStore : Presets :=
  { m_presets := [{ id := "X", name := "Home", created := some 900 },
                  { id := "X", name := "Work", created := some 1000 }] }

/-- A store with the snapshots `Home` and `Work` under distinct identifiers. -/
def homeWorkStore : Presets :=
  { m_presets := [{ id := "H", name := "Home", created := some 900 },
                  { id := "X", name := "Work", created := some 1000 }] }

/-! ## `Presets::setScreenConfiguration` and the fields the matcher reads -/

/-- The function `Presets::setScreenConfiguration`. -/
def Presets.setScreenConfiguration (self : Presets) (config : Option Config) : Presets :=
  { self with m_screenConfiguration := config }

/-- The text that `QDateTime::toString(Qt::ISODate)` writes, represented by what it
denotes. The format is `yyyy-MM-ddTHH:mm:ss`: it has a resolution of one
second, so the text denotes a number of whole seconds since the epoch; the text
of an invalid `QDateTime` is empty (`none`). -/
abbrev IsoDate := Option Int

/-- The call `dateTime.toString(Qt::ISODate)`: the milliseconds are dropped. -/
def toIsoDate (dateTime : QDateTime) : IsoDate := dateTime.map (fun msecs => msecs / 1000)

/-- The call `QDateTime::fromString(text, Qt::ISODate)`. -/
def fromIsoDate (text : IsoDate) : QDateTime := text.map (fun seconds => seconds * 1000)

/-- The characters of the texts sent over D-Bus: how an ISO date and a key sequence
are spelled. The theorems hold for every spelling. -/
structure TextFormat where
  isoDate : IsoDate → String
  keySequence : QKeySequence → String

/-! ## `PresetsService`: projection and publication -/

/-- The record that `getPresets()` and `getPresetInfo()` build for one row of the
model. -/
def presetSummary (text : TextFormat) (self : Presets) (preset : DisplayPreset) :
    PresetSummary :=
  { presetId := preset.id
    name := preset.name
    description := preset.description
    lastUsed := text.isoDate (toIsoDate preset.lastUsed)
    outputCount := preset.outputIds.length
    configuration := preset.configuration
    shortcut := text.keySequence preset.shortcut
    isAvailable := self.isPresetAvailable preset.id
    isCurrent := self.isPresetCurrent preset.id }

/-- The function `PresetsService::getPresets`. -/
def getPresets (text : TextFormat) (self : Presets) : List PresetSummary :=
  self.m_presets.map (presetSummary text self)

/-- The record that `getPresetInfo` returns: the identifier, the flag `deleted`,
and the other entries, which are absent from the record of a deleted preset. -/
structure PublishedPreset where
  presetId : String
  deleted : Bool
  entries : Option PresetSummary
  deriving DecidableEq

/-- The function `PresetsService::getPresetInfo`. -/
def getPresetInfo (text : TextFormat) (self : Presets) (presetId : String) : PublishedPreset :=
  match self.m_presets.find? (fun preset => preset.id == presetId) with
  | some preset =>
    { presetId := presetId, deleted := false,
      entries := some { presetSummary text self preset with presetId := presetId } }
  | none => { presetId := presetId, deleted := true, entries := none }

/-- The function `PresetsService::emitPresetsChanged`: the argument of the signal
`presetsChanged` that it emits. -/
def emitPresetsChanged (text : TextFormat) (self : Presets) (changedPresetIds : List String) :
    List PublishedPreset :=
  if changedPresetIds.isEmpty then
    self.m_presets.map (fun preset => getPresetInfo text self preset.id)
  else changedPresetIds.map (getPresetInfo text self)

/-- The state of a `PresetsService`: the model and the cached projection. -/
structure PresetsService where
  m_presets : Presets := {}
  m_previousPresets : List PresetSummary := []

/-- The method `PresetsService::detectChangedPresets`: the cached projection is
compared with `getPresets()`. -/
def PresetsService.detectChangedPresets (text : TextFormat) (self : PresetsService) :
    List String :=
  KDisplayPresets.detectChangedPresets self.m_previousPresets (getPresets text self.m_presets)

/-- The function `PresetsService::onPresetsModelChanged`: the service afterwards,
and the arguments of the signals `presetsChanged` emitted, in order. -/
def onPresetsModelChanged (text : TextFormat) (self : PresetsService) :
    PresetsService × List (List PublishedPreset) :=
  let changedPresetIds := self.detectChangedPresets text
  let emitted :=
    if !changedPresetIds.isEmpty then [emitPresetsChanged text self.m_presets changedPresetIds]
    else []
  ({ self with m_previousPresets := getPresets text self.m_presets }, emitted)

/-! ## `Presets`: persistence -/

/-- The JSON object of one preset in the presets file. A JSON number holds the
stored `int`, `uint` and `float` values exactly, so the configuration is
represented by the same typed record; the text of the shortcut is represented
by the key sequence it spells. -/
structure PresetRecord where
  id : String
  name : String
  description : String
  created : IsoDate
  lastUsed : IsoDate
  configuration : Option Configuration
  shortcut : QKeySequence
  outputIds : List String
  deriving DecidableEq

/-- The JSON document of the presets file. -/
structure PresetsDocument where
  version : Int
  presets : List PresetRecord
  deriving DecidableEq

/-- The function `Presets::savePresetsToDisk`: the document written when the file
can be opened. -/
def savePresetsToDisk (m_presets : List DisplayPreset) : PresetsDocument :=
  { version := 1
    presets := m_presets.map (fun preset =>
      { id := preset.id
        name := preset.name
        description := preset.description
        created := toIsoDate preset.created
        lastUsed := toIsoDate preset.lastUsed
        configuration := preset.configuration
        shortcut := preset.shortcut
        outputIds := preset.outputIds }) }

/-- The function `Presets::loadPresetsFromDisk`: the value of `m_presets` after a
document was read. -/
def loadPresetsFromDisk (root : PresetsDocument) : List DisplayPreset :=
  root.presets.map (fun presetObj =>
    { id := presetObj.id
      name := presetObj.name
      description := presetObj.description
      created := fromIsoDate presetObj.created
      lastUsed := fromIsoDate presetObj.lastUsed
      configuration := presetObj.configuration
      shortcut := presetObj.shortcut
      outputIds := presetObj.outputIds })

/-! ## Inputs of the remaining scenarios -/

/-- A spelling of the texts, used to evaluate the projection on concrete stores. -/
def sampleText : TextFormat :=
  { isoDate := fun text => match text with
      | some seconds => if seconds = 1 then "1970-01-01T00:00:01" else "later"
      | none => ""
    keySequence := fun keys => if keys = [] then "" else "Meta+W" }

/-- A live output that is connected and enabled but reports no current mode. -/
def liveNoMode : LiveOutput := { name := "DP-1", connected := true, enabled := true }

/-- A snapshot created and last used one and a half seconds after the epoch. -/
def halfSecondPreset : DisplayPreset :=
  { id := "preset-t", name := "Timed", created := some 1500, lastUsed := some 1500 }

/-- A store whose snapshot enables `DP-1` with a stored mode, while the live `DP-1`
reports no current mode. -/
def noModeStore : Presets :=
  { m_presets := [{ id := "preset-n", name := "Dock",
                    configuration := some
                      { outputs := [{ name := "DP-1", enabled := true, scale := some 1,
                                      rotation := some 1,
                                      mode := some { width := 1920, height := 1080,
                                                     refreshRate := 60 } }] } }],
    m_screenConfiguration := some { outputs := [liveNoMode] } }

/-- A snapshot whose timestamps are whole seconds, with a configuration, output ids
and a shortcut. -/
def wholeSecondPreset : DisplayPreset :=
  { id := "preset-s", name := "Desk", description := "two seconds", created := some 2000,
    lastUsed := some 3000, outputIds := ["9f2c"], shortcut := [87],
    configuration := some { outputs := [scenarioASpec] } }

/-- A live configuration with `eDP-1` enabled and `HDMI-1` connected but disabled. -/
def laptopConfig : Config := { outputs := [liveEDP 1920 1080 60 1 0, liveHDMI] }

/-! ## Lemmas: lookup -/

theorem getPreset_of_mem (self : Presets) (presetId : String)
    (h : ∃ p ∈ self.m_presets, p.id = presetId) :
    self.getPreset presetId ∈ self.m_presets ∧ (self.getPreset presetId).id = presetId := by
  obtain ⟨p, hp, hid⟩ := h
  unfold Presets.getPreset
  cases hf : self.m_presets.find? (fun preset => preset.id == presetId) with
  | none =>
    have := List.find?_eq_none.mp hf p hp
    simp [hid] at this
  | some q =>
    have h1 := List.find?_some hf
    have h2 := List.mem_of_find?_eq_some hf
    simp at h1
    exact ⟨h2, h1⟩

theorem getPreset_of_not_mem (self : Presets) (presetId : String)
    (h : ∀ p ∈ self.m_presets, p.id ≠ presetId) :
    self.getPreset presetId = {} := by
  unfold Presets.getPreset
  cases hf : self.m_presets.find? (fun preset => preset.id == presetId) with
  | none => rfl
  | some q =>
    have h1 := List.find?_some hf
    have h2 := List.mem_of_find?_eq_some hf
    simp at h1
    exact absurd h1 (h q h2)

theorem default_id_isEmpty : (({} : DisplayPreset).id).isEmpty = true := by decide

/-! ## Lemmas: the loops of the matcher -/

theorem availableFound_iff (n : String) (L : List LiveOutput) :
    availableFound n L = true ↔ ∃ o ∈ L, o.name = n ∧ o.connected = true := by
  induction L with
  | nil => simp [availableFound]
  | cons o rest ih =>
    unfold availableFound
    by_cases h : o.name = n ∧ o.connected = true
    · simp [h]
    · have h' : (o.name == n && o.connected) = false := by
        simp only [Bool.and_eq_false_iff, beq_eq_false_iff_ne, ne_eq]
        by_cases hn : o.name = n
        · right; simpa [hn] using h
        · left; exact hn
      simp only [h', Bool.false_eq_true, if_false, ih, List.mem_cons, exists_eq_or_imp, h, false_or]

theorem availableLoop_iff (L : List LiveOutput) (specs : List OutputSpec) :
    availableLoop L specs = true ↔
      ∀ s ∈ specs, s.enabled = true → ∃ o ∈ L, o.name = s.name ∧ o.connected = true := by
  induction specs with
  | nil => simp [availableLoop]
  | cons s rest ih =>
    unfold availableLoop
    cases he : s.enabled with
    | false => simp [ih, he]
    | true =>
      by_cases hf : availableFound s.name L = true
      · simp [hf, ih, he, (availableFound_iff s.name L).mp hf]
      · have hn : ¬ ∃ o ∈ L, o.name = s.name ∧ o.connected = true :=
          fun hx => hf ((availableFound_iff s.name L).mpr hx)
        simp only [Bool.not_eq_true] at hf
        simp only [hf, he, Bool.not_true, Bool.not_false, Bool.false_eq_true, if_false, if_true,
          false_iff]
        intro hall
        exact hn (hall s (by simp) he)

theorem reverseFound_iff (n : String) (L : List LiveOutput) :
    reverseFound n L = true ↔
      ∃ o ∈ L, o.name = n ∧ o.connected = true ∧ o.enabled = true := by
  induction L with
  | nil => simp [reverseFound]
  | cons o rest ih =>
    unfold reverseFound
    by_cases h : o.name = n ∧ o.connected = true ∧ o.enabled = true
    · simp [h]
    · have h' : (o.name == n && o.connected && o.enabled) = false := by
        by_cases hn : o.name = n
        · cases hc : o.connected <;> cases he : o.enabled <;> simp_all
        · simp [hn]
      simp only [h', Bool.false_eq_true, if_false, ih, List.mem_cons, exists_eq_or_imp, h, false_or]

theorem reverseLoop_iff (L : List LiveOutput) (specs : List OutputSpec) :
    reverseLoop L specs = true ↔
      ∀ s ∈ specs, s.enabled = true →
        ∃ o ∈ L, o.name = s.name ∧ o.connected = true ∧ o.enabled = true := by
  induction specs with
  | nil => simp [reverseLoop]
  | cons s rest ih =>
    unfold reverseLoop
    cases he : s.enabled with
    | false => simp [ih, he]
    | true =>
      by_cases hf : reverseFound s.name L = true
      · simp [hf, ih, he, (reverseFound_iff s.name L).mp hf]
      · have hn : ¬ ∃ o ∈ L, o.name = s.name ∧ o.connected = true ∧ o.enabled = true :=
          fun hx => hf ((reverseFound_iff s.name L).mpr hx)
        simp only [Bool.not_eq_true] at hf
        simp only [hf, Bool.not_true, Bool.not_false, Bool.false_eq_true, if_false, if_true,
          false_iff]
        intro hall
        exact hn (hall s (by simp) he)

/-- The preset entry that the forward check compares a live output with: the
first one of the same name. -/
theorem forwardInner_eq (o : LiveOutput) (specs : List OutputSpec) :
    forwardInner o specs =
      match specs.find? (fun s => s.name == o.name) with
      | none => ForwardResult.notFound
      | some s =>
        if o.enabled != s.enabled then ForwardResult.mismatch
        else if o.enabled then
          if enabledPropertiesMatch o s then ForwardResult.found else ForwardResult.mismatch
        else ForwardResult.found := by
  induction specs with
  | nil => simp [forwardInner]
  | cons s rest ih =>
    unfold forwardInner
    by_cases hn : s.name = o.name
    · simp [hn]
    · simp [hn, ih]

theorem enabledPropertiesMatch_iff (o : LiveOutput) (s : OutputSpec) :
    enabledPropertiesMatch o s = true ↔
      castUInt32 s.priority = o.priority ∧ o.posX = s.posX ∧ o.posY = s.posY ∧
      (∃ m, o.currentMode = some m ∧ m.width = s.modeWidth ∧ m.height = s.modeHeight ∧
        RefreshWithinTolerance m.refreshRate s.storedRefresh) ∧
      ScaleWithinTolerance o.scale s.storedScale ∧ o.rotation = s.rotationToInt := by
  unfold enabledPropertiesMatch RefreshWithinTolerance ScaleWithinTolerance
  unfold OutputSpec.modeRefresh OutputSpec.scaleToReal
  cases hm : o.currentMode with
  | none => simp
  | some m =>
    simp only [bne_iff_ne, ne_eq, Prod.mk.injEq, Bool.or_eq_true, decide_eq_true_eq,
      gt_iff_lt, Option.some.injEq, exists_eq_left', ← not_le]
    by_cases h1 : castUInt32 s.priority = o.priority <;>
    by_cases h2 : o.posX = s.posX <;>
    by_cases h3 : o.posY = s.posY <;>
    by_cases h4 : m.width = s.modeWidth <;>
    by_cases h5 : m.height = s.modeHeight <;>
    by_cases h6 : |toFloat (toFloat m.refreshRate - toFloat s.storedRefresh)|
      ≤ toDouble (1 / 10) <;>
    by_cases h7 : |toDouble (toDouble o.scale - toDouble s.storedScale)|
      ≤ toDouble (1 / 100) <;>
    by_cases h8 : o.rotation = s.rotationToInt <;>
    simp [h1, h2, h3, h4, h5, h6, h7, h8]

theorem forwardInner_cases (o : LiveOutput) (specs : List OutputSpec) :
    (forwardInner o specs = ForwardResult.mismatch → ¬ ForwardOk specs o) ∧
    (forwardInner o specs = ForwardResult.found → ForwardOk specs o) ∧
    (forwardInner o specs = ForwardResult.notFound → (ForwardOk specs o ↔ o.enabled = false)) := by
  rw [forwardInner_eq]
  unfold ForwardOk findSpec
  cases hf : specs.find? (fun s => s.name == o.name) with
  | none => simp
  | some s =>
    have hp := enabledPropertiesMatch_iff o s
    cases ho : o.enabled <;> cases hs : s.enabled <;>
      by_cases hm : enabledPropertiesMatch o s = true <;>
      simp_all [PropertiesAgree]

theorem forwardLoop_iff (specs : List OutputSpec) (L : List LiveOutput) :
    forwardLoop specs L = true ↔ ∀ o ∈ L, o.connected = true → ForwardOk specs o := by
  induction L with
  | nil => simp [forwardLoop]
  | cons o rest ih =>
    unfold forwardLoop
    obtain ⟨h1, h2, h3⟩ := forwardInner_cases o specs
    cases hc : o.connected with
    | false => simp [ih, hc]
    | true =>
      cases hr : forwardInner o specs with
      | mismatch => simp [hc, h1 hr]
      | found => simp [hc, h2 hr, ih]
      | notFound =>
        have h3' := h3 hr
        cases he : o.enabled with
        | false => simp [hc, ih, h3'.mpr he]
        | true =>
          have : ¬ ForwardOk specs o := fun hx => by simp [h3'.mp hx] at he
          simp [hc, this]

/-- The verdict of `isPresetCurrent` when a live configuration is set. -/
theorem isPresetCurrent_eq_true_iff (self : Presets) (presetId : String) (config : Config)
    (hcfg : self.m_screenConfiguration = some config) :
    self.isPresetCurrent presetId = true ↔
      (self.getPreset presetId).id ≠ "" ∧
      (∀ o ∈ config.outputs, o.connected = true →
        ForwardOk (self.getPreset presetId).outputsList o) ∧
      ReverseOk (self.getPreset presetId).outputsList config.outputs := by
  unfold Presets.isPresetCurrent
  rw [hcfg]
  simp only
  by_cases hid : (self.getPreset presetId).id = ""
  · have he : (self.getPreset presetId).id.isEmpty = true := (String.isEmpty_iff _).mpr hid
    rw [he]
    simp [hid]
  · have hne : (self.getPreset presetId).id.isEmpty = false := by
      cases h : (self.getPreset presetId).id.isEmpty with
      | false => rfl
      | true => exact absurd ((String.isEmpty_iff _).mp h) hid
    rw [hne]
    simp only [Bool.false_eq_true, if_false, ne_eq, hid, not_false_eq_true, true_and]
    rw [← forwardLoop_iff]
    unfold ReverseOk
    rw [← reverseLoop_iff]
    cases forwardLoop (self.getPreset presetId).outputsList config.outputs <;> simp

/-- The verdict of `isPresetAvailable` when a live configuration is set. -/
theorem isPresetAvailable_eq_true_iff (self : Presets) (presetId : String) (config : Config)
    (hcfg : self.m_screenConfiguration = some config) :
    self.isPresetAvailable presetId = true ↔
      (self.getPreset presetId).id ≠ "" ∧
      ∀ s ∈ (self.getPreset presetId).outputsList, s.enabled = true →
        ∃ o ∈ config.outputs, o.name = s.name ∧ o.connected = true := by
  unfold Presets.isPresetAvailable
  rw [hcfg]
  simp only
  by_cases hid : (self.getPreset presetId).id = ""
  · have he : (self.getPreset presetId).id.isEmpty = true := (String.isEmpty_iff _).mpr hid
    rw [he]
    simp [hid]
  · have hne : (self.getPreset presetId).id.isEmpty = false := by
      cases h : (self.getPreset presetId).id.isEmpty with
      | false => rfl
      | true => exact absurd ((String.isEmpty_iff _).mp h) hid
    rw [hne]
    simp only [Bool.false_eq_true, if_false, ne_eq, hid, not_false_eq_true, true_and]
    exact availableLoop_iff _ _

/-! ## Lemmas: floating point -/

/-- The function `pow2` is the power of two. -/
theorem pow2_eq_zpow (k : Int) : pow2 k = (2 : ℚ) ^ k := by
  unfold pow2
  split_ifs with h
  · obtain ⟨n, rfl⟩ := Int.eq_ofNat_of_zero_le h
    simp
  · push_neg at h
    obtain ⟨n, hn⟩ := Int.eq_ofNat_of_zero_le (by omega : 0 ≤ -k)
    have hk : k = -(n : Int) := by omega
    subst hk
    simp

theorem pow2_pos (k : Int) : 0 < pow2 k := by
  rw [pow2_eq_zpow]
  positivity

/-- With enough fuel, `log2Loop` is the integer part of the binary logarithm. -/
theorem log2Loop_spec : ∀ (fuel n : Nat), 1 ≤ n → n ≤ fuel →
    2 ^ log2Loop fuel n ≤ n ∧ n < 2 ^ (log2Loop fuel n + 1) := by
  intro fuel
  induction fuel with
  | zero => intro n h1 h2; omega
  | succ fuel ih =>
    intro n h1 h2
    unfold log2Loop
    split_ifs with h
    · simp; omega
    · have := ih (n / 2) (by omega) (by omega)
      rw [pow_succ, pow_succ]
      rw [pow_succ] at this
      omega

/-- The function `floorLog2` returns the binary exponent of a positive rational. -/
theorem floorLog2_spec (a : ℚ) (ha : 0 < a) :
    (2 : ℚ) ^ floorLog2 a ≤ a ∧ a < (2 : ℚ) ^ (floorLog2 a + 1) := by
  have hnum : 0 < a.num := Rat.num_pos.mpr ha
  obtain ⟨N, hN⟩ := Int.eq_ofNat_of_zero_le hnum.le
  have hN1 : 1 ≤ N := by omega
  have hD1 : 1 ≤ a.den := a.den_pos
  have hna : a.num.natAbs = N := by rw [hN]; simp
  obtain ⟨h1, h2⟩ := log2Loop_spec N N hN1 le_rfl
  obtain ⟨h3, h4⟩ := log2Loop_spec a.den a.den hD1 le_rfl
  have haeq : a = (N : ℚ) / (a.den : ℚ) := by
    have h := Rat.num_div_den a
    rw [hN, Int.cast_natCast] at h
    exact h.symm
  have hDpos : (0 : ℚ) < (a.den : ℚ) := by exact_mod_cast hD1
  have h1q : (2 : ℚ) ^ (log2Loop N N) ≤ (N : ℚ) := by exact_mod_cast h1
  have h2q : (N : ℚ) < (2 : ℚ) ^ (log2Loop N N + 1) := by exact_mod_cast h2
  have h3q : (2 : ℚ) ^ (log2Loop a.den a.den) ≤ (a.den : ℚ) := by exact_mod_cast h3
  have h4q : (a.den : ℚ) < (2 : ℚ) ^ (log2Loop a.den a.den + 1) := by exact_mod_cast h4
  set la := log2Loop N N
  set lb := log2Loop a.den a.den
  have hlow : (2 : ℚ) ^ ((la : Int) - lb - 1) < a := by
    rw [haeq, lt_div_iff₀ hDpos]
    have : (2 : ℚ) ^ ((la : Int) - lb - 1) * (2 : ℚ) ^ (lb + 1) = (2 : ℚ) ^ la := by
      rw [← zpow_natCast, ← zpow_natCast, ← zpow_add₀ (by norm_num)]
      congr 1
      push_cast
      ring
    calc (2 : ℚ) ^ ((la : Int) - lb - 1) * (a.den : ℚ)
        < (2 : ℚ) ^ ((la : Int) - lb - 1) * (2 : ℚ) ^ (lb + 1) := by
          apply mul_lt_mul_of_pos_left h4q
          positivity
      _ = (2 : ℚ) ^ la := this
      _ ≤ N := h1q
  have hhigh : a < (2 : ℚ) ^ ((la : Int) - lb + 1) := by
    rw [haeq, div_lt_iff₀ hDpos]
    have : (2 : ℚ) ^ ((la : Int) - lb + 1) * (2 : ℚ) ^ lb = (2 : ℚ) ^ (la + 1) := by
      rw [← zpow_natCast, ← zpow_natCast, ← zpow_add₀ (by norm_num)]
      congr 1
      push_cast
      ring
    calc (N : ℚ) < (2 : ℚ) ^ (la + 1) := h2q
      _ = (2 : ℚ) ^ ((la : Int) - lb + 1) * (2 : ℚ) ^ lb := this.symm
      _ ≤ (2 : ℚ) ^ ((la : Int) - lb + 1) * (a.den : ℚ) := by
          apply mul_le_mul_of_nonneg_left h3q
          positivity
  unfold floorLog2
  simp only [hna]
  rw [pow2_eq_zpow]
  split_ifs with h
  · exact ⟨h, hhigh⟩
  · push_neg at h
    refine ⟨hlow.le, ?_⟩
    have : (la : Int) - lb - 1 + 1 = (la : Int) - lb := by ring
    rw [this]
    exact h

/-- The significand chosen by the rounding: for `q ≥ 0`, an integer at most one
half away from `q`, even when it is exactly one half away. -/
theorem nearest_even_choice (q : ℚ) :
    let n : Int := ⌊q⌋
    let r := q - n
    let n' : Int :=
      if r < 1 / 2 then n else if 1 / 2 < r then n + 1 else if n % 2 = 0 then n else n + 1
    |(n' : ℚ) - q| ≤ 1 / 2 ∧ (|(n' : ℚ) - q| = 1 / 2 → n' % 2 = 0) := by
  intro n r n'
  have h0 : 0 ≤ r := by
    have := Int.floor_le q
    simp only [r, n]; linarith
  have h1 : r < 1 := by
    have := Int.lt_floor_add_one q
    simp only [r, n]; linarith
  have hq : q = n + r := by simp only [r]; ring
  by_cases hlt : r < 1 / 2
  · have hn' : n' = n := by simp only [n', hlt, if_true]
    rw [hn']
    have : (n : ℚ) - q = -r := by rw [hq]; ring
    rw [this, abs_neg, abs_of_nonneg h0]
    exact ⟨hlt.le, fun h => absurd h (ne_of_lt hlt)⟩
  · by_cases hgt : 1 / 2 < r
    · have hn' : n' = n + 1 := by simp only [n', hlt, hgt, if_true, if_false]
      rw [hn']
      have : ((n + 1 : Int) : ℚ) - q = 1 - r := by rw [hq]; push_cast; ring
      rw [this, abs_of_nonneg (by linarith)]
      exact ⟨by linarith, fun h => by linarith⟩
    · have hr : r = 1 / 2 := le_antisymm (not_lt.mp hgt) (not_lt.mp hlt)
      by_cases hev : n % 2 = 0
      · have hn' : n' = n := by simp only [n', hlt, hgt, hev, if_true, if_false]
        rw [hn']
        have : (n : ℚ) - q = -r := by rw [hq]; ring
        rw [this, abs_neg, abs_of_nonneg h0]
        exact ⟨hr.le, fun _ => hev⟩
      · have hn' : n' = n + 1 := by simp only [n', hlt, hgt, hev, if_true, if_false]
        rw [hn']
        have : ((n + 1 : Int) : ℚ) - q = 1 - r := by rw [hq]; push_cast; ring
        rw [this, abs_of_nonneg (by linarith)]
        exact ⟨by linarith, fun _ => by omega⟩

/-- The rounding returns a multiple of the unit in the last place of `x` that is at
most half a unit away from `x`, with an even multiplier when it is exactly half a
unit away: a nearest number of the format, ties to even. -/
theorem roundNearestEven_spec (precision : Nat) (emin : Int) (x : ℚ) (hx : x ≠ 0) :
    ∃ n : Int,
      roundNearestEven precision emin x
        = n * pow2 (max (floorLog2 |x|) emin - precision + 1) ∧
      |roundNearestEven precision emin x - x|
        ≤ pow2 (max (floorLog2 |x|) emin - precision + 1) / 2 ∧
      (|roundNearestEven precision emin x - x|
        = pow2 (max (floorLog2 |x|) emin - precision + 1) / 2 → n % 2 = 0) := by
  have hu := pow2_pos (max (floorLog2 |x|) emin - precision + 1)
  obtain ⟨hc1, hc2⟩ := nearest_even_choice (|x| / pow2 (max (floorLog2 |x|) emin - precision + 1))
  unfold roundNearestEven
  simp only [hx, if_false]
  set u := pow2 (max (floorLog2 |x|) emin - precision + 1) with hudef
  set q := |x| / u with hqdef
  set n' : Int := if q - (⌊q⌋ : Int) < 1 / 2 then ⌊q⌋ else if 1 / 2 < q - (⌊q⌋ : Int) then ⌊q⌋ + 1
    else if ⌊q⌋ % 2 = 0 then ⌊q⌋ else ⌊q⌋ + 1 with hn'
  have hxq : |x| = q * u := by rw [hqdef]; field_simp
  have key : ∀ y : ℚ, y = |x| → |(n' : ℚ) * u - y| = |(n' : ℚ) - q| * u := by
    intro y hy
    rw [hy, hxq, ← sub_mul, abs_mul, abs_of_pos hu]
  have hhalf : |(n' : ℚ) - q| * u ≤ u / 2 := by
    calc |(n' : ℚ) - q| * u ≤ 1 / 2 * u := mul_le_mul_of_nonneg_right hc1 hu.le
      _ = u / 2 := by ring
  have htie : |(n' : ℚ) - q| * u = u / 2 → n' % 2 = 0 := by
    intro h
    apply hc2
    have hne : u ≠ 0 := ne_of_gt hu
    have h' : |(n' : ℚ) - q| * u = 1 / 2 * u := by rw [h]; ring
    exact mul_right_cancel₀ hne h'
  by_cases hneg : x < 0
  · simp only [hneg, if_true]
    have hy : -x = |x| := (abs_of_neg hneg).symm
    have e1 : -((n' : ℚ) * u) - x = -((n' : ℚ) * u - -x) := by ring
    refine ⟨-n', by push_cast; ring, ?_, ?_⟩
    · rw [e1, abs_neg, key _ hy]
      exact hhalf
    · intro h
      rw [e1, abs_neg, key _ hy] at h
      have := htie h
      omega
  · simp only [hneg, if_false]
    have hy : x = |x| := (abs_of_nonneg (not_lt.mp hneg)).symm
    refine ⟨n', rfl, ?_, ?_⟩
    · rw [key _ hy]
      exact hhalf
    · intro h
      rw [key _ hy] at h
      exact htie h

/-- The significand chosen by the rounding is the integer part of `q` or the next
integer. -/
theorem nearest_even_choice_bounds (q : ℚ) :
    let n : Int := ⌊q⌋
    let r := q - n
    let n' : Int :=
      if r < 1 / 2 then n else if 1 / 2 < r then n + 1 else if n % 2 = 0 then n else n + 1
    ⌊q⌋ ≤ n' ∧ n' ≤ ⌊q⌋ + 1 := by
  intro n r n'
  simp only [n']
  split_ifs <;> simp only [n] <;> omega

/-- The significand of the result has at most `precision` bits (the bound
`2 ^ precision` itself is reached when the rounding carries into the next
exponent), and exactly that many in the normal range. -/
theorem roundNearestEven_significand (precision : Nat) (emin : Int) (x : ℚ) (hx : x ≠ 0)
    (hp : 1 ≤ precision) :
    ∃ n : Int,
      roundNearestEven precision emin x
        = n * pow2 (max (floorLog2 |x|) emin - precision + 1) ∧
      n.natAbs ≤ 2 ^ precision ∧
      (emin ≤ floorLog2 |x| → 2 ^ (precision - 1) ≤ n.natAbs) := by
  have hapos : 0 < |x| := abs_pos.mpr hx
  obtain ⟨hlo, hhi⟩ := floorLog2_spec |x| hapos
  have hu := pow2_pos (max (floorLog2 |x|) emin - precision + 1)
  obtain ⟨hb1, hb2⟩ :=
    nearest_even_choice_bounds (|x| / pow2 (max (floorLog2 |x|) emin - precision + 1))
  unfold roundNearestEven
  simp only [hx, if_false]
  set E := floorLog2 |x| with hE
  set u := pow2 (max E emin - precision + 1) with hudef
  set q := |x| / u with hqdef
  set n' : Int := if q - (⌊q⌋ : Int) < 1 / 2 then ⌊q⌋ else if 1 / 2 < q - (⌊q⌋ : Int) then ⌊q⌋ + 1
    else if ⌊q⌋ % 2 = 0 then ⌊q⌋ else ⌊q⌋ + 1 with hn'
  have hu2 : u = (2 : ℚ) ^ (max E emin - precision + 1) := by rw [hudef, pow2_eq_zpow]
  have hq0 : 0 ≤ q := by rw [hqdef]; positivity
  have hfl0 : 0 ≤ ⌊q⌋ := Int.floor_nonneg.mpr hq0
  -- upper bound
  have hqlt : q < (2 : ℚ) ^ (precision : Int) := by
    rw [hqdef, div_lt_iff₀ hu, hu2, ← zpow_add₀ (by norm_num : (2 : ℚ) ≠ 0)]
    calc |x| < (2 : ℚ) ^ (E + 1) := hhi
      _ ≤ (2 : ℚ) ^ ((precision : Int) + (max E emin - precision + 1)) := by
        apply zpow_le_zpow_right₀ (by norm_num)
        have := le_max_left E emin
        omega
  have hfllt : ⌊q⌋ < (2 : Int) ^ precision := by
    have : ((⌊q⌋ : Int) : ℚ) < (((2 : Int) ^ precision : Int) : ℚ) := by
      push_cast
      rw [← zpow_natCast]
      exact lt_of_le_of_lt (Int.floor_le q) hqlt
    exact_mod_cast this
  have hn'0 : 0 ≤ n' := le_trans hfl0 hb1
  have hn'le : n' ≤ (2 : Int) ^ precision := by omega
  have habs : (n'.natAbs : Int) = n' := Int.natAbs_of_nonneg hn'0
  -- lower bound in the normal range
  have hlower : emin ≤ E → (2 : Int) ^ (precision - 1) ≤ n' := by
    intro hnorm
    have hmax : max E emin = E := max_eq_left hnorm
    have hqge : (2 : ℚ) ^ ((precision - 1 : Nat) : Int) ≤ q := by
      rw [hqdef, le_div_iff₀ hu, hu2, hmax, ← zpow_add₀ (by norm_num : (2 : ℚ) ≠ 0)]
      have : ((precision - 1 : Nat) : Int) + (E - precision + 1) = E := by omega
      rw [this]
      exact hlo
    have : (2 : Int) ^ (precision - 1) ≤ ⌊q⌋ := by
      apply Int.le_floor.mpr
      push_cast
      rw [← zpow_natCast]
      exact hqge
    omega
  have hcast : ∀ k : Nat, ((2 ^ k : Nat) : Int) = (2 : Int) ^ k := by intro k; push_cast; rfl
  by_cases hneg : x < 0
  · simp only [hneg, if_true]
    refine ⟨-n', by push_cast; ring, ?_, ?_⟩
    · rw [Int.natAbs_neg]
      have : (n'.natAbs : Int) ≤ ((2 ^ precision : Nat) : Int) := by rw [habs, hcast]; exact hn'le
      exact_mod_cast this
    · intro hnorm
      rw [Int.natAbs_neg]
      have : ((2 ^ (precision - 1) : Nat) : Int) ≤ (n'.natAbs : Int) := by
        rw [habs, hcast]; exact hlower hnorm
      exact_mod_cast this
  · simp only [hneg, if_false]
    refine ⟨n', rfl, ?_, ?_⟩
    · have : (n'.natAbs : Int) ≤ ((2 ^ precision : Nat) : Int) := by rw [habs, hcast]; exact hn'le
      exact_mod_cast this
    · intro hnorm
      have : ((2 ^ (precision - 1) : Nat) : Int) ≤ (n'.natAbs : Int) := by
        rw [habs, hcast]; exact hlower hnorm
      exact_mod_cast this

/-- A number of the format is its own rounding: `n * 2 ^ k` with a significand `n`
of at most `precision` bits and an exponent `k` not below that of the subnormal
numbers. -/
theorem roundNearestEven_of_representable (precision : Nat) (emin : Int) (n k : Int)
    (hn : n.natAbs < 2 ^ precision) (hk : emin - precision + 1 ≤ k) :
    roundNearestEven precision emin (n * pow2 k) = n * pow2 k := by
  by_cases hn0 : n = 0
  · subst hn0
    simp [roundNearestEven]
  have hkpos := pow2_pos k
  have hx : (n : ℚ) * pow2 k ≠ 0 := by
    apply mul_ne_zero _ (ne_of_gt hkpos)
    exact_mod_cast hn0
  have hapos : 0 < |(n : ℚ) * pow2 k| := abs_pos.mpr hx
  obtain ⟨hlo, -⟩ := floorLog2_spec _ hapos
  have habs : |(n : ℚ) * pow2 k| = (n.natAbs : ℚ) * (2 : ℚ) ^ k := by
    rw [abs_mul, abs_of_pos hkpos, pow2_eq_zpow, Nat.cast_natAbs, Int.cast_abs]
  have hu := pow2_pos (max (floorLog2 |(n : ℚ) * pow2 k|) emin - precision + 1)
  unfold roundNearestEven
  simp only [hx, if_false]
  set E := floorLog2 |(n : ℚ) * pow2 k| with hE
  set u := pow2 (max E emin - precision + 1) with hudef
  have hu2 : u = (2 : ℚ) ^ (max E emin - precision + 1) := by rw [hudef, pow2_eq_zpow]
  -- the exponent of the unit in the last place is at most `k`
  have hElt : E < precision + k := by
    have h1 : (2 : ℚ) ^ E < (2 : ℚ) ^ ((precision : Int) + k) := by
      calc (2 : ℚ) ^ E ≤ (n.natAbs : ℚ) * (2 : ℚ) ^ k := by rw [← habs]; exact hlo
        _ < (2 : ℚ) ^ (precision : Int) * (2 : ℚ) ^ k := by
          apply mul_lt_mul_of_pos_right _ (by positivity)
          rw [zpow_natCast]
          exact_mod_cast hn
        _ = (2 : ℚ) ^ ((precision : Int) + k) := by
          rw [zpow_add₀ (by norm_num : (2 : ℚ) ≠ 0)]
    exact (zpow_lt_zpow_iff_right₀ (by norm_num : (1 : ℚ) < 2)).mp h1
  have hd : 0 ≤ k - (max E emin - precision + 1) := by
    rcases max_cases E emin with ⟨h, -⟩ | ⟨h, -⟩ <;> rw [h] <;> omega
  obtain ⟨d, hdeq⟩ := Int.eq_ofNat_of_zero_le hd
  have hq : |(n : ℚ) * pow2 k| / u = ((n.natAbs * 2 ^ d : Nat) : ℚ) := by
    rw [habs, hu2, div_eq_iff (by positivity)]
    push_cast
    rw [mul_assoc, ← zpow_natCast, ← zpow_add₀ (by norm_num : (2 : ℚ) ≠ 0)]
    congr 2
    omega
  rw [hq]
  have hfloor : ⌊((n.natAbs * 2 ^ d : Nat) : ℚ)⌋ = ((n.natAbs * 2 ^ d : Nat) : Int) :=
    Int.floor_natCast _
  simp only [hfloor, Int.cast_natCast, sub_self]
  norm_num
  have hback : |(n : ℚ)| * 2 ^ d * u = |(n : ℚ) * pow2 k| := by
    have := hq
    rw [div_eq_iff (ne_of_gt hu)] at this
    rw [this, ← Int.cast_abs, ← Nat.cast_natAbs]
    push_cast
    ring
  by_cases hneg : (n : ℚ) * pow2 k < 0
  · simp only [hneg, if_true]
    rw [hback, abs_of_neg hneg]
    ring
  · simp only [hneg, if_false]
    rw [hback, abs_of_nonneg (not_lt.mp hneg)]

theorem pow2_succ (k : Int) : pow2 (k + 1) = pow2 k * 2 := by
  rw [pow2_eq_zpow, pow2_eq_zpow, zpow_add_one₀ (by norm_num : (2 : ℚ) ≠ 0)]

/-- Rounding twice is rounding once: the result of the rounding is a number of the
format. -/
theorem roundNearestEven_idem (precision : Nat) (emin : Int) (x : ℚ) (hp : 1 ≤ precision) :
    roundNearestEven precision emin (roundNearestEven precision emin x)
      = roundNearestEven precision emin x := by
  by_cases hx : x = 0
  · subst hx
    simp [roundNearestEven]
  obtain ⟨n, hn, hle, -⟩ := roundNearestEven_significand precision emin x hx hp
  have hk : emin - precision + 1 ≤ max (floorLog2 |x|) emin - precision + 1 := by
    have := le_max_right (floorLog2 |x|) emin
    omega
  rw [hn]
  rcases Nat.lt_or_ge n.natAbs (2 ^ precision) with hlt | hge
  · exact roundNearestEven_of_representable precision emin n _ hlt hk
  · have heq : n.natAbs = 2 ^ precision := le_antisymm hle hge
    obtain ⟨p, rfl⟩ : ∃ p, precision = p + 1 := ⟨precision - 1, by omega⟩
    have hdvd : (2 : Int) ∣ n := by
      have : (2 : Int) ∣ (n.natAbs : Int) := by
        rw [heq]; push_cast; exact Dvd.intro_left _ rfl
      exact (Int.dvd_natAbs).mp this
    obtain ⟨m, rfl⟩ := hdvd
    have hm : m.natAbs = 2 ^ p := by
      rw [Int.natAbs_mul, pow_succ] at heq
      simp at heq
      omega
    have h2 : ((2 * m : Int) : ℚ) * pow2 (max (floorLog2 |x|) emin - (p + 1 : Nat) + 1)
        = (m : ℚ) * pow2 (max (floorLog2 |x|) emin - (p + 1 : Nat) + 1 + 1) := by
      rw [pow2_succ (max (floorLog2 |x|) emin - (p + 1 : Nat) + 1)]
      push_cast
      ring
    rw [h2]
    apply roundNearestEven_of_representable
    · rw [hm, pow_succ]
      have := Nat.pos_pow_of_pos p (by norm_num : 0 < 2)
      omega
    · omega

theorem roundNearestEven_zero (precision : Nat) (emin : Int) :
    roundNearestEven precision emin 0 = 0 := by
  simp [roundNearestEven]

theorem toFloat_zero : toFloat 0 = 0 := roundNearestEven_zero 24 (-126)

theorem toDouble_zero : toDouble 0 = 0 := roundNearestEven_zero 53 (-1022)

/-- The `double` literal `0.1` is `0x3FB999999999999A`. -/
theorem toDouble_tenth : toDouble (1 / 10) = 3602879701896397 / 36028797018963968 := by
  decide!

/-- The `double` literal `0.01` is `0x3F847AE147AE147B`. -/
theorem toDouble_hundredth : toDouble (1 / 100) = 5764607523034235 / 576460752303423488 := by
  decide!

/-- The `float` nearest to `0.1` is `0x3DCCCCCD`, and the one nearest to `143.9` is
`143.899993896484375`. -/
theorem toFloat_samples :
    toFloat (1 / 10) = 13421773 / 134217728 ∧ toFloat (1439 / 10) = 4715315 / 32768 ∧
    toFloat 60 = 60 ∧ toFloat 16777217 = 16777216 ∧ toFloat 16777219 = 16777220 ∧
    toFloat (-16777219) = -16777220 := by
  decide!

/-- Rounding in the subnormal range of `float`: the smallest positive `float` is
`2 ^ (-149)`, half of it is a tie and rounds to the even neighbour `0`. -/
theorem toFloat_subnormal :
    toFloat (1 / 2 ^ 149) = 1 / 2 ^ 149 ∧ toFloat (1 / 2 ^ 150) = 0 ∧
    toFloat (3 / 2 ^ 150) = 1 / 2 ^ 148 := by
  decide!

/-- The `double` nearest to `1.01` is `0x3FF028F5C28F5C29`, and the one nearest to
`1/3` is `0x3FD5555555555555`. -/
theorem toDouble_samples :
    toDouble (101 / 100) = 4548635623644201 / 4503599627370496 ∧
    toDouble (1 / 3) = 6004799503160661 / 18014398509481984 ∧ toDouble 1 = 1 := by
  decide!

/-- A `float` converted to `float` is unchanged. -/
theorem toFloat_toFloat (x : ℚ) : toFloat (toFloat x) = toFloat x :=
  roundNearestEven_idem 24 (-126) x (by norm_num)

/-- A `double` converted to `double` is unchanged. -/
theorem toDouble_toDouble (x : ℚ) : toDouble (toDouble x) = toDouble x :=
  roundNearestEven_idem 53 (-1022) x (by norm_num)

/-- Two rates that convert to the same `float` pass the refresh-rate test. -/
theorem refreshWithinTolerance_of_eq (x y : ℚ) (h : toFloat x = toFloat y) :
    RefreshWithinTolerance x y := by
  unfold RefreshWithinTolerance
  rw [h, sub_self, toFloat_zero, toDouble_tenth]
  norm_num

/-- Two scales that are the same `double` pass the scale test. -/
theorem scaleWithinTolerance_of_eq (x y : ℚ) (h : toDouble x = toDouble y) :
    ScaleWithinTolerance x y := by
  unfold ScaleWithinTolerance
  rw [h, sub_self, toDouble_zero, toDouble_hundredth]
  norm_num

/-- Scenario A evaluated on the code: the live output at 59.95 Hz and scale 1.005
matches the snapshot. -/
theorem scenarioA_isPresetCurrent :
    (scenarioAStore [liveEDP 1920 1080 (1199 / 20) (201 / 200) 0]).isPresetCurrent "preset-a"
      = true := by
  decide!

/-- C1: for every store, preset id and live configuration, a preset that
`isPresetCurrent` reports current is reported available by `isPresetAvailable`. -/
theorem isPresetCurrent_implies_isPresetAvailable (self : Presets) (presetId : String)
    (h : self.isPresetCurrent presetId = true) :
    self.isPresetAvailable presetId = true := by
  cases hcfg : self.m_screenConfiguration with
  | none => simp [Presets.isPresetCurrent, hcfg] at h
  | some config =>
    obtain ⟨hid, -, hrev⟩ := (isPresetCurrent_eq_true_iff self presetId config hcfg).mp h
    refine (isPresetAvailable_eq_true_iff self presetId config hcfg).mpr ⟨hid, ?_⟩
    intro s hs he
    obtain ⟨o, ho, hn, hc, -⟩ := hrev s hs he
    exact ⟨o, ho, hn, hc⟩

/-- C1 at Scenario A: the snapshot is current, hence available. -/
theorem isPresetCurrent_implies_isPresetAvailable_witness :
    (scenarioAStore [liveEDP 1920 1080 (1199 / 20) (201 / 200) 0]).isPresetCurrent "preset-a"
      = true ∧
    (scenarioAStore [liveEDP 1920 1080 (1199 / 20) (201 / 200) 0]).isPresetAvailable "preset-a"
      = true :=
  ⟨scenarioA_isPresetCurrent,
   isPresetCurrent_implies_isPresetAvailable _ _ scenarioA_isPresetCurrent⟩

/-- C2, as stated, fails for a snapshot stored with an empty identifier: the
identifier is present in the store and no entry of the snapshot is enabled, yet
`isPresetAvailable` returns false, because the empty identifier is what
`getPreset` returns for "not found". -/
theorem isPresetAvailable_empty_id_counterexample :
    (∃ p ∈ emptyIdStore.m_presets, p.id = "") ∧
    emptyIdStore.m_screenConfiguration = some {} ∧
    (∀ s ∈ (emptyIdStore.getPreset "").outputsList, s.enabled = true →
      ∃ o ∈ ({} : Config).outputs, o.name = s.name ∧ o.connected = true) ∧
    emptyIdStore.isPresetAvailable "" = false := by
  refine ⟨⟨_, List.mem_singleton.mpr rfl, rfl⟩, rfl, ?_, ?_⟩
  · simp [emptyIdStore, Presets.getPreset, DisplayPreset.outputsList]
  · simp [emptyIdStore, Presets.isPresetAvailable, Presets.getPreset]
    decide

/-- C2 (amended): for every non-empty preset id present in the store and every
known live configuration, `getPreset` returns a snapshot of the store with that
id, and `isPresetAvailable` returns true if and only if every enabled entry of
that snapshot's outputs list has a connected live output of the same name;
disabled entries impose no requirement. In particular a preset with an enabled
entry whose name no connected live output has is unavailable. -/
theorem isPresetAvailable_iff (self : Presets) (presetId : String) (config : Config)
    (hcfg : self.m_screenConfiguration = some config) (hne : presetId ≠ "")
    (hin : ∃ p ∈ self.m_presets, p.id = presetId) :
    (self.getPreset presetId ∈ self.m_presets ∧ (self.getPreset presetId).id = presetId) ∧
    (self.isPresetAvailable presetId = true ↔
      ∀ s ∈ (self.getPreset presetId).outputsList, s.enabled = true →
        ∃ o ∈ config.outputs, o.name = s.name ∧ o.connected = true) ∧
    (∀ s ∈ (self.getPreset presetId).outputsList, s.enabled = true →
      (¬ ∃ o ∈ config.outputs, o.name = s.name ∧ o.connected = true) →
      self.isPresetAvailable presetId = false) := by
  have hget := getPreset_of_mem self presetId hin
  have hiff := isPresetAvailable_eq_true_iff self presetId config hcfg
  have hid : (self.getPreset presetId).id ≠ "" := by rw [hget.2]; exact hne
  refine ⟨hget, ?_, ?_⟩
  · rw [hiff]
    exact ⟨fun h => h.2, fun h => ⟨hid, h⟩⟩
  · intro s hs he hno
    cases hav : self.isPresetAvailable presetId with
    | false => rfl
    | true => exact absurd ((hiff.mp hav).2 s hs he) hno

/-- C2 at Scenario C: the snapshot enables `HDMI-1`, no live output has that name,
and the snapshot is unavailable. -/
theorem isPresetAvailable_iff_witness :
    scenarioCStore.isPresetAvailable "preset-c" = false :=
  (isPresetAvailable_iff scenarioCStore "preset-c" { outputs := [liveEDP 1920 1080 60 1 0] }
    rfl (by decide) ⟨_, List.mem_singleton.mpr rfl, rfl⟩).2.2 hdmiSpec
    (by simp [scenarioCStore, Presets.getPreset, DisplayPreset.outputsList])
    rfl (by simp [liveEDP, hdmiSpec])

/-- C3, as stated, fails in five ways. (1) A snapshot stored with the empty
identifier is never current, although the stated condition holds. (2) When two
entries of the snapshot have the name of a live output, only the first is
compared: here the second agrees with the live output, the stated condition
holds, and the snapshot is not current. (3) The stored priority is converted to
an unsigned 32-bit integer before the comparison: `-1` matches `4294967295`,
the stated condition fails and the snapshot is current. (4) The refresh rates
are compared in `float`: a stored 143.9 Hz and a live 144.0 Hz differ by 0.1, the
stated condition holds, but the stored rate converts to the `float`
143.899993896484375, the `float` difference 0.100006103515625 is greater than
0.1 and the snapshot is not current. (5) The scales are compared in `double`
with the `double` nearest to 0.01, which is greater than 0.01: a live scale equal
to that `double` against an absent stored scale, read as 0, differs by more than
0.01, the stated condition fails and the snapshot is current. -/
theorem isPresetCurrent_as_stated_counterexample :
    ((∃ p ∈ emptyIdStore.m_presets, p.id = "") ∧
      CurrentAsStated (emptyIdStore.getPreset "").outputsList ({} : Config).outputs ∧
      emptyIdStore.isPresetCurrent "" = false) ∧
    ((∃ p ∈ duplicateNameStore.m_presets, p.id = "preset-d") ∧
      CurrentAsStated (duplicateNameStore.getPreset "preset-d").outputsList
        [liveEDP 1920 1080 60 1 0] ∧
      duplicateNameStore.isPresetCurrent "preset-d" = false) ∧
    ((∃ p ∈ wrappedPriorityStore.m_presets, p.id = "preset-w") ∧
      ¬ CurrentAsStated (wrappedPriorityStore.getPreset "preset-w").outputsList
        [liveEDP 1920 1080 60 1 4294967295] ∧
      wrappedPriorityStore.isPresetCurrent "preset-w" = true) ∧
    ((∃ p ∈ (toleranceStore (1439 / 10) (some 1) [liveEDP 1920 1080 144 1 0]).m_presets,
        p.id = "preset-t") ∧
      CurrentAsStated
        ((toleranceStore (1439 / 10) (some 1) [liveEDP 1920 1080 144 1 0]).getPreset
          "preset-t").outputsList
        [liveEDP 1920 1080 144 1 0] ∧
      (toleranceStore (1439 / 10) (some 1) [liveEDP 1920 1080 144 1 0]).isPresetCurrent
        "preset-t" = false) ∧
    ((∃ p ∈ (toleranceStore 60 none [liveEDP 1920 1080 60 doubleHundredth 0]).m_presets,
        p.id = "preset-t") ∧
      ¬ CurrentAsStated
        ((toleranceStore 60 none [liveEDP 1920 1080 60 doubleHundredth 0]).getPreset
          "preset-t").outputsList
        [liveEDP 1920 1080 60 doubleHundredth 0] ∧
      (toleranceStore 60 none [liveEDP 1920 1080 60 doubleHundredth 0]).isPresetCurrent
        "preset-t" = true) := by
  refine ⟨⟨⟨_, List.mem_singleton.mpr rfl, rfl⟩, ?_, ?_⟩,
    ⟨⟨_, List.mem_singleton.mpr rfl, rfl⟩, ?_, ?_⟩,
    ⟨⟨_, List.mem_singleton.mpr rfl, rfl⟩, ?_, ?_⟩,
    ⟨⟨_, List.mem_singleton.mpr rfl, rfl⟩, ?_, ?_⟩,
    ⟨⟨_, List.mem_singleton.mpr rfl, rfl⟩, ?_, ?_⟩⟩
  · simp [CurrentAsStated, emptyIdStore, Presets.getPreset, DisplayPreset.outputsList]
  · decide!
  · norm_num [CurrentAsStated, duplicateNameStore, Presets.getPreset, DisplayPreset.outputsList,
      scenarioASpec, liveEDP, LiveOutput.currentMode, OutputSpec.modeWidth,
      OutputSpec.modeHeight, OutputSpec.storedRefresh, OutputSpec.storedScale,
      OutputSpec.rotationToInt]
  · decide!
  · norm_num [CurrentAsStated, wrappedPriorityStore, Presets.getPreset,
      DisplayPreset.outputsList, scenarioASpec, liveEDP]
  · decide!
  · norm_num [CurrentAsStated, toleranceStore, toleranceSpec, Presets.getPreset,
      DisplayPreset.outputsList, liveEDP, LiveOutput.currentMode,
      OutputSpec.modeWidth, OutputSpec.modeHeight, OutputSpec.storedRefresh,
      OutputSpec.storedScale, OutputSpec.rotationToInt, abs_le]
  · decide!
  · norm_num [CurrentAsStated, toleranceStore, toleranceSpec, Presets.getPreset,
      DisplayPreset.outputsList, liveEDP, LiveOutput.currentMode,
      OutputSpec.modeWidth, OutputSpec.modeHeight, OutputSpec.storedRefresh,
      OutputSpec.storedScale, OutputSpec.rotationToInt, doubleHundredth, abs_le]
  · decide!

/-- C3 (amended): for every non-empty preset id present in the store and every
known live configuration, `getPreset` returns a snapshot of the store with that
id, and `isPresetCurrent` returns true if and only if both (forward) every
connected live output either has no entry of its name in the snapshot and is
disabled, or the first entry of its name has the same enabled flag and, when both
are enabled, agrees with it on priority (the stored integer taken modulo
`2 ^ 32`), position, mode size and rotation, the live output having a current
mode, and passes the two tolerance tests as the program computes them: the
`float` difference of the live refresh rate and of the stored rate converted to
`float` is in absolute value at most the `double` nearest to 0.1, and the
`double` difference of the scales is in absolute value at most the `double`
nearest to 0.01; and (reverse) every enabled entry has a live output of its name
that is connected and enabled. -/
theorem isPresetCurrent_iff (self : Presets) (presetId : String) (config : Config)
    (hcfg : self.m_screenConfiguration = some config) (hne : presetId ≠ "")
    (hin : ∃ p ∈ self.m_presets, p.id = presetId) :
    (self.getPreset presetId ∈ self.m_presets ∧ (self.getPreset presetId).id = presetId) ∧
    (self.isPresetCurrent presetId = true ↔
      (∀ o ∈ config.outputs, o.connected = true →
        match findSpec (self.getPreset presetId).outputsList o.name with
        | none => o.enabled = false
        | some s => s.enabled = o.enabled ∧ (o.enabled = true →
            castUInt32 s.priority = o.priority ∧ o.posX = s.posX ∧ o.posY = s.posY ∧
            (∃ m, o.currentMode = some m ∧ m.width = s.modeWidth ∧ m.height = s.modeHeight ∧
              |toFloat (toFloat m.refreshRate - toFloat s.storedRefresh)| ≤ toDouble (1 / 10)) ∧
            |toDouble (toDouble o.scale - toDouble s.storedScale)| ≤ toDouble (1 / 100) ∧
            o.rotation = s.rotationToInt)) ∧
      (∀ s ∈ (self.getPreset presetId).outputsList, s.enabled = true →
        ∃ o ∈ config.outputs, o.name = s.name ∧ o.connected = true ∧ o.enabled = true)) := by
  have hget := getPreset_of_mem self presetId hin
  have hid : (self.getPreset presetId).id ≠ "" := by rw [hget.2]; exact hne
  refine ⟨hget, ?_⟩
  rw [isPresetCurrent_eq_true_iff self presetId config hcfg]
  exact ⟨fun h => h.2, fun h => ⟨hid, h⟩⟩

/-- C3 at Scenario A: the snapshot (`eDP-1`, 1920x1080 at 60.0, scale 1.0) is
current against the live output at 59.95 Hz and scale 1.005. -/
theorem isPresetCurrent_iff_witness :
    (scenarioAStore [liveEDP 1920 1080 (1199 / 20) (201 / 200) 0]).isPresetCurrent "preset-a"
      = true :=
  (isPresetCurrent_iff (scenarioAStore [liveEDP 1920 1080 (1199 / 20) (201 / 200) 0])
    "preset-a" { outputs := [liveEDP 1920 1080 (1199 / 20) (201 / 200) 0] }
    rfl (by decide) ⟨_, List.mem_singleton.mpr rfl, rfl⟩).2.mpr
    (by
      have hr : |toFloat (toFloat (1199 / 20) - toFloat 60)| ≤ toDouble (1 / 10) := by decide!
      have hs : |toDouble (toDouble (201 / 200) - toDouble 1)| ≤ toDouble (1 / 100) := by
        decide!
      simp only [scenarioAStore, scenarioAPreset, scenarioASpec, liveEDP, Presets.getPreset,
        DisplayPreset.outputsList, findSpec, LiveOutput.currentMode, castUInt32,
        OutputSpec.modeWidth, OutputSpec.modeHeight, OutputSpec.storedRefresh,
        OutputSpec.storedScale, OutputSpec.rotationToInt]
      simpa using And.intro hr hs)

/-- A live output that is connected and enabled, whose first same-named entry is
enabled: the forward condition is that the compared properties agree. -/
theorem forwardOk_of_enabled (specs : List OutputSpec) (o : LiveOutput) (s : OutputSpec)
    (hs : findSpec specs o.name = some s) (hsen : s.enabled = true) (hen : o.enabled = true) :
    ForwardOk specs o ↔ PropertiesAgree o s := by
  unfold ForwardOk
  rw [hs]
  simp [hsen, hen]

/-- The forward condition holds for every connected output as soon as it holds for
one output and for all the others. -/
theorem forward_all_of_rest (specs : List OutputSpec) (L : List LiveOutput) (o : LiveOutput)
    (h : ForwardOk specs o)
    (hrest : ∀ o' ∈ L, o' ≠ o → o'.connected = true → ForwardOk specs o') :
    ∀ o' ∈ L, o'.connected = true → ForwardOk specs o' := by
  intro o' ho' hc
  by_cases heq : o' = o
  · rw [heq]; exact h
  · exact hrest o' ho' heq hc

/-- C6, as stated, fails in both directions, because the test runs in `float`.
(1) The snapshot stores 143.9 Hz and the live output, which agrees with the
entry on every other compared field, runs at 144.0 Hz: the rates differ by
exactly 0.1, yet the snapshot is not current, because the `float` nearest to
143.9 is 143.899993896484375 and the `float` difference 0.100006103515625 is
greater than the `double` nearest to 0.1. (2) The snapshot stores 59.8999999 Hz
and the live output runs at 60.0 Hz: the rates differ by more than 0.1, yet the
snapshot is current, because the stored rate converts to the `float`
59.90000152587890625. In both cases it makes no difference whether the stored
number is the decimal or the `double` nearest to it: that `double` is on the
same side of the tolerance and converts to the same `float`. -/
theorem refresh_rate_tolerance_counterexample :
    (OtherFieldsAgree (liveEDP 1920 1080 144 1 0) (toleranceSpec (1439 / 10) (some 1))
        { id := "m0", width := 1920, height := 1080, refreshRate := 144 } ∧
      (liveEDP 1920 1080 144 1 0).scale = (toleranceSpec (1439 / 10) (some 1)).storedScale ∧
      |(144 : ℚ) - (toleranceSpec (1439 / 10) (some 1)).storedRefresh| = 1 / 10 ∧
      |(144 : ℚ) - toDouble (1439 / 10)| ≤ 1 / 10 ∧
      toFloat (toDouble (1439 / 10)) = toFloat (1439 / 10) ∧
      (toleranceStore (1439 / 10) (some 1) [liveEDP 1920 1080 144 1 0]).isPresetCurrent
        "preset-t" = false) ∧
    (OtherFieldsAgree (liveEDP 1920 1080 60 1 0)
        (toleranceSpec (598999999 / 10000000) (some 1))
        { id := "m0", width := 1920, height := 1080, refreshRate := 60 } ∧
      (liveEDP 1920 1080 60 1 0).scale =
        (toleranceSpec (598999999 / 10000000) (some 1)).storedScale ∧
      |(60 : ℚ) - (toleranceSpec (598999999 / 10000000) (some 1)).storedRefresh| > 1 / 10 ∧
      |(60 : ℚ) - toDouble (598999999 / 10000000)| > 1 / 10 ∧
      toFloat (toDouble (598999999 / 10000000)) = toFloat (598999999 / 10000000) ∧
      (toleranceStore (598999999 / 10000000) (some 1)
        [liveEDP 1920 1080 60 1 0]).isPresetCurrent "preset-t" = true) := by
  unfold OtherFieldsAgree
  decide!

/-- C6 (amended): refresh-rate tolerance of `isPresetCurrent`, in the arithmetic
of the program. Take a connected, enabled live output `o` with current mode `m`
whose first same-named entry `s` of the located snapshot is enabled and agrees
with it on priority, position, mode size, scale (the test in `double`) and
rotation. Let `d` be the `float` difference of the live rate and of the stored
rate converted to `float`. If `|d|` is at most the `double` nearest to 0.1 and
the rest of the live configuration matches the snapshot, the snapshot is
current; if `|d|` is greater, it is not current. -/
theorem refresh_rate_tolerance (self : Presets) (presetId : String) (config : Config)
    (o : LiveOutput) (s : OutputSpec) (m : Mode)
    (hcfg : self.m_screenConfiguration = some config)
    (hid : (self.getPreset presetId).id ≠ "")
    (ho : o ∈ config.outputs) (hconn : o.connected = true) (hen : o.enabled = true)
    (hs : findSpec (self.getPreset presetId).outputsList o.name = some s)
    (hsen : s.enabled = true) (hmode : o.currentMode = some m)
    (hprio : castUInt32 s.priority = o.priority)
    (hx : o.posX = s.posX) (hy : o.posY = s.posY)
    (hw : m.width = s.modeWidth) (hh : m.height = s.modeHeight)
    (hscale : |toDouble (toDouble o.scale - toDouble s.storedScale)| ≤ toDouble (1 / 100))
    (hrot : o.rotation = s.rotationToInt) :
    (|toFloat (toFloat m.refreshRate - toFloat s.storedRefresh)| ≤ toDouble (1 / 10) →
      (∀ o' ∈ config.outputs, o' ≠ o → o'.connected = true →
        ForwardOk (self.getPreset presetId).outputsList o') →
      ReverseOk (self.getPreset presetId).outputsList config.outputs →
      self.isPresetCurrent presetId = true) ∧
    (|toFloat (toFloat m.refreshRate - toFloat s.storedRefresh)| > toDouble (1 / 10) →
      self.isPresetCurrent presetId = false) := by
  have hfo := forwardOk_of_enabled _ o s hs hsen hen
  constructor
  · intro htol hrest hrev
    refine (isPresetCurrent_eq_true_iff self presetId config hcfg).mpr ⟨hid, ?_, hrev⟩
    refine forward_all_of_rest _ _ o (hfo.mpr ?_) hrest
    exact ⟨hprio, hx, hy, ⟨m, hmode, hw, hh, htol⟩, hscale, hrot⟩
  · intro hgt
    cases hcur : self.isPresetCurrent presetId with
    | false => rfl
    | true =>
      obtain ⟨-, hfwd, -⟩ := (isPresetCurrent_eq_true_iff self presetId config hcfg).mp hcur
      obtain ⟨-, -, -, ⟨m', hm', -, -, htol⟩, -, -⟩ := hfo.mp (hfwd o ho hconn)
      rw [hmode] at hm'
      cases hm'
      exact absurd htol (not_le.mpr hgt)

/-- C7, as stated, fails in both directions, because the test runs in `double`.
(1) Against the Scenario A snapshot (scale 1.0) the live output, which agrees with
the entry on every other compared field, has the scale 1.01: the scales differ by
exactly 0.01, yet the snapshot is not current, because the live scale is the
`double` nearest to 1.01 and that minus 1.0 is 0.01000000000000000888, greater
than the `double` nearest to 0.01, which is 0.01000000000000000021. (2) The
snapshot has no `"scale"` entry, which reads as 0, and the live scale is the
`double` nearest to 0.01, a number of the format that is greater than 0.01: the
scales differ by more than 0.01, yet the snapshot is current. -/
theorem scale_tolerance_counterexample :
    (OtherFieldsAgree (liveEDP 1920 1080 60 (101 / 100) 0) scenarioASpec
        { id := "m0", width := 1920, height := 1080, refreshRate := 60 } ∧
      (60 : ℚ) = scenarioASpec.storedRefresh ∧
      |(liveEDP 1920 1080 60 (101 / 100) 0).scale - scenarioASpec.storedScale| = 1 / 100 ∧
      (scenarioAStore [liveEDP 1920 1080 60 (101 / 100) 0]).isPresetCurrent "preset-a"
        = false) ∧
    (OtherFieldsAgree (liveEDP 1920 1080 60 doubleHundredth 0) (toleranceSpec 60 none)
        { id := "m0", width := 1920, height := 1080, refreshRate := 60 } ∧
      (60 : ℚ) = (toleranceSpec 60 none).storedRefresh ∧
      toDouble doubleHundredth = doubleHundredth ∧
      |(liveEDP 1920 1080 60 doubleHundredth 0).scale - (toleranceSpec 60 none).storedScale|
        > 1 / 100 ∧
      (toleranceStore 60 none [liveEDP 1920 1080 60 doubleHundredth 0]).isPresetCurrent
        "preset-t" = true) := by
  unfold OtherFieldsAgree
  decide!

/-- C7 (amended): scale tolerance of `isPresetCurrent`, in the arithmetic of the
program. Take a connected, enabled live output `o` with current mode `m` whose
first same-named entry `s` of the located snapshot is enabled and agrees with it
on priority, position, mode size, refresh rate (the test in `float`) and
rotation. Let `d` be the `double` difference of the live scale and of the stored
scale. If `|d|` is at most the `double` nearest to 0.01 and the rest of the live
configuration matches the snapshot, the snapshot is current; if `|d|` is
greater, it is not current. -/
theorem scale_tolerance (self : Presets) (presetId : String) (config : Config)
    (o : LiveOutput) (s : OutputSpec) (m : Mode)
    (hcfg : self.m_screenConfiguration = some config)
    (hid : (self.getPreset presetId).id ≠ "")
    (ho : o ∈ config.outputs) (hconn : o.connected = true) (hen : o.enabled = true)
    (hs : findSpec (self.getPreset presetId).outputsList o.name = some s)
    (hsen : s.enabled = true) (hmode : o.currentMode = some m)
    (hprio : castUInt32 s.priority = o.priority)
    (hx : o.posX = s.posX) (hy : o.posY = s.posY)
    (hw : m.width = s.modeWidth) (hh : m.height = s.modeHeight)
    (hrefresh : |toFloat (toFloat m.refreshRate - toFloat s.storedRefresh)| ≤ toDouble (1 / 10))
    (hrot : o.rotation = s.rotationToInt) :
    (|toDouble (toDouble o.scale - toDouble s.storedScale)| ≤ toDouble (1 / 100) →
      (∀ o' ∈ config.outputs, o' ≠ o → o'.connected = true →
        ForwardOk (self.getPreset presetId).outputsList o') →
      ReverseOk (self.getPreset presetId).outputsList config.outputs →
      self.isPresetCurrent presetId = true) ∧
    (|toDouble (toDouble o.scale - toDouble s.storedScale)| > toDouble (1 / 100) →
      self.isPresetCurrent presetId = false) := by
  have hfo := forwardOk_of_enabled _ o s hs hsen hen
  constructor
  · intro htol hrest hrev
    refine (isPresetCurrent_eq_true_iff self presetId config hcfg).mpr ⟨hid, ?_, hrev⟩
    refine forward_all_of_rest _ _ o (hfo.mpr ?_) hrest
    exact ⟨hprio, hx, hy, ⟨m, hmode, hw, hh, hrefresh⟩, htol, hrot⟩
  · intro hgt
    cases hcur : self.isPresetCurrent presetId with
    | false => rfl
    | true =>
      obtain ⟨-, hfwd, -⟩ := (isPresetCurrent_eq_true_iff self presetId config hcfg).mp hcur
      obtain ⟨-, -, -, -, htol, -⟩ := hfo.mp (hfwd o ho hconn)
      exact absurd htol (not_le.mpr hgt)

/-- C6 on both sides of the test: against the Scenario A snapshot (60.0 Hz) a live
refresh rate of 59.9 Hz is current (the `float` difference is 0.0999984741), and
against a stored rate of 143.9 Hz a live rate of 144.0 Hz is not (the `float`
difference is 0.1000061035). -/
theorem refresh_rate_tolerance_witness :
    (scenarioAStore [liveEDP 1920 1080 (599 / 10) 1 0]).isPresetCurrent "preset-a" = true ∧
    (toleranceStore (1439 / 10) (some 1) [liveEDP 1920 1080 144 1 0]).isPresetCurrent
      "preset-t" = false :=
  ⟨(refresh_rate_tolerance (scenarioAStore [liveEDP 1920 1080 (599 / 10) 1 0]) "preset-a"
      { outputs := [liveEDP 1920 1080 (599 / 10) 1 0] } (liveEDP 1920 1080 (599 / 10) 1 0)
      scenarioASpec { id := "m0", width := 1920, height := 1080, refreshRate := 599 / 10 }
      rfl (by decide) (List.mem_singleton.mpr rfl) rfl rfl
      (by decide!) rfl (by decide!) (by decide) rfl rfl rfl rfl (by decide!) rfl).1
      (by decide!)
      (by simp)
      (by simp [ReverseOk, scenarioAStore, scenarioAPreset, scenarioASpec, liveEDP,
        Presets.getPreset, DisplayPreset.outputsList]),
   (refresh_rate_tolerance (toleranceStore (1439 / 10) (some 1) [liveEDP 1920 1080 144 1 0])
      "preset-t" { outputs := [liveEDP 1920 1080 144 1 0] } (liveEDP 1920 1080 144 1 0)
      (toleranceSpec (1439 / 10) (some 1))
      { id := "m0", width := 1920, height := 1080, refreshRate := 144 }
      rfl (by decide) (List.mem_singleton.mpr rfl) rfl rfl
      (by decide!) rfl (by decide!) (by decide) rfl rfl rfl rfl (by decide!) rfl).2
      (by decide!)⟩

/-- C7 on both sides of the test: against the Scenario A snapshot (scale 1.0) a
live scale of 1.005 is current, and a live scale of 1.01 is not (the `double`
difference is 0.01000000000000000888). -/
theorem scale_tolerance_witness :
    (scenarioAStore [liveEDP 1920 1080 60 (201 / 200) 0]).isPresetCurrent "preset-a" = true ∧
    (scenarioAStore [liveEDP 1920 1080 60 (101 / 100) 0]).isPresetCurrent "preset-a" = false :=
  ⟨(scale_tolerance (scenarioAStore [liveEDP 1920 1080 60 (201 / 200) 0]) "preset-a"
      { outputs := [liveEDP 1920 1080 60 (201 / 200) 0] } (liveEDP 1920 1080 60 (201 / 200) 0)
      scenarioASpec { id := "m0", width := 1920, height := 1080, refreshRate := 60 }
      rfl (by decide) (List.mem_singleton.mpr rfl) rfl rfl
      (by decide!) rfl (by decide!) (by decide) rfl rfl rfl rfl (by decide!) rfl).1
      (by decide!)
      (by simp)
      (by simp [ReverseOk, scenarioAStore, scenarioAPreset, scenarioASpec, liveEDP,
        Presets.getPreset, DisplayPreset.outputsList]),
   (scale_tolerance (scenarioAStore [liveEDP 1920 1080 60 (101 / 100) 0]) "preset-a"
      { outputs := [liveEDP 1920 1080 60 (101 / 100) 0] } (liveEDP 1920 1080 60 (101 / 100) 0)
      scenarioASpec { id := "m0", width := 1920, height := 1080, refreshRate := 60 }
      rfl (by decide) (List.mem_singleton.mpr rfl) rfl rfl
      (by decide!) rfl (by decide!) (by decide) rfl rfl rfl rfl (by decide!) rfl).2
      (by decide!)⟩

/-- The condition of availability only reads the names and the connected flags of
the live outputs. -/
theorem exists_connected_iff_mem_map (L : List LiveOutput) (n : String) :
    (∃ o ∈ L, o.name = n ∧ o.connected = true) ↔
      (n, true) ∈ L.map (fun o => (o.name, o.connected)) := by
  simp only [List.mem_map, Prod.mk.injEq]

/-- The condition of availability only reads the names and the enabled flags of
the entries of the snapshot. -/
theorem forall_enabled_iff_mem_map (specs : List OutputSpec) (P : String → Prop) :
    (∀ s ∈ specs, s.enabled = true → P s.name) ↔
      ∀ n, (n, true) ∈ specs.map (fun s => (s.name, s.enabled)) → P n := by
  simp only [List.mem_map, Prod.mk.injEq]
  constructor
  · rintro h n ⟨s, hs, hn, he⟩
    exact hn ▸ h s hs he
  · intro h s hs he
    exact h s.name ⟨s, hs, rfl, he⟩

/-- Two states give the same verdict of availability when the located snapshots
have the same identifier, their entries agree on name and enabled flag, and the
live outputs agree on name and connected flag. -/
theorem isPresetAvailable_congr (self self' : Presets) (presetId : String)
    (config config' : Config)
    (hcfg : self.m_screenConfiguration = some config)
    (hcfg' : self'.m_screenConfiguration = some config')
    (hlive : config'.outputs.map (fun o => (o.name, o.connected)) =
      config.outputs.map (fun o => (o.name, o.connected)))
    (hid : (self'.getPreset presetId).id = (self.getPreset presetId).id)
    (hspecs : (self'.getPreset presetId).outputsList.map (fun s => (s.name, s.enabled)) =
      (self.getPreset presetId).outputsList.map (fun s => (s.name, s.enabled))) :
    self'.isPresetAvailable presetId = self.isPresetAvailable presetId := by
  rw [Bool.eq_iff_iff, isPresetAvailable_eq_true_iff self presetId config hcfg,
    isPresetAvailable_eq_true_iff self' presetId config' hcfg', hid,
    forall_enabled_iff_mem_map (self'.getPreset presetId).outputsList
      (fun n => ∃ o ∈ config'.outputs, o.name = n ∧ o.connected = true),
    forall_enabled_iff_mem_map (self.getPreset presetId).outputsList
      (fun n => ∃ o ∈ config.outputs, o.name = n ∧ o.connected = true), hspecs]
  simp only [exists_connected_iff_mem_map, hlive]

/-- C8, as stated, fails for the priority: the stored priority `-1` and the live
priority `4294967295` differ as integers, the live output is connected and
enabled and its same-named entry is enabled, yet `isPresetCurrent` returns true,
because the stored value is converted to an unsigned 32-bit integer first. -/
theorem exact_fields_priority_counterexample :
    wrappedPriorityStore.m_screenConfiguration =
      some { outputs := [liveEDP 1920 1080 60 1 4294967295] } ∧
    (liveEDP 1920 1080 60 1 4294967295).connected = true ∧
    (liveEDP 1920 1080 60 1 4294967295).enabled = true ∧
    findSpec (wrappedPriorityStore.getPreset "preset-w").outputsList
      (liveEDP 1920 1080 60 1 4294967295).name = some { scenarioASpec with priority := -1 } ∧
    ({ scenarioASpec with priority := -1 } : OutputSpec).enabled = true ∧
    ({ scenarioASpec with priority := -1 } : OutputSpec).priority ≠
      ((liveEDP 1920 1080 60 1 4294967295).priority : Int) ∧
    wrappedPriorityStore.isPresetCurrent "preset-w" = true := by
  refine ⟨rfl, rfl, rfl, ?_, rfl, by decide, ?_⟩
  · simp [findSpec, wrappedPriorityStore, scenarioASpec, liveEDP, Presets.getPreset,
      DisplayPreset.outputsList]
  · decide!

/-- C8 (amended): for every connected, enabled live output whose first same-named
entry in the located snapshot is enabled, if the two differ in priority (the
stored integer taken modulo `2 ^ 32`), in position (x or y), in mode width or
height, or in rotation, then `isPresetCurrent` returns false. `isPresetAvailable`
is unaffected by these fields: any state whose located snapshot has the same
identifier and the same names and enabled flags, and whose live outputs have
the same names and connected flags, gets the same verdict of availability. -/
theorem exact_fields_mismatch (self : Presets) (presetId : String) (config : Config)
    (o : LiveOutput) (s : OutputSpec)
    (hcfg : self.m_screenConfiguration = some config)
    (ho : o ∈ config.outputs) (hconn : o.connected = true) (hen : o.enabled = true)
    (hs : findSpec (self.getPreset presetId).outputsList o.name = some s)
    (hsen : s.enabled = true)
    (hdiff : castUInt32 s.priority ≠ o.priority ∨ o.posX ≠ s.posX ∨ o.posY ≠ s.posY ∨
      (∃ m, o.currentMode = some m ∧ (m.width ≠ s.modeWidth ∨ m.height ≠ s.modeHeight)) ∨
      o.rotation ≠ s.rotationToInt) :
    self.isPresetCurrent presetId = false ∧
    ∀ (self' : Presets) (config' : Config), self'.m_screenConfiguration = some config' →
      config'.outputs.map (fun o => (o.name, o.connected)) =
        config.outputs.map (fun o => (o.name, o.connected)) →
      (self'.getPreset presetId).id = (self.getPreset presetId).id →
      (self'.getPreset presetId).outputsList.map (fun s => (s.name, s.enabled)) =
        (self.getPreset presetId).outputsList.map (fun s => (s.name, s.enabled)) →
      self'.isPresetAvailable presetId = self.isPresetAvailable presetId := by
  constructor
  · cases hcur : self.isPresetCurrent presetId with
    | false => rfl
    | true =>
      obtain ⟨-, hfwd, -⟩ := (isPresetCurrent_eq_true_iff self presetId config hcfg).mp hcur
      obtain ⟨hp, hx, hy, ⟨m, hm, hw, hh, -⟩, -, hr⟩ :=
        (forwardOk_of_enabled _ o s hs hsen hen).mp (hfwd o ho hconn)
      rcases hdiff with h | h | h | ⟨m', hm', h⟩ | h
      · exact absurd hp h
      · exact absurd hx h
      · exact absurd hy h
      · rw [hm] at hm'
        cases hm'
        rcases h with h | h
        · exact absurd hw h
        · exact absurd hh h
      · exact absurd hr h
  · intro self' config' hcfg' hlive hid hspecs
    exact isPresetAvailable_congr self self' presetId config config' hcfg hcfg' hlive hid hspecs

/-- C8 at Scenario B: against a live mode of 2560x1440 at 60.0 the Scenario A
snapshot (1920x1080) is not current, and it is as available as against the
matching live output of Scenario A, that is, available. -/
theorem exact_fields_mismatch_witness :
    (scenarioAStore [liveEDP 2560 1440 60 1 0]).isPresetCurrent "preset-a" = false ∧
    (scenarioAStore [liveEDP 1920 1080 (1199 / 20) (201 / 200) 0]).isPresetAvailable "preset-a" =
      (scenarioAStore [liveEDP 2560 1440 60 1 0]).isPresetAvailable "preset-a" ∧
    (scenarioAStore [liveEDP 2560 1440 60 1 0]).isPresetAvailable "preset-a" = true := by
  have h := exact_fields_mismatch (scenarioAStore [liveEDP 2560 1440 60 1 0]) "preset-a"
    { outputs := [liveEDP 2560 1440 60 1 0] } (liveEDP 2560 1440 60 1 0) scenarioASpec
    rfl (List.mem_singleton.mpr rfl) rfl rfl
    (by simp [findSpec, scenarioAStore, scenarioAPreset, scenarioASpec, liveEDP,
      Presets.getPreset, DisplayPreset.outputsList])
    rfl
    (Or.inr (Or.inr (Or.inr (Or.inl
      ⟨{ id := "m0", width := 2560, height := 1440, refreshRate := 60 },
        by simp [LiveOutput.currentMode, liveEDP],
        Or.inl (by simp [scenarioASpec, OutputSpec.modeWidth])⟩))))
  have h2 := h.2 (scenarioAStore [liveEDP 1920 1080 (1199 / 20) (201 / 200) 0])
    { outputs := [liveEDP 1920 1080 (1199 / 20) (201 / 200) 0] } rfl
    (by simp [liveEDP]) rfl rfl
  refine ⟨h.1, h2, ?_⟩
  simp [scenarioAStore, scenarioAPreset, scenarioASpec, liveEDP, Presets.isPresetAvailable,
    Presets.getPreset, DisplayPreset.outputsList, availableLoop, availableFound]
  decide

/-- C9: directionality of currency. Whenever `isPresetCurrent` returns true, the
set of names of the live outputs that are connected and enabled equals the set
of names of the entries marked enabled in the located snapshot. Hence a snapshot
that has no entry for a connected, enabled live output, or that enables an
entry without a connected, enabled live output of its name, is not current. -/
theorem isPresetCurrent_enabled_names (self : Presets) (presetId : String) (config : Config)
    (hcfg : self.m_screenConfiguration = some config) :
    (self.isPresetCurrent presetId = true →
      {n | ∃ o ∈ config.outputs, o.name = n ∧ o.connected = true ∧ o.enabled = true} =
      {n | ∃ s ∈ (self.getPreset presetId).outputsList, s.name = n ∧ s.enabled = true}) ∧
    ((∃ o ∈ config.outputs, o.connected = true ∧ o.enabled = true ∧
        ∀ s ∈ (self.getPreset presetId).outputsList, s.name ≠ o.name) →
      self.isPresetCurrent presetId = false) ∧
    ((∃ s ∈ (self.getPreset presetId).outputsList, s.enabled = true ∧
        ¬ ∃ o ∈ config.outputs, o.name = s.name ∧ o.connected = true ∧ o.enabled = true) →
      self.isPresetCurrent presetId = false) := by
  have hiff := isPresetCurrent_eq_true_iff self presetId config hcfg
  refine ⟨?_, ?_, ?_⟩
  · intro hcur
    obtain ⟨-, hfwd, hrev⟩ := hiff.mp hcur
    ext n
    simp only [Set.mem_setOf_eq]
    constructor
    · rintro ⟨o, ho, hn, hc, he⟩
      have hf := hfwd o ho hc
      unfold ForwardOk findSpec at hf
      cases hfind : (self.getPreset presetId).outputsList.find? (fun s => s.name == o.name) with
      | none =>
        rw [hfind] at hf
        simp [he] at hf
      | some s =>
        rw [hfind] at hf
        have hname := List.find?_some hfind
        simp only [beq_iff_eq] at hname
        exact ⟨s, List.mem_of_find?_eq_some hfind, hname.trans hn, hf.1.trans he⟩
    · rintro ⟨s, hs, hn, he⟩
      obtain ⟨o, ho, hon, hc, hoe⟩ := hrev s hs he
      exact ⟨o, ho, hon.trans hn, hc, hoe⟩
  · rintro ⟨o, ho, hc, he, hno⟩
    cases hcur : self.isPresetCurrent presetId with
    | false => rfl
    | true =>
      obtain ⟨-, hfwd, -⟩ := hiff.mp hcur
      have hf := hfwd o ho hc
      unfold ForwardOk findSpec at hf
      cases hfind : (self.getPreset presetId).outputsList.find? (fun s => s.name == o.name) with
      | none =>
        rw [hfind] at hf
        simp [he] at hf
      | some s =>
        have hname := List.find?_some hfind
        simp only [beq_iff_eq] at hname
        exact absurd hname (hno s (List.mem_of_find?_eq_some hfind))
  · rintro ⟨s, hs, he, hno⟩
    cases hcur : self.isPresetCurrent presetId with
    | false => rfl
    | true =>
      obtain ⟨-, -, hrev⟩ := hiff.mp hcur
      exact absurd (hrev s hs he) hno

/-- C9 at Scenario A: the snapshot is current, and the connected, enabled live
outputs have the names of its enabled entries. -/
theorem isPresetCurrent_enabled_names_witness :
    {n | ∃ o ∈ [liveEDP 1920 1080 (1199 / 20) (201 / 200) 0],
      o.name = n ∧ o.connected = true ∧ o.enabled = true} =
    {n | ∃ s ∈ ((scenarioAStore [liveEDP 1920 1080 (1199 / 20) (201 / 200) 0]).getPreset
      "preset-a").outputsList, s.name = n ∧ s.enabled = true} :=
  (isPresetCurrent_enabled_names (scenarioAStore [liveEDP 1920 1080 (1199 / 20) (201 / 200) 0])
    "preset-a" { outputs := [liveEDP 1920 1080 (1199 / 20) (201 / 200) 0] } rfl).1
    scenarioA_isPresetCurrent

/-- C10: when no live screen configuration has been set, `isPresetAvailable` and
`isPresetCurrent` both return false for every id and every store; both return
false as well for an id that no snapshot of the store has. The two functions
are total, so neither call fails. -/
theorem no_live_state_or_unknown_id (self : Presets) (presetId : String) :
    (self.m_screenConfiguration = none →
      self.isPresetAvailable presetId = false ∧ self.isPresetCurrent presetId = false) ∧
    ((∀ p ∈ self.m_presets, p.id ≠ presetId) →
      self.isPresetAvailable presetId = false ∧ self.isPresetCurrent presetId = false) := by
  constructor
  · intro hnone
    simp [Presets.isPresetAvailable, Presets.isPresetCurrent, hnone]
  · intro hno
    have hget := getPreset_of_not_mem self presetId hno
    unfold Presets.isPresetAvailable Presets.isPresetCurrent
    cases self.m_screenConfiguration with
    | none => simp
    | some config =>
      simp only [hget]
      exact ⟨by rw [default_id_isEmpty]; simp, by rw [default_id_isEmpty]; simp⟩

/-- C10 at concrete states: the Scenario A snapshot without a live configuration,
and an id that the Scenario A store does not hold. -/
theorem no_live_state_or_unknown_id_witness :
    (({ m_presets := [scenarioAPreset] } : Presets).isPresetAvailable "preset-a" = false ∧
      ({ m_presets := [scenarioAPreset] } : Presets).isPresetCurrent "preset-a" = false) ∧
    ((scenarioAStore [liveEDP 1920 1080 60 1 0]).isPresetAvailable "missing" = false ∧
      (scenarioAStore [liveEDP 1920 1080 60 1 0]).isPresetCurrent "missing" = false) :=
  ⟨(no_live_state_or_unknown_id { m_presets := [scenarioAPreset] } "preset-a").1 rfl,
   (no_live_state_or_unknown_id (scenarioAStore [liveEDP 1920 1080 60 1 0]) "missing").2
     (by simp [scenarioAStore, scenarioAPreset])⟩

/-! ## Lemmas: the store -/

theorem mem_replaceFirstById (presetId : String) (preset : DisplayPreset)
    (l : List DisplayPreset) (h : ∃ p ∈ l, p.id = presetId) :
    preset ∈ replaceFirstById presetId preset l := by
  induction l with
  | nil => simp at h
  | cons q rest ih =>
    unfold replaceFirstById
    by_cases hq : q.id = presetId
    · simp [hq]
    · have hrest : ∃ p ∈ rest, p.id = presetId := by
        obtain ⟨p, hp, hid⟩ := h
        rcases List.mem_cons.mp hp with rfl | hp
        · exact absurd hid hq
        · exact ⟨p, hp, hid⟩
      simp [hq, ih hrest]

/-- C4, as stated, fails at Scenario E: the store holds a snapshot named `Work`
with identifier `X` created at `1000`; after saving under the name `Work` with
the generated identifier `Y`, the store is the single snapshot below, whose
identifier is `Y`, and no snapshot named `Work` has the identifier `X`. -/
theorem savePreset_identifier_counterexample :
    (∃ p ∈ scenarioEStore.m_presets, p.name = "Work" ∧ p.id = "X" ∧ p.created = some 1000) ∧
    (savePreset scenarioEStore "Work" "new" (some scenarioEConfig) "Y" (some 2000)
      (some 2001)).m_presets =
      [{ id := "Y", name := "Work", description := "new", created := some 1000,
         lastUsed := some 2001, outputIds := [""], shortcut := [],
         configuration := some (configToVariantMap scenarioEConfig) }] ∧
    ∀ p ∈ (savePreset scenarioEStore "Work" "new" (some scenarioEConfig) "Y" (some 2000)
      (some 2001)).m_presets, p.name = "Work" → p.id ≠ "X" := by
  have hsave : (savePreset scenarioEStore "Work" "new" (some scenarioEConfig) "Y" (some 2000)
      (some 2001)).m_presets =
      [{ id := "Y", name := "Work", description := "new", created := some 1000,
         lastUsed := some 2001, outputIds := [""], shortcut := [],
         configuration := some (configToVariantMap scenarioEConfig) }] := by
    simp [savePreset, scenarioEStore, Presets.findPresetByName, Presets.updatePreset,
      replaceFirstById, scenarioEConfig, liveEDP]
  refine ⟨⟨_, List.mem_singleton.mpr rfl, rfl, rfl, rfl⟩, hsave, ?_⟩
  rw [hsave]
  intro p hp _
  rw [List.mem_singleton.mp hp]
  decide

/-- C4 (amended): for every store in which `findPresetByName` locates a snapshot
`existing` named `name`, and every valid live configuration, after `savePreset`
the store contains a snapshot named `name` whose creation timestamp is that of
`existing` and whose identifier is the newly generated one (the identifier of
`existing` is not kept); its description, configuration, output ids and
last-used timestamp are those of the new save and its shortcut is empty. -/
theorem savePreset_existing_name (self : Presets) (name description : String)
    (config : Config) (presetId : String) (createdNow lastUsedNow : QDateTime)
    (existing : DisplayPreset) (hfind : self.findPresetByName name = some existing) :
    ∃ p ∈ (savePreset self name description (some config) presetId createdNow
        lastUsedNow).m_presets,
      p.name = name ∧ p.id = presetId ∧ p.created = existing.created ∧
      p.description = description ∧ p.lastUsed = lastUsedNow ∧
      p.configuration = some (configToVariantMap config) ∧
      p.outputIds = (config.outputs.filter (fun output => output.enabled)).map
        (fun output => output.hashMd5) ∧
      p.shortcut = [] := by
  have hmem : existing ∈ self.m_presets := List.mem_of_find?_eq_some hfind
  refine ⟨DisplayPreset.mk presetId name description existing.created lastUsedNow
    ((config.outputs.filter (fun output => output.enabled)).map (fun output => output.hashMd5))
    (some (configToVariantMap config)) [], ?_, rfl, rfl, rfl, rfl, rfl, rfl, rfl, rfl⟩
  simp only [savePreset, hfind, Presets.updatePreset]
  exact mem_replaceFirstById _ _ _ ⟨existing, hmem, rfl⟩

/-- C4 at Scenario E: the snapshot saved over `Work` keeps the creation timestamp
`1000` and carries the new identifier `Y`. -/
theorem savePreset_existing_name_witness :
    ∃ p ∈ (savePreset scenarioEStore "Work" "new" (some scenarioEConfig) "Y" (some 2000)
        (some 2001)).m_presets,
      p.name = "Work" ∧ p.id = "Y" ∧ p.created = some 1000 ∧
      p.description = "new" ∧ p.lastUsed = some 2001 ∧
      p.configuration = some (configToVariantMap scenarioEConfig) ∧
      p.outputIds = (scenarioEConfig.outputs.filter (fun output => output.enabled)).map
        (fun output => output.hashMd5) ∧
      p.shortcut = [] :=
  savePreset_existing_name scenarioEStore "Work" "new" scenarioEConfig "Y" (some 2000)
    (some 2001) _ rfl

/-! ## Lemmas: change detection -/

theorem assign_of_not_mem {α : Type} (key : String) (value : α) (hash : QHash α)
    (h : key ∉ hash.map Prod.fst) : QHash.assign key value hash = hash ++ [(key, value)] := by
  induction hash with
  | nil => rfl
  | cons e rest ih =>
    obtain ⟨k, v⟩ := e
    simp only [List.map_cons, List.mem_cons, not_or] at h
    have hk : (k == key) = false := by
      simp only [beq_eq_false_iff_ne, ne_eq]
      exact fun hx => h.1 hx.symm
    simp only [QHash.assign, hk, Bool.false_eq_true, if_false, ih h.2, List.cons_append]

theorem foldl_assign_of_nodup (presets : List PresetSummary) :
    ∀ acc : QHash PresetSummary,
      (presets.map (fun p => p.presetId)).Nodup →
      (∀ p ∈ presets, p.presetId ∉ acc.map Prod.fst) →
      presets.foldl (fun hash presetMap => QHash.assign presetMap.presetId presetMap hash) acc
        = acc ++ presets.map (fun p => (p.presetId, p)) := by
  induction presets with
  | nil => intro acc _ _; simp
  | cons p rest ih =>
    intro acc hnd hdis
    simp only [List.map_cons, List.nodup_cons] at hnd
    simp only [List.foldl_cons]
    rw [assign_of_not_mem _ _ _ (hdis p (by simp)), ih _ hnd.2]
    · simp
    · intro q hq
      simp only [List.map_append, List.map_cons, List.map_nil, List.mem_append,
        List.mem_singleton, not_or]
      refine ⟨hdis q (by simp [hq]), ?_⟩
      intro heq
      exact hnd.1 (heq ▸ List.mem_map_of_mem (fun p => p.presetId) hq)

/-- With pairwise distinct identifiers the map holds the records in their order. -/
theorem buildSummaryMap_of_nodup (presets : List PresetSummary)
    (h : (presets.map (fun p => p.presetId)).Nodup) :
    buildSummaryMap presets = presets.map (fun p => (p.presetId, p)) := by
  unfold buildSummaryMap
  rw [foldl_assign_of_nodup presets [] h (by simp)]
  simp

theorem lookup_map_eq_none (presets : List PresetSummary) (key : String) :
    QHash.lookup (presets.map (fun p => (p.presetId, p))) key = none ↔
      ∀ p ∈ presets, p.presetId ≠ key := by
  unfold QHash.lookup
  simp [List.find?_eq_none]

theorem lookup_map_eq_some (presets : List PresetSummary) (key : String) (q : PresetSummary)
    (h : (presets.map (fun p => p.presetId)).Nodup) :
    QHash.lookup (presets.map (fun p => (p.presetId, p))) key = some q ↔
      q ∈ presets ∧ q.presetId = key := by
  induction presets with
  | nil => simp [QHash.lookup]
  | cons p rest ih =>
    simp only [List.map_cons, List.nodup_cons] at h
    by_cases hp : p.presetId = key
    · have : QHash.lookup ((p :: rest).map (fun p => (p.presetId, p))) key = some p := by
        simp [QHash.lookup, hp]
      rw [this]
      constructor
      · intro hq
        cases hq
        exact ⟨by simp, hp⟩
      · rintro ⟨hq, hqk⟩
        rcases List.mem_cons.mp hq with rfl | hq
        · rfl
        · exfalso
          apply h.1
          rw [hp, ← hqk]
          exact List.mem_map_of_mem (fun p => p.presetId) hq
    · have : QHash.lookup ((p :: rest).map (fun p => (p.presetId, p))) key =
          QHash.lookup (rest.map (fun p => (p.presetId, p))) key := by
        simp [QHash.lookup, hp]
      rw [this, ih h.2]
      constructor
      · rintro ⟨hq, hqk⟩
        exact ⟨by simp [hq], hqk⟩
      · rintro ⟨hq, hqk⟩
        rcases List.mem_cons.mp hq with rfl | hq
        · exact absurd hqk hp
        · exact ⟨hq, hqk⟩

theorem containsKey_map (presets : List PresetSummary) (key : String) :
    QHash.containsKey (presets.map (fun p => (p.presetId, p))) key = true ↔
      ∃ p ∈ presets, p.presetId = key := by
  unfold QHash.containsKey
  simp

theorem isModified_iff (c p : PresetSummary) :
    isModified c p = true ↔
      c.name ≠ p.name ∨ c.description ≠ p.description ∨ c.shortcut ≠ p.shortcut ∨
        c.lastUsed ≠ p.lastUsed := by
  simp [isModified, fieldsToCompare]

theorem mem_newOrModifiedLoop (previousMap : QHash PresetSummary)
    (entries : List (String × PresetSummary)) (key : String) :
    key ∈ newOrModifiedLoop previousMap entries ↔
      ∃ e ∈ entries, e.1 = key ∧
        (QHash.lookup previousMap e.1 = none ∨
          ∃ p, QHash.lookup previousMap e.1 = some p ∧ isModified e.2 p = true) := by
  induction entries with
  | nil => simp [newOrModifiedLoop]
  | cons e rest ih =>
    obtain ⟨k, c⟩ := e
    unfold newOrModifiedLoop
    cases hl : QHash.lookup previousMap k with
    | none =>
      simp [ih, hl]
      exact or_congr_left eq_comm
    | some p =>
      by_cases hm : isModified c p = true
      · simp [ih, hl, hm]
        exact or_congr_left eq_comm
      · simp [ih, hl, hm]

theorem mem_deletedLoop (currentMap : QHash PresetSummary)
    (entries : List (String × PresetSummary)) (key : String) :
    key ∈ deletedLoop currentMap entries ↔
      ∃ e ∈ entries, e.1 = key ∧ QHash.containsKey currentMap e.1 = false := by
  induction entries with
  | nil => simp [deletedLoop]
  | cons e rest ih =>
    obtain ⟨k, c⟩ := e
    unfold deletedLoop
    cases hc : QHash.containsKey currentMap k with
    | false =>
      simp [ih, hc]
      exact or_congr_left eq_comm
    | true => simp [ih, hc]

theorem newOrModifiedLoop_sublist (previousMap : QHash PresetSummary)
    (entries : List (String × PresetSummary)) :
    (newOrModifiedLoop previousMap entries).Sublist (entries.map Prod.fst) := by
  induction entries with
  | nil => simp [newOrModifiedLoop]
  | cons e rest ih =>
    obtain ⟨k, c⟩ := e
    unfold newOrModifiedLoop
    cases hl : QHash.lookup previousMap k with
    | none => simpa using ih
    | some p =>
      by_cases hm : isModified c p = true
      · simpa [hm] using ih
      · simpa [hm] using ih.trans (List.sublist_cons_self _ _)

theorem deletedLoop_sublist (currentMap : QHash PresetSummary)
    (entries : List (String × PresetSummary)) :
    (deletedLoop currentMap entries).Sublist (entries.map Prod.fst) := by
  induction entries with
  | nil => simp [deletedLoop]
  | cons e rest ih =>
    obtain ⟨k, c⟩ := e
    unfold deletedLoop
    cases hc : QHash.containsKey currentMap k with
    | false => simpa using ih
    | true => simpa using ih.trans (List.sublist_cons_self _ _)

/-- C5: for every previous projection `P` and current projection `C`, each with
pairwise distinct `presetId`s, `detectChangedPresets` returns each identifier at
most once, and an identifier is returned exactly when it is (a) in `C` but not in
`P`, (b) in `P` but not in `C`, or (c) in both with a different name,
description, shortcut or lastUsed. -/
theorem detectChangedPresets_spec (P C : List PresetSummary)
    (hP : (P.map (fun p => p.presetId)).Nodup) (hC : (C.map (fun c => c.presetId)).Nodup) :
    (detectChangedPresets P C).Nodup ∧
    ∀ key, key ∈ detectChangedPresets P C ↔
      ((∃ c ∈ C, c.presetId = key) ∧ ¬ ∃ p ∈ P, p.presetId = key) ∨
      ((∃ p ∈ P, p.presetId = key) ∧ ¬ ∃ c ∈ C, c.presetId = key) ∨
      (∃ p ∈ P, ∃ c ∈ C, p.presetId = key ∧ c.presetId = key ∧
        (c.name ≠ p.name ∨ c.description ≠ p.description ∨ c.shortcut ≠ p.shortcut ∨
          c.lastUsed ≠ p.lastUsed)) := by
  have hkeysC : (C.map (fun p => (p.presetId, p))).map Prod.fst = C.map (fun c => c.presetId) := by
    simp [List.map_map, Function.comp_def]
  have hkeysP : (P.map (fun p => (p.presetId, p))).map Prod.fst = P.map (fun c => c.presetId) := by
    simp [List.map_map, Function.comp_def]
  have hnew : ∀ key, key ∈ newOrModifiedLoop (P.map (fun p => (p.presetId, p)))
      (C.map (fun p => (p.presetId, p))) ↔
      ((∃ c ∈ C, c.presetId = key) ∧ ¬ ∃ p ∈ P, p.presetId = key) ∨
      (∃ p ∈ P, ∃ c ∈ C, p.presetId = key ∧ c.presetId = key ∧
        (c.name ≠ p.name ∨ c.description ≠ p.description ∨ c.shortcut ≠ p.shortcut ∨
          c.lastUsed ≠ p.lastUsed)) := by
    intro key
    rw [mem_newOrModifiedLoop]
    constructor
    · rintro ⟨e, he, hk, h⟩
      obtain ⟨c, hc, rfl⟩ := List.mem_map.mp he
      simp only at hk h
      rcases h with h | ⟨p, hp, hm⟩
      · left
        refine ⟨⟨c, hc, hk⟩, ?_⟩
        rintro ⟨p, hp, hpk⟩
        exact (lookup_map_eq_none P c.presetId).mp h p hp (hpk.trans hk.symm)
      · right
        obtain ⟨hpP, hpk⟩ := (lookup_map_eq_some P c.presetId p hP).mp hp
        exact ⟨p, hpP, c, hc, hpk.trans hk, hk, (isModified_iff c p).mp hm⟩
    · rintro (⟨⟨c, hc, hk⟩, hno⟩ | ⟨p, hp, c, hc, hpk, hck, hm⟩)
      · refine ⟨(c.presetId, c), List.mem_map_of_mem _ hc, hk, Or.inl ?_⟩
        refine (lookup_map_eq_none P c.presetId).mpr ?_
        intro p hp hpk
        exact hno ⟨p, hp, hpk.trans hk⟩
      · refine ⟨(c.presetId, c), List.mem_map_of_mem _ hc, hck, Or.inr ⟨p, ?_, ?_⟩⟩
        · exact (lookup_map_eq_some P c.presetId p hP).mpr ⟨hp, hpk.trans hck.symm⟩
        · exact (isModified_iff c p).mpr hm
  have hdel : ∀ key, key ∈ deletedLoop (C.map (fun p => (p.presetId, p)))
      (P.map (fun p => (p.presetId, p))) ↔
      ((∃ p ∈ P, p.presetId = key) ∧ ¬ ∃ c ∈ C, c.presetId = key) := by
    intro key
    rw [mem_deletedLoop]
    constructor
    · rintro ⟨e, he, hk, h⟩
      obtain ⟨p, hp, rfl⟩ := List.mem_map.mp he
      simp only at hk h
      refine ⟨⟨p, hp, hk⟩, ?_⟩
      intro hex
      rw [← hk] at hex
      rw [(containsKey_map C p.presetId).mpr hex] at h
      exact Bool.noConfusion h
    · rintro ⟨⟨p, hp, hk⟩, hno⟩
      refine ⟨(p.presetId, p), List.mem_map_of_mem _ hp, hk, ?_⟩
      cases hc : QHash.containsKey (C.map (fun p => (p.presetId, p))) p.presetId with
      | false => rfl
      | true =>
        exfalso
        apply hno
        rw [← hk]
        exact (containsKey_map C p.presetId).mp hc
  unfold detectChangedPresets
  simp only [buildSummaryMap_of_nodup P hP, buildSummaryMap_of_nodup C hC]
  constructor
  · rw [List.nodup_append]
    refine ⟨?_, ?_, ?_⟩
    · exact (hkeysC ▸ newOrModifiedLoop_sublist _ _).nodup hC
    · exact (hkeysP ▸ deletedLoop_sublist _ _).nodup hP
    · intro key h1 h2
      rw [hdel] at h2
      rw [hnew] at h1
      rcases h1 with ⟨hc, -⟩ | ⟨p, -, c, hc, -, hck, -⟩
      · exact h2.2 hc
      · exact h2.2 ⟨c, hc, hck⟩
  · intro key
    rw [List.mem_append, hnew, hdel]
    constructor
    · rintro ((h | h) | h)
      · exact Or.inl h
      · exact Or.inr (Or.inr h)
      · exact Or.inr (Or.inl h)
    · rintro (h | h | h)
      · exact Or.inl (Or.inl h)
      · exact Or.inr h
      · exact Or.inl (Or.inr h)

/-- C5 at Scenario D: previous `{P1, P2}`, current `{P1 renamed, P3}`; the result
holds `P1`, `P2` and `P3`, each once, and nothing else. -/
theorem detectChangedPresets_spec_witness :
    (detectChangedPresets scenarioDPrevious scenarioDCurrent).Nodup ∧
    ∀ key, key ∈ detectChangedPresets scenarioDPrevious scenarioDCurrent ↔
      key = "P1" ∨ key = "P2" ∨ key = "P3" := by
  have hP : (scenarioDPrevious.map (fun p => p.presetId)).Nodup := by
    simp [scenarioDPrevious]
  have hC : (scenarioDCurrent.map (fun c => c.presetId)).Nodup := by
    simp [scenarioDCurrent]
  have h := detectChangedPresets_spec scenarioDPrevious scenarioDCurrent hP hC
  refine ⟨h.1, ?_⟩
  intro key
  rw [h.2 key]
  simp only [scenarioDPrevious, scenarioDCurrent, List.mem_cons, List.mem_singleton,
    List.not_mem_nil, or_false, exists_eq_or_imp, exists_eq_left]
  by_cases h1 : key = "P1"
  · subst h1; simp
  · by_cases h2 : key = "P2"
    · subst h2; simp
    · by_cases h3 : key = "P3"
      · subst h3; simp
      · simp [h1, h2, h3, eq_comm (b := key)]

/-! ## Applying a preset -/

/-- C13: for every enabled entry applied by `applyPresetToOutput` to a live
output, the output's current mode id becomes the entry's `currentModeId` if
that id is non-empty and is among the output's supported modes, and otherwise
the output's mode is left unchanged; in both cases the output ends enabled with
position, rotation, scale and primary flag set from the entry (an absent
rotation entry is read as 1, an absent scale entry as 1.0). -/
theorem applyPresetToOutput_enabled (output : LiveOutput) (presetOutputMap : OutputSpec)
    (hen : presetOutputMap.enabled = true) :
    (presetOutputMap.currentModeId ≠ "" ∧
        (∃ m ∈ output.modes, m.id = presetOutputMap.currentModeId) →
      (applyPresetToOutput output presetOutputMap).currentModeId =
        presetOutputMap.currentModeId) ∧
    (¬ (presetOutputMap.currentModeId ≠ "" ∧
        (∃ m ∈ output.modes, m.id = presetOutputMap.currentModeId)) →
      (applyPresetToOutput output presetOutputMap).currentModeId = output.currentModeId ∧
      (applyPresetToOutput output presetOutputMap).currentMode = output.currentMode) ∧
    (applyPresetToOutput output presetOutputMap).modes = output.modes ∧
    (applyPresetToOutput output presetOutputMap).enabled = true ∧
    (applyPresetToOutput output presetOutputMap).posX = presetOutputMap.posX ∧
    (applyPresetToOutput output presetOutputMap).posY = presetOutputMap.posY ∧
    (applyPresetToOutput output presetOutputMap).rotation =
      presetOutputMap.rotation.getD 1 ∧
    (applyPresetToOutput output presetOutputMap).scale = presetOutputMap.scale.getD 1 ∧
    (applyPresetToOutput output presetOutputMap).primary = presetOutputMap.primary := by
  have hmodes : (output.modes.any (fun m => m.id == presetOutputMap.currentModeId)) = true ↔
      ∃ m ∈ output.modes, m.id = presetOutputMap.currentModeId := by
    simp
  have hempty : presetOutputMap.currentModeId.isEmpty = true ↔
      presetOutputMap.currentModeId = "" := String.isEmpty_iff _
  by_cases hcond : presetOutputMap.currentModeId ≠ "" ∧
      (∃ m ∈ output.modes, m.id = presetOutputMap.currentModeId)
  · have h1 : presetOutputMap.currentModeId.isEmpty = false := by
      cases h : presetOutputMap.currentModeId.isEmpty with
      | false => rfl
      | true => exact absurd (hempty.mp h) hcond.1
    have h2 := hmodes.mpr hcond.2
    simp only [applyPresetToOutput, hen, h1, h2]
    simp [hcond]
  · have h3 : (!presetOutputMap.currentModeId.isEmpty &&
        output.modes.any (fun m => m.id == presetOutputMap.currentModeId)) = false := by
      cases h : presetOutputMap.currentModeId.isEmpty with
      | true => simp
      | false =>
        have hne : presetOutputMap.currentModeId ≠ "" := fun hx => by
          rw [hempty.mpr hx] at h
          exact Bool.noConfusion h
        cases h' : output.modes.any (fun m => m.id == presetOutputMap.currentModeId) with
        | false => simp
        | true => exact absurd ⟨hne, hmodes.mp h'⟩ hcond
    simp only [applyPresetToOutput, hen, h3]
    simp [hcond, LiveOutput.currentMode]

/-- C13 at concrete inputs: the supported mode `m1` is set, the unsupported mode
`m9` leaves `m0` current; the output ends enabled at `(1920, 0)`. -/
theorem applyPresetToOutput_enabled_witness :
    (applyPresetToOutput liveHDMI hdmiTargetSpec).currentModeId = "m1" ∧
    (applyPresetToOutput liveHDMI hdmiMissingModeSpec).currentModeId = "m0" ∧
    (applyPresetToOutput liveHDMI hdmiTargetSpec).enabled = true ∧
    (applyPresetToOutput liveHDMI hdmiTargetSpec).posX = 1920 :=
  ⟨(applyPresetToOutput_enabled liveHDMI hdmiTargetSpec rfl).1
      ⟨by decide, ⟨{ id := "m1", width := 1280, height := 720, refreshRate := 60 },
        by simp [liveHDMI], rfl⟩⟩,
   ((applyPresetToOutput_enabled liveHDMI hdmiMissingModeSpec rfl).2.1
      (by simp [liveHDMI, hdmiMissingModeSpec])).1,
   (applyPresetToOutput_enabled liveHDMI hdmiTargetSpec rfl).2.2.2.1,
   (applyPresetToOutput_enabled liveHDMI hdmiTargetSpec rfl).2.2.2.2.1⟩

/-- C14: for every entry with `enabled = false` applied by `applyPresetToOutput`
to a live output, the only change is that the output's enabled flag becomes
false; position, mode, rotation, scale, primary flag and every other attribute
are left unchanged. -/
theorem applyPresetToOutput_disabled (output : LiveOutput) (presetOutputMap : OutputSpec)
    (hen : presetOutputMap.enabled = false) :
    applyPresetToOutput output presetOutputMap = { output with enabled := false } ∧
    (applyPresetToOutput output presetOutputMap).enabled = false ∧
    (applyPresetToOutput output presetOutputMap).posX = output.posX ∧
    (applyPresetToOutput output presetOutputMap).posY = output.posY ∧
    (applyPresetToOutput output presetOutputMap).currentModeId = output.currentModeId ∧
    (applyPresetToOutput output presetOutputMap).currentMode = output.currentMode ∧
    (applyPresetToOutput output presetOutputMap).rotation = output.rotation ∧
    (applyPresetToOutput output presetOutputMap).scale = output.scale ∧
    (applyPresetToOutput output presetOutputMap).primary = output.primary := by
  have h : applyPresetToOutput output presetOutputMap = { output with enabled := false } := by
    simp [applyPresetToOutput, hen]
  rw [h]
  exact ⟨rfl, rfl, rfl, rfl, rfl, rfl, rfl, rfl, rfl⟩

/-- C14 at a concrete input: an enabled `eDP-1` is disabled and keeps everything
else, although the entry stores another position, mode, rotation and scale. -/
theorem applyPresetToOutput_disabled_witness :
    applyPresetToOutput (liveEDP 1920 1080 60 1 0) hdmiDisabledSpec =
      { liveEDP 1920 1080 60 1 0 with enabled := false } :=
  (applyPresetToOutput_disabled (liveEDP 1920 1080 60 1 0) hdmiDisabledSpec rfl).1

theorem lookup_assign {α : Type} (key : String) (value : α) (hash : QHash α) (n : String) :
    QHash.lookup (QHash.assign key value hash) n =
      if key = n then some value else QHash.lookup hash n := by
  induction hash with
  | nil =>
    by_cases h : key = n <;> simp [QHash.assign, QHash.lookup, h]
  | cons e rest ih =>
    obtain ⟨k, v⟩ := e
    unfold QHash.assign
    by_cases hk : k = key
    · subst hk
      by_cases h : k = n <;> simp [QHash.lookup, h]
    · have hk' : (k == key) = false := by simpa using hk
      simp only [hk', Bool.false_eq_true, if_false]
      by_cases hn : k = n
      · have : ¬ key = n := fun hx => hk (hn.trans hx.symm)
        simp [QHash.lookup, hn, this]
      · have h1 : QHash.lookup ((k, v) :: QHash.assign key value rest) n =
            QHash.lookup (QHash.assign key value rest) n := by
          simp [QHash.lookup, hn]
        have h2 : QHash.lookup ((k, v) :: rest) n = QHash.lookup rest n := by
          simp [QHash.lookup, hn]
        rw [h1, h2, ih]

theorem lookup_foldl_outputsMap (specs : List OutputSpec) (n : String) :
    ∀ acc : QHash OutputSpec,
      QHash.lookup (specs.foldl
        (fun outputsMap outputMap =>
          if !outputMap.name.isEmpty then QHash.assign outputMap.name outputMap outputsMap
          else outputsMap) acc) n =
      match lastSpecNamed n specs with
      | some t => some t
      | none => QHash.lookup acc n := by
  induction specs with
  | nil => intro acc; simp [lastSpecNamed]
  | cons s rest ih =>
    intro acc
    simp only [List.foldl_cons, ih, lastSpecNamed]
    cases hl : lastSpecNamed n rest with
    | some t => rfl
    | none =>
      simp only
      by_cases hname : s.name = n
      · subst hname
        cases he : s.name.isEmpty with
        | true => simp
        | false => simp [lookup_assign]
      · cases he : s.name.isEmpty with
        | true => simp [hname]
        | false => simp [lookup_assign, hname]

/-- The map built from the entries of a preset returns, for a name, the last
entry of that name. -/
theorem lookup_buildPresetOutputsMap (specs : List OutputSpec) (n : String) :
    QHash.lookup (buildPresetOutputsMap specs) n = lastSpecNamed n specs := by
  unfold buildPresetOutputsMap
  rw [lookup_foldl_outputsMap]
  cases lastSpecNamed n specs <;> simp [QHash.lookup]

theorem lastSpecNamed_some (n : String) (specs : List OutputSpec) (t : OutputSpec)
    (h : lastSpecNamed n specs = some t) : t ∈ specs ∧ t.name = n ∧ n ≠ "" := by
  induction specs with
  | nil => simp [lastSpecNamed] at h
  | cons s rest ih =>
    unfold lastSpecNamed at h
    cases hl : lastSpecNamed n rest with
    | some u =>
      rw [hl] at h
      simp only [Option.some.injEq] at h
      subst h
      obtain ⟨h1, h2, h3⟩ := ih hl
      exact ⟨List.mem_cons_of_mem _ h1, h2, h3⟩
    | none =>
      rw [hl] at h
      simp only at h
      split_ifs at h with hc
      simp only [Option.some.injEq] at h
      subst h
      simp only [Bool.and_eq_true, beq_iff_eq, Bool.not_eq_true'] at hc
      refine ⟨by simp, hc.1, ?_⟩
      intro hx
      rw [(String.isEmpty_iff n).mpr hx] at hc
      exact Bool.noConfusion hc.2

theorem lastSpecNamed_none_of_no_name (n : String) (specs : List OutputSpec)
    (h : ∀ s ∈ specs, s.name ≠ n) : lastSpecNamed n specs = none := by
  induction specs with
  | nil => rfl
  | cons s rest ih =>
    unfold lastSpecNamed
    rw [ih (fun t ht => h t (List.mem_cons_of_mem _ ht))]
    have : ¬ s.name = n := h s (by simp)
    simp [this]

theorem applyLoop_fst (presetOutputsMap : QHash OutputSpec) (outputs : List LiveOutput) :
    (applyLoop presetOutputsMap outputs).1 =
      outputs.map (fun o =>
        match QHash.lookup presetOutputsMap o.name with
        | some s => applyPresetToOutput o s
        | none => o) := by
  induction outputs with
  | nil => rfl
  | cons o rest ih =>
    unfold applyLoop
    cases h : QHash.lookup presetOutputsMap o.name <;> simp [ih, h]

theorem applyLoop_snd (presetOutputsMap : QHash OutputSpec) (outputs : List LiveOutput) :
    (applyLoop presetOutputsMap outputs).2 =
      outputs.filterMap (fun o =>
        (QHash.lookup presetOutputsMap o.name).map (fun s => (o, s))) := by
  induction outputs with
  | nil => rfl
  | cons o rest ih =>
    unfold applyLoop
    cases h : QHash.lookup presetOutputsMap o.name <;> simp [ih, h]

theorem findPresetData_eq (self : Presets) (presetId : String) :
    findPresetData self presetId = (self.getPreset presetId).configuration := by
  unfold findPresetData Presets.getPreset
  cases self.m_presets.find? (fun preset => preset.id == presetId) <;> rfl

/-- A run of `applyPreset` hands a configuration to the executor only when the
preset is available, its configuration is not empty and the current
configuration was obtained; the run is then determined as follows. -/
theorem applyPreset_submitted (self : Presets) (presetId : String)
    (getConfigOp : GetConfigResult) (setConfigError : Option String) (now : QDateTime)
    (config' : Config)
    (h : (applyPreset self presetId getConfigOp setConfigError now).submitted = some config') :
    self.isPresetAvailable presetId = true ∧
    ∃ presetData config,
      (self.getPreset presetId).configuration = some presetData ∧
      getConfigOp = GetConfigResult.finished (some config) ∧
      config' = { config with
        outputs := (applyLoop (buildPresetOutputsMap presetData.outputs) config.outputs).1 } ∧
      (applyPreset self presetId getConfigOp setConfigError now).calls =
        (applyLoop (buildPresetOutputsMap presetData.outputs) config.outputs).2 ∧
      (setConfigError = none →
        (applyPreset self presetId getConfigOp setConfigError now).presets =
          self.updateLastUsed presetId now ∧
        (applyPreset self presetId getConfigOp setConfigError now).signals =
          [Signal.presetApplied presetId] ∧
        (applyPreset self presetId getConfigOp setConfigError now).warnings = []) ∧
      (∀ errorString, setConfigError = some errorString →
        (applyPreset self presetId getConfigOp setConfigError now).presets = self ∧
        (applyPreset self presetId getConfigOp setConfigError now).signals =
          [Signal.errorOccurred ("Failed to apply preset: " ++ errorString)] ∧
        (applyPreset self presetId getConfigOp setConfigError now).warnings =
          ["Failed to apply preset: " ++ errorString]) := by
  cases hav : self.isPresetAvailable presetId with
  | false => simp [applyPreset, hav, applyFailed] at h
  | true =>
    cases hdata : findPresetData self presetId with
    | none => simp [applyPreset, hav, hdata, applyFailed] at h
    | some presetData =>
      have hdata' : (self.getPreset presetId).configuration = some presetData := by
        rw [← findPresetData_eq]; exact hdata
      cases getConfigOp with
      | failed e => simp [applyPreset, hav, hdata, applyFailed] at h
      | finished c =>
        cases c with
        | none => simp [applyPreset, hav, hdata, applyFailed] at h
        | some config =>
          refine ⟨rfl, presetData, config, hdata', rfl, ?_⟩
          cases setConfigError with
          | some e =>
            simp only [applyPreset, hav, hdata, Bool.not_true, Bool.false_eq_true, if_false,
              Option.some.injEq] at h
            simp [applyPreset, hav, hdata, h.symm]
          | none =>
            simp only [applyPreset, hav, hdata, Bool.not_true, Bool.false_eq_true, if_false,
              Option.some.injEq] at h
            simp [applyPreset, hav, hdata, h.symm]

/-- A run of `applyPreset` that hands nothing to the executor emits one error,
logs it, calls `applyPresetToOutput` on nothing and leaves the store as it
was. -/
theorem applyPreset_not_submitted (self : Presets) (presetId : String)
    (getConfigOp : GetConfigResult) (setConfigError : Option String) (now : QDateTime)
    (h : (applyPreset self presetId getConfigOp setConfigError now).submitted = none) :
    (applyPreset self presetId getConfigOp setConfigError now).presets = self ∧
    (applyPreset self presetId getConfigOp setConfigError now).calls = [] ∧
    ∃ error, (applyPreset self presetId getConfigOp setConfigError now).signals =
        [Signal.errorOccurred error] ∧
      (applyPreset self presetId getConfigOp setConfigError now).warnings = [error] := by
  unfold applyPreset at h ⊢
  cases hav : self.isPresetAvailable presetId with
  | false => simp [applyFailed]
  | true =>
    simp only [hav, Bool.not_true, Bool.false_eq_true, if_false] at h ⊢
    cases hdata : findPresetData self presetId with
    | none => simp [applyFailed]
    | some presetData =>
      simp only [hdata] at h ⊢
      cases getConfigOp with
      | failed e => simp [applyFailed]
      | finished c =>
        cases c with
        | none => simp [applyFailed]
        | some config =>
          cases setConfigError <;> simp at h

/-- The fetched configuration of the apply scenarios after the loop of
`applyPreset` for the snapshot of `twoOutputStore`. -/
theorem twoOutputStore_submitted (setConfigError : Option String) (now : QDateTime) :
    (applyPreset twoOutputStore "preset-2" (GetConfigResult.finished (some twoOutputConfig))
      setConfigError now).submitted =
      some { twoOutputConfig with
        outputs := (applyLoop (buildPresetOutputsMap [hdmiTargetSpec, scenarioASpec])
          twoOutputConfig.outputs).1 } := by
  have hav : twoOutputStore.isPresetAvailable "preset-2" = true := by
    simp [twoOutputStore, Presets.isPresetAvailable, Presets.getPreset,
      DisplayPreset.outputsList, availableLoop, availableFound, hdmiTargetSpec, scenarioASpec,
      liveEDP, liveHDMI]
    decide
  have hdata : findPresetData twoOutputStore "preset-2" =
      some { outputs := [hdmiTargetSpec, scenarioASpec] } := by
    simp [findPresetData, twoOutputStore]
  cases setConfigError <;> simp [applyPreset, hav, hdata]

/-- The calls of the apply scenarios: the last entry of each name, in the order
of the fetched configuration. -/
theorem twoOutput_calls :
    twoOutputConfig.outputs.filterMap (fun o =>
      (lastSpecNamed o.name [hdmiTargetSpec, scenarioASpec]).map (fun s => (o, s))) =
      [(liveEDP 1920 1080 60 1 0, scenarioASpec), (liveHDMI, hdmiTargetSpec)] := by
  have h1 : lastSpecNamed "eDP-1" [hdmiTargetSpec, scenarioASpec] = some scenarioASpec := by
    simp [lastSpecNamed, scenarioASpec]
    decide
  have h2 : lastSpecNamed "HDMI-1" [hdmiTargetSpec, scenarioASpec] = some hdmiTargetSpec := by
    simp [lastSpecNamed, scenarioASpec, hdmiTargetSpec]
    decide
  have h3 : lastSpecNamed "DP-2" [hdmiTargetSpec, scenarioASpec] = none := by
    simp [lastSpecNamed, scenarioASpec, hdmiTargetSpec]
  have n1 : (liveEDP 1920 1080 60 1 0).name = "eDP-1" := rfl
  have n2 : liveHDMI.name = "HDMI-1" := rfl
  simp only [twoOutputConfig, List.filterMap_cons, List.filterMap_nil, n1, n2, h1, h2, h3,
    Option.map]

/-- C11: whenever `applyPreset` hands the fetched configuration to the executor,
every live output whose name is the name of no entry of the preset is at its
place, completely unchanged (so it is not disabled), the number of outputs is
unchanged, and every call of `applyPresetToOutput` is made on an output with an
entry of the preset that has the name of that output. -/
theorem applyPreset_untouched_outputs (self : Presets) (presetId : String)
    (getConfigOp : GetConfigResult) (setConfigError : Option String) (now : QDateTime)
    (config config' : Config)
    (hget : getConfigOp = GetConfigResult.finished (some config))
    (hsub : (applyPreset self presetId getConfigOp setConfigError now).submitted =
      some config') :
    config'.outputs.length = config.outputs.length ∧
    (∀ (i : Nat) (o : LiveOutput), config.outputs[i]? = some o →
      (∀ s ∈ (self.getPreset presetId).outputsList, s.name ≠ o.name) →
      config'.outputs[i]? = some o) ∧
    (∀ call ∈ (applyPreset self presetId getConfigOp setConfigError now).calls,
      call.2 ∈ (self.getPreset presetId).outputsList ∧ call.2.name = call.1.name) := by
  obtain ⟨-, presetData, config0, hdata, hget0, hcfg, hcalls, -, -⟩ :=
    applyPreset_submitted self presetId getConfigOp setConfigError now config' hsub
  rw [hget] at hget0
  simp only [GetConfigResult.finished.injEq, Option.some.injEq] at hget0
  subst hget0
  have hspecs : (self.getPreset presetId).outputsList = presetData.outputs := by
    simp [DisplayPreset.outputsList, hdata]
  rw [hspecs, hcalls, hcfg]
  simp only [applyLoop_fst, applyLoop_snd, lookup_buildPresetOutputsMap, List.length_map]
  refine ⟨trivial, ?_, ?_⟩
  · intro i o hi hno
    rw [List.getElem?_map, hi]
    simp [lastSpecNamed_none_of_no_name o.name presetData.outputs hno]
  · intro call hcall
    simp only [List.mem_filterMap, Option.map_eq_some'] at hcall
    obtain ⟨o, -, s, hs, rfl⟩ := hcall
    obtain ⟨h1, h2, -⟩ := lastSpecNamed_some _ _ _ hs
    exact ⟨h1, h2⟩

/-- C11 at a concrete input: the snapshot mentions `HDMI-1` and `eDP-1`; the live
`DP-2`, third in the fetched configuration, is third and unchanged in the
configuration handed to the executor. -/
theorem applyPreset_untouched_outputs_witness :
    ((applyLoop (buildPresetOutputsMap [hdmiTargetSpec, scenarioASpec])
        twoOutputConfig.outputs).1)[2]? =
      some { name := "DP-2", connected := true, enabled := true } :=
  (applyPreset_untouched_outputs twoOutputStore "preset-2"
    (GetConfigResult.finished (some twoOutputConfig)) none (some 2000) twoOutputConfig
    { twoOutputConfig with
      outputs := (applyLoop (buildPresetOutputsMap [hdmiTargetSpec, scenarioASpec])
        twoOutputConfig.outputs).1 }
    rfl (twoOutputStore_submitted none (some 2000))).2.1 2
    { name := "DP-2", connected := true, enabled := true } rfl
    (by simp [twoOutputStore, Presets.getPreset, DisplayPreset.outputsList, hdmiTargetSpec,
      scenarioASpec])

/-- C12, as stated, fails: the snapshot lists `HDMI-1` before `eDP-1`, the
fetched configuration lists `eDP-1` before `HDMI-1`, and `applyPresetToOutput`
is called first on `eDP-1` and then on `HDMI-1`, which is not the order of the
snapshot's entries. -/
theorem applyPreset_order_counterexample :
    (twoOutputStore.getPreset "preset-2").outputsList = [hdmiTargetSpec, scenarioASpec] ∧
    namesInPresetOrder (twoOutputStore.getPreset "preset-2").outputsList
      twoOutputConfig.outputs = ["HDMI-1", "eDP-1"] ∧
    ((applyPreset twoOutputStore "preset-2" (GetConfigResult.finished (some twoOutputConfig))
      none (some 2000)).calls).map (fun call => call.1.name) = ["eDP-1", "HDMI-1"] := by
  have hsub := twoOutputStore_submitted none (some 2000)
  obtain ⟨-, presetData, config0, hdata, hget0, -, hcalls, -, -⟩ :=
    applyPreset_submitted _ _ _ _ _ _ hsub
  simp only [GetConfigResult.finished.injEq, Option.some.injEq] at hget0
  subst hget0
  have hd : presetData = { outputs := [hdmiTargetSpec, scenarioASpec] } := by
    simpa [twoOutputStore, Presets.getPreset] using hdata.symm
  subst hd
  refine ⟨?_, ?_, ?_⟩
  · simp [twoOutputStore, Presets.getPreset, DisplayPreset.outputsList]
  · simp [namesInPresetOrder, twoOutputStore, Presets.getPreset, DisplayPreset.outputsList,
      twoOutputConfig, hdmiTargetSpec, scenarioASpec, liveEDP, liveHDMI]
  · rw [hcalls, applyLoop_snd]
    simp only [lookup_buildPresetOutputsMap, twoOutput_calls]
    rfl

/-- C12 (amended): whenever `applyPreset` hands the fetched configuration to the
executor, the calls of `applyPresetToOutput` are made in the order of the
outputs of the fetched live configuration: one call for each live output whose
name is non-empty and is the name of an entry of the preset, made with the last
entry of that name. -/
theorem applyPreset_calls_in_live_order (self : Presets) (presetId : String)
    (getConfigOp : GetConfigResult) (setConfigError : Option String) (now : QDateTime)
    (config config' : Config)
    (hget : getConfigOp = GetConfigResult.finished (some config))
    (hsub : (applyPreset self presetId getConfigOp setConfigError now).submitted =
      some config') :
    (applyPreset self presetId getConfigOp setConfigError now).calls =
      config.outputs.filterMap (fun o =>
        (lastSpecNamed o.name (self.getPreset presetId).outputsList).map (fun s => (o, s))) := by
  obtain ⟨-, presetData, config0, hdata, hget0, -, hcalls, -, -⟩ :=
    applyPreset_submitted self presetId getConfigOp setConfigError now config' hsub
  rw [hget] at hget0
  simp only [GetConfigResult.finished.injEq, Option.some.injEq] at hget0
  subst hget0
  have hspecs : (self.getPreset presetId).outputsList = presetData.outputs := by
    simp [DisplayPreset.outputsList, hdata]
  rw [hspecs, hcalls, applyLoop_snd]
  simp only [lookup_buildPresetOutputsMap]

/-- C12 at a concrete input: the snapshot lists `HDMI-1` before `eDP-1`; the calls
are made on `eDP-1` and then on `HDMI-1`, the order of the fetched
configuration, and `DP-2` gets none. -/
theorem applyPreset_calls_in_live_order_witness :
    (applyPreset twoOutputStore "preset-2" (GetConfigResult.finished (some twoOutputConfig))
      none (some 2000)).calls =
      [(liveEDP 1920 1080 60 1 0, scenarioASpec), (liveHDMI, hdmiTargetSpec)] := by
  rw [applyPreset_calls_in_live_order twoOutputStore "preset-2"
    (GetConfigResult.finished (some twoOutputConfig)) none (some 2000) twoOutputConfig _ rfl
    (twoOutputStore_submitted none (some 2000))]
  have hspecs : (twoOutputStore.getPreset "preset-2").outputsList =
      [hdmiTargetSpec, scenarioASpec] := by
    simp [twoOutputStore, Presets.getPreset, DisplayPreset.outputsList]
  rw [hspecs]
  exact twoOutput_calls

theorem modifyFirstById_split (presetId : String) (f : DisplayPreset → DisplayPreset)
    (l : List DisplayPreset) (h : ∃ p ∈ l, p.id = presetId) :
    ∃ pre p post, l = pre ++ p :: post ∧ p.id = presetId ∧ (∀ q ∈ pre, q.id ≠ presetId) ∧
      modifyFirstById presetId f l = pre ++ f p :: post := by
  induction l with
  | nil => simp at h
  | cons q rest ih =>
    by_cases hq : q.id = presetId
    · exact ⟨[], q, rest, rfl, hq, by simp, by simp [modifyFirstById, hq]⟩
    · have hrest : ∃ p ∈ rest, p.id = presetId := by
        obtain ⟨p, hp, hid⟩ := h
        rcases List.mem_cons.mp hp with rfl | hp
        · exact absurd hid hq
        · exact ⟨p, hp, hid⟩
      obtain ⟨pre, p, post, h1, h2, h3, h4⟩ := ih hrest
      refine ⟨q :: pre, p, post, by simp [h1], h2, ?_, by simp [modifyFirstById, hq, h4]⟩
      intro r hr
      rcases List.mem_cons.mp hr with rfl | hr
      · exact hq
      · exact h3 r hr

theorem modifyFirstById_of_not_mem (presetId : String) (f : DisplayPreset → DisplayPreset)
    (l : List DisplayPreset) (h : ∀ p ∈ l, p.id ≠ presetId) :
    modifyFirstById presetId f l = l := by
  induction l with
  | nil => rfl
  | cons q rest ih =>
    have hq : ¬ q.id = presetId := h q (by simp)
    simp [modifyFirstById, hq, ih (fun p hp => h p (List.mem_cons_of_mem _ hp))]

theorem find?_id_eq_none_iff (l : List DisplayPreset) (presetId : String) :
    l.find? (fun preset => preset.id == presetId) = none ↔ ∀ p ∈ l, p.id ≠ presetId := by
  simp [List.find?_eq_none]

/-- The store after `updateLastUsed`, when some preset has the identifier: the
first such preset gets the new timestamp, nothing else changes. -/
theorem updateLastUsed_split (self : Presets) (presetId : String) (now : QDateTime)
    (h : ∃ p ∈ self.m_presets, p.id = presetId) :
    (self.updateLastUsed presetId now).m_screenConfiguration = self.m_screenConfiguration ∧
    ∃ pre p post, self.m_presets = pre ++ p :: post ∧ p.id = presetId ∧
      (∀ q ∈ pre, q.id ≠ presetId) ∧
      (self.updateLastUsed presetId now).m_presets =
        pre ++ { p with lastUsed := now } :: post := by
  unfold Presets.updateLastUsed
  cases hf : self.m_presets.find? (fun preset => preset.id == presetId) with
  | none =>
    obtain ⟨p, hp, hid⟩ := h
    exact absurd hid ((find?_id_eq_none_iff _ _).mp hf p hp)
  | some q =>
    exact ⟨rfl, modifyFirstById_split presetId _ self.m_presets h⟩

/-- An available preset is in the store. -/
theorem mem_of_isPresetAvailable (self : Presets) (presetId : String)
    (h : self.isPresetAvailable presetId = true) : ∃ p ∈ self.m_presets, p.id = presetId := by
  by_contra hno
  push_neg at hno
  have hget := getPreset_of_not_mem self presetId hno
  unfold Presets.isPresetAvailable at h
  cases hc : self.m_screenConfiguration with
  | none => simp [hc] at h
  | some config =>
    simp only [hc, hget] at h
    rw [default_id_isEmpty] at h
    simp at h

/-- The run of `applyPreset` on `missingModeStore` with a successful executor. -/
theorem missingModeStore_run :
    applyPreset missingModeStore "preset-m"
      (GetConfigResult.finished (some { outputs := [liveHDMI] })) none (some 2000) =
      { presets := missingModeStore.updateLastUsed "preset-m" (some 2000)
        signals := [Signal.presetApplied "preset-m"]
        warnings := []
        submitted := some { outputs := [applyPresetToOutput liveHDMI hdmiMissingModeSpec] }
        calls := [(liveHDMI, hdmiMissingModeSpec)] } := by
  have hav : missingModeStore.isPresetAvailable "preset-m" = true := by
    simp [missingModeStore, Presets.isPresetAvailable, Presets.getPreset,
      DisplayPreset.outputsList, availableLoop, availableFound, hdmiMissingModeSpec,
      hdmiTargetSpec, liveHDMI]
    decide
  have hdata : findPresetData missingModeStore "preset-m" =
      some { outputs := [hdmiMissingModeSpec] } := by
    simp [findPresetData, missingModeStore]
  have hl : lastSpecNamed "HDMI-1" [hdmiMissingModeSpec] = some hdmiMissingModeSpec := by
    simp [lastSpecNamed, hdmiMissingModeSpec, hdmiTargetSpec]
    decide
  have hn : liveHDMI.name = "HDMI-1" := rfl
  have hloop : applyLoop (buildPresetOutputsMap [hdmiMissingModeSpec]) [liveHDMI] =
      ([applyPresetToOutput liveHDMI hdmiMissingModeSpec],
        [(liveHDMI, hdmiMissingModeSpec)]) := by
    simp only [applyLoop, lookup_buildPresetOutputsMap, hn, hl]
  simp [applyPreset, hav, hdata, hloop]

/-- C15, as stated, fails: the snapshot enables `HDMI-1` with the mode `m9`, the
live `HDMI-1` supports `m0` and `m1` only; the apply keeps the mode `m0`, and
with a successful executor it logs no warning and emits `presetApplied` alone:
nothing about the missing mode reaches the host. -/
theorem applyPreset_missing_mode_counterexample :
    (applyPreset missingModeStore "preset-m"
      (GetConfigResult.finished (some { outputs := [liveHDMI] })) none (some 2000)).calls =
      [(liveHDMI, hdmiMissingModeSpec)] ∧
    hdmiMissingModeSpec.enabled = true ∧
    (¬ ∃ m ∈ liveHDMI.modes, m.id = hdmiMissingModeSpec.currentModeId) ∧
    ((applyPreset missingModeStore "preset-m"
      (GetConfigResult.finished (some { outputs := [liveHDMI] })) none (some 2000)).submitted.map
        (fun config => config.outputs.map (fun o => o.currentModeId))) = some ["m0"] ∧
    (applyPreset missingModeStore "preset-m"
      (GetConfigResult.finished (some { outputs := [liveHDMI] })) none (some 2000)).warnings = [] ∧
    (applyPreset missingModeStore "preset-m"
      (GetConfigResult.finished (some { outputs := [liveHDMI] })) none (some 2000)).signals =
      [Signal.presetApplied "preset-m"] := by
  have hmode : (applyPresetToOutput liveHDMI hdmiMissingModeSpec).currentModeId = "m0" := by
    simp [applyPresetToOutput, hdmiMissingModeSpec, hdmiTargetSpec, liveHDMI]
  rw [missingModeStore_run]
  refine ⟨rfl, rfl, ?_, ?_, rfl, rfl⟩
  · simp [liveHDMI, hdmiMissingModeSpec]
  · simp [hmode]

/-- C15 (amended): whenever a run of `applyPreset` that reaches the executor
calls `applyPresetToOutput` with an enabled entry whose `currentModeId` is not
among the supported modes of the live output, the mode of that output is left
unchanged in the configuration handed to the executor and nothing about it is
surfaced: with a successful executor no warning is logged and the only signal
is `presetApplied`; with a failing executor the only warning and the only
signal carry the executor's error. -/
theorem applyPreset_missing_mode_silent (self : Presets) (presetId : String)
    (getConfigOp : GetConfigResult) (setConfigError : Option String) (now : QDateTime)
    (config' : Config) (call : LiveOutput × OutputSpec)
    (hsub : (applyPreset self presetId getConfigOp setConfigError now).submitted =
      some config')
    (hcall : call ∈ (applyPreset self presetId getConfigOp setConfigError now).calls)
    (_hen : call.2.enabled = true)
    (hmissing : ¬ ∃ m ∈ call.1.modes, m.id = call.2.currentModeId) :
    applyPresetToOutput call.1 call.2 ∈ config'.outputs ∧
    (applyPresetToOutput call.1 call.2).currentModeId = call.1.currentModeId ∧
    (applyPresetToOutput call.1 call.2).currentMode = call.1.currentMode ∧
    (setConfigError = none →
      (applyPreset self presetId getConfigOp setConfigError now).warnings = [] ∧
      (applyPreset self presetId getConfigOp setConfigError now).signals =
        [Signal.presetApplied presetId]) ∧
    (∀ errorString, setConfigError = some errorString →
      (applyPreset self presetId getConfigOp setConfigError now).warnings =
        ["Failed to apply preset: " ++ errorString] ∧
      (applyPreset self presetId getConfigOp setConfigError now).signals =
        [Signal.errorOccurred ("Failed to apply preset: " ++ errorString)]) := by
  obtain ⟨-, presetData, config, -, -, hcfg, hcalls, hok, herr⟩ :=
    applyPreset_submitted self presetId getConfigOp setConfigError now config' hsub
  rw [hcalls, applyLoop_snd] at hcall
  simp only [List.mem_filterMap, Option.map_eq_some'] at hcall
  obtain ⟨o, ho, s, hs, rfl⟩ := hcall
  have hmode : (applyPresetToOutput o s).currentModeId = o.currentModeId ∧
      (applyPresetToOutput o s).modes = o.modes := by
    have hany : (o.modes.any (fun m => m.id == s.currentModeId)) = false := by
      cases h : o.modes.any (fun m => m.id == s.currentModeId) with
      | false => rfl
      | true =>
        exfalso
        apply hmissing
        simpa using h
    cases he : s.enabled <;> simp [applyPresetToOutput, he, hany]
  refine ⟨?_, hmode.1, ?_, ?_, ?_⟩
  · rw [hcfg]
    simp only [applyLoop_fst, List.mem_map]
    exact ⟨o, ho, by simp [hs]⟩
  · simp [LiveOutput.currentMode, hmode.1, hmode.2]
  · intro hnone
    exact ⟨(hok hnone).2.2, (hok hnone).2.1⟩
  · intro e he
    exact ⟨(herr e he).2.2, (herr e he).2.1⟩

/-- C15 at a concrete input: the mode `m9` is missing, the live `HDMI-1` keeps the
mode `m0`, and the run with a successful executor logs nothing and emits
`presetApplied` alone. -/
theorem applyPreset_missing_mode_silent_witness :
    (applyPresetToOutput liveHDMI hdmiMissingModeSpec).currentModeId = "m0" ∧
    (applyPreset missingModeStore "preset-m"
      (GetConfigResult.finished (some { outputs := [liveHDMI] })) none (some 2000)).warnings = [] ∧
    (applyPreset missingModeStore "preset-m"
      (GetConfigResult.finished (some { outputs := [liveHDMI] })) none (some 2000)).signals =
      [Signal.presetApplied "preset-m"] := by
  have hrun := missingModeStore_run
  have h := applyPreset_missing_mode_silent missingModeStore "preset-m"
    (GetConfigResult.finished (some { outputs := [liveHDMI] })) none (some 2000)
    { outputs := [applyPresetToOutput liveHDMI hdmiMissingModeSpec] }
    (liveHDMI, hdmiMissingModeSpec) (by rw [hrun]) (by rw [hrun]; simp) rfl
    (by simp [liveHDMI, hdmiMissingModeSpec])
  exact ⟨h.2.1, (h.2.2.2.1 rfl).1, (h.2.2.2.1 rfl).2⟩

/-- The run of `applyPreset` on `emptyDataStore`: the snapshot is available, its
configuration map is empty, and the run stops before the executor. -/
theorem emptyDataStore_run (getConfigOp : GetConfigResult) (setConfigError : Option String)
    (now : QDateTime) :
    emptyDataStore.isPresetAvailable "preset-e" = true ∧
    applyPreset emptyDataStore "preset-e" getConfigOp setConfigError now =
      applyFailed emptyDataStore "Preset data not found: preset-e" := by
  have hav : emptyDataStore.isPresetAvailable "preset-e" = true := by
    simp [emptyDataStore, Presets.isPresetAvailable, Presets.getPreset,
      DisplayPreset.outputsList, availableLoop]
    decide
  have hdata : findPresetData emptyDataStore "preset-e" = none := by
    simp [findPresetData, emptyDataStore]
  refine ⟨hav, ?_⟩
  simp [applyPreset, hav, hdata]

/-- C16, as stated, fails for a snapshot loaded with an empty configuration map:
it is available (it enables no output), the executor outcome given is success,
yet `applyPreset` reports "Preset data not found" and leaves the last-used
timestamp `1500` instead of setting it to `2000`. -/
theorem applyPreset_lastUsed_counterexample :
    emptyDataStore.isPresetAvailable "preset-e" = true ∧
    (applyPreset emptyDataStore "preset-e"
      (GetConfigResult.finished (some { outputs := [liveHDMI] })) none (some 2000)).presets =
      emptyDataStore ∧
    (emptyDataStore.getPreset "preset-e").lastUsed = some 1500 ∧
    (applyPreset emptyDataStore "preset-e"
      (GetConfigResult.finished (some { outputs := [liveHDMI] })) none (some 2000)).signals =
      [Signal.errorOccurred "Preset data not found: preset-e"] := by
  obtain ⟨hav, hrun⟩ := emptyDataStore_run
    (GetConfigResult.finished (some { outputs := [liveHDMI] })) none (some 2000)
  rw [hrun]
  refine ⟨hav, rfl, ?_, rfl⟩
  simp [emptyDataStore, Presets.getPreset]

/-- C16 (amended): `applyPreset(id)` calls `updateLastUsed` if and only if the
preset is available, its stored configuration map is not empty, the current
configuration was obtained, and the executor reported success. In that case
`presetApplied` is emitted, the live configuration known to the store is
untouched, and the list of snapshots changes only in the `lastUsed` of the first
snapshot with the identifier. In every other case one error is reported and
the store, including every `lastUsed` timestamp, is left unchanged. -/
theorem applyPreset_lastUsed (self : Presets) (presetId : String)
    (getConfigOp : GetConfigResult) (setConfigError : Option String) (now : QDateTime) :
    ((self.isPresetAvailable presetId = true ∧
        (∃ presetData, (self.getPreset presetId).configuration = some presetData) ∧
        (∃ config, getConfigOp = GetConfigResult.finished (some config)) ∧
        setConfigError = none) →
      (applyPreset self presetId getConfigOp setConfigError now).presets =
        self.updateLastUsed presetId now ∧
      (applyPreset self presetId getConfigOp setConfigError now).signals =
        [Signal.presetApplied presetId] ∧
      (self.updateLastUsed presetId now).m_screenConfiguration = self.m_screenConfiguration ∧
      ∃ pre p post, self.m_presets = pre ++ p :: post ∧ p.id = presetId ∧
        (∀ q ∈ pre, q.id ≠ presetId) ∧
        (self.updateLastUsed presetId now).m_presets =
          pre ++ { p with lastUsed := now } :: post) ∧
    (¬ (self.isPresetAvailable presetId = true ∧
        (∃ presetData, (self.getPreset presetId).configuration = some presetData) ∧
        (∃ config, getConfigOp = GetConfigResult.finished (some config)) ∧
        setConfigError = none) →
      (applyPreset self presetId getConfigOp setConfigError now).presets = self ∧
      ∃ error, (applyPreset self presetId getConfigOp setConfigError now).signals =
        [Signal.errorOccurred error]) := by
  constructor
  · rintro ⟨hav, ⟨presetData, hdata⟩, ⟨config, hget⟩, hnone⟩
    have hdata' : findPresetData self presetId = some presetData := by
      rw [findPresetData_eq]; exact hdata
    subst hget hnone
    have hsplit := updateLastUsed_split self presetId now (mem_of_isPresetAvailable _ _ hav)
    refine ⟨?_, ?_, hsplit.1, hsplit.2⟩
    · simp [applyPreset, hav, hdata']
    · simp [applyPreset, hav, hdata']
  · intro hnot
    cases hsub : (applyPreset self presetId getConfigOp setConfigError now).submitted with
    | none =>
      obtain ⟨h1, -, error, h2, -⟩ :=
        applyPreset_not_submitted self presetId getConfigOp setConfigError now hsub
      exact ⟨h1, error, h2⟩
    | some config' =>
      obtain ⟨hav, presetData, config, hdata, hget, -, -, -, herr⟩ :=
        applyPreset_submitted self presetId getConfigOp setConfigError now config' hsub
      cases hs : setConfigError with
      | none => exact absurd ⟨hav, ⟨presetData, hdata⟩, ⟨config, hget⟩, hs⟩ hnot
      | some e =>
        rw [← hs]
        exact ⟨(herr e hs).1, _, (herr e hs).2.1⟩

/-- C16 at concrete inputs: applying the snapshot of `twoOutputStore` with a
successful executor sets its `lastUsed` from `1500` to `2000`; with a failing
executor the store is unchanged and the error is reported. -/
theorem applyPreset_lastUsed_witness :
    (applyPreset twoOutputStore "preset-2" (GetConfigResult.finished (some twoOutputConfig))
      none (some 2000)).presets = twoOutputStore.updateLastUsed "preset-2" (some 2000) ∧
    (applyPreset twoOutputStore "preset-2" (GetConfigResult.finished (some twoOutputConfig))
      (some "rejected") (some 2000)).presets = twoOutputStore := by
  have hsub := twoOutputStore_submitted none (some 2000)
  obtain ⟨hav, presetData, config, hdata, hget, -⟩ := applyPreset_submitted _ _ _ _ _ _ hsub
  exact ⟨((applyPreset_lastUsed twoOutputStore "preset-2"
      (GetConfigResult.finished (some twoOutputConfig)) none (some 2000)).1
      ⟨hav, ⟨presetData, hdata⟩, ⟨config, hget⟩, rfl⟩).1,
    ((applyPreset_lastUsed twoOutputStore "preset-2"
      (GetConfigResult.finished (some twoOutputConfig)) (some "rejected") (some 2000)).2
      (by simp)).1⟩

/-! ## Change detection on arbitrary projections -/

theorem keys_assign {α : Type} (key : String) (value : α) (hash : QHash α) :
    (QHash.assign key value hash).map Prod.fst =
      if key ∈ hash.map Prod.fst then hash.map Prod.fst else hash.map Prod.fst ++ [key] := by
  induction hash with
  | nil => simp [QHash.assign]
  | cons e rest ih =>
    obtain ⟨k, v⟩ := e
    unfold QHash.assign
    by_cases hk : k = key
    · simp [hk]
    · have hk' : ¬ key = k := fun h => hk h.symm
      simp only [beq_iff_eq, hk, if_false, List.map_cons, ih, List.mem_cons, hk', false_or]
      split_ifs <;> simp

theorem mem_assign {α : Type} (key : String) (value : α) (hash : QHash α)
    (e : String × α) (h : e ∈ QHash.assign key value hash) : e = (key, value) ∨ e ∈ hash := by
  induction hash with
  | nil => simpa [QHash.assign] using h
  | cons e' rest ih =>
    obtain ⟨k, v⟩ := e'
    unfold QHash.assign at h
    by_cases hk : k = key
    · simp only [hk, beq_self_eq_true, if_true, List.mem_cons] at h
      rcases h with h | h
      · exact Or.inl h
      · exact Or.inr (List.mem_cons_of_mem _ h)
    · simp only [beq_iff_eq, hk, if_false, List.mem_cons] at h
      rcases h with h | h
      · exact Or.inr (by simp [h])
      · rcases ih h with h' | h'
        · exact Or.inl h'
        · exact Or.inr (List.mem_cons_of_mem _ h')

theorem buildSummaryMap_append (presets : List PresetSummary) (p : PresetSummary) :
    buildSummaryMap (presets ++ [p]) = QHash.assign p.presetId p (buildSummaryMap presets) := by
  simp [buildSummaryMap, List.foldl_append]

/-- The keys of the map are pairwise distinct and are the identifiers of the
projection; every entry is a record of the projection under its identifier. -/
theorem buildSummaryMap_spec (presets : List PresetSummary) :
    ((buildSummaryMap presets).map Prod.fst).Nodup ∧
    (∀ key, key ∈ (buildSummaryMap presets).map Prod.fst ↔
      ∃ p ∈ presets, p.presetId = key) ∧
    (∀ e ∈ buildSummaryMap presets, e.2 ∈ presets ∧ e.2.presetId = e.1) := by
  induction presets using List.reverseRecOn with
  | nil => simp [buildSummaryMap]
  | append_singleton l p ih =>
    obtain ⟨h1, h2, h3⟩ := ih
    rw [buildSummaryMap_append]
    refine ⟨?_, ?_, ?_⟩
    · rw [keys_assign]
      split_ifs with hmem
      · exact h1
      · exact List.Nodup.append h1 (List.nodup_singleton _) (by simpa using hmem)
    · intro key
      rw [keys_assign]
      split_ifs with hmem
      · rw [h2 key]
        constructor
        · rintro ⟨q, hq, hk⟩
          exact ⟨q, by simp [hq], hk⟩
        · rintro ⟨q, hq, hk⟩
          rcases List.mem_append.mp hq with hq | hq
          · exact ⟨q, hq, hk⟩
          · simp only [List.mem_singleton] at hq
            subst hq
            rw [← hk]
            exact (h2 _).mp hmem
      · simp only [List.mem_append, List.mem_singleton, h2 key]
        constructor
        · rintro (⟨q, hq, hk⟩ | hk)
          · exact ⟨q, Or.inl hq, hk⟩
          · exact ⟨p, Or.inr rfl, hk.symm⟩
        · rintro ⟨q, hq | hq, hk⟩
          · exact Or.inl ⟨q, hq, hk⟩
          · exact Or.inr (by rw [← hk, hq])
    · intro e he
      rcases mem_assign _ _ _ e he with rfl | he'
      · exact ⟨by simp, rfl⟩
      · exact ⟨List.mem_append_left _ (h3 e he').1, (h3 e he').2⟩

theorem lookup_of_mem_of_nodup {α : Type} (hash : QHash α) (key : String) (value : α)
    (hnd : (hash.map Prod.fst).Nodup) (h : (key, value) ∈ hash) :
    QHash.lookup hash key = some value := by
  induction hash with
  | nil => simp at h
  | cons e rest ih =>
    obtain ⟨k, v⟩ := e
    simp only [List.map_cons, List.nodup_cons] at hnd
    rcases List.mem_cons.mp h with heq | hmem
    · simp only [Prod.mk.injEq] at heq
      simp [QHash.lookup, heq.1, heq.2]
    · have hk : ¬ k = key := by
        intro hk
        apply hnd.1
        rw [hk]
        exact List.mem_map_of_mem Prod.fst hmem
      have : QHash.lookup ((k, v) :: rest) key = QHash.lookup rest key := by
        simp [QHash.lookup, hk]
      rw [this, ih hnd.2 hmem]

theorem mem_of_lookup_eq_some {α : Type} (hash : QHash α) (key : String) (value : α)
    (h : QHash.lookup hash key = some value) : (key, value) ∈ hash := by
  unfold QHash.lookup at h
  simp only [Option.map_eq_some'] at h
  obtain ⟨e, he, hv⟩ := h
  have h1 := List.find?_some he
  have h2 := List.mem_of_find?_eq_some he
  simp only [beq_iff_eq] at h1
  rw [← h1, ← hv]
  exact h2

theorem containsKey_iff {α : Type} (hash : QHash α) (key : String) :
    QHash.containsKey hash key = true ↔ key ∈ hash.map Prod.fst := by
  unfold QHash.containsKey
  simp

theorem exists_lookup_of_mem_keys {α : Type} (hash : QHash α) (key : String)
    (h : key ∈ hash.map Prod.fst) : ∃ value, QHash.lookup hash key = some value := by
  cases hl : QHash.lookup hash key with
  | some v => exact ⟨v, rfl⟩
  | none =>
    exfalso
    unfold QHash.lookup at hl
    simp only [Option.map_eq_none', List.find?_eq_none] at hl
    obtain ⟨e, he, hk⟩ := List.mem_map.mp h
    exact hl e he (by simp [hk])

theorem isModified_self (p : PresetSummary) : isModified p p = false := by
  simp [isModified, fieldsToCompare]

theorem newOrModifiedLoop_eq_nil (previousMap : QHash PresetSummary)
    (entries : List (String × PresetSummary))
    (h : ∀ e ∈ entries, ∃ p, QHash.lookup previousMap e.1 = some p ∧ isModified e.2 p = false) :
    newOrModifiedLoop previousMap entries = [] := by
  rw [List.eq_nil_iff_forall_not_mem]
  intro key hkey
  obtain ⟨e, he, -, hcase⟩ := (mem_newOrModifiedLoop previousMap entries key).mp hkey
  obtain ⟨p, hp, hm⟩ := h e he
  rcases hcase with hnone | ⟨q, hq, hmq⟩
  · rw [hnone] at hp
    exact Option.noConfusion hp
  · rw [hp] at hq
    cases hq
    rw [hm] at hmq
    exact Bool.noConfusion hmq

theorem deletedLoop_eq_nil (currentMap : QHash PresetSummary)
    (entries : List (String × PresetSummary))
    (h : ∀ e ∈ entries, QHash.containsKey currentMap e.1 = true) :
    deletedLoop currentMap entries = [] := by
  rw [List.eq_nil_iff_forall_not_mem]
  intro key hkey
  obtain ⟨e, he, -, hc⟩ := (mem_deletedLoop currentMap entries key).mp hkey
  rw [h e he] at hc
  exact Bool.noConfusion hc

/-- C17: for every projection `A`, the empty one and ones with repeated
identifiers included, `detectChangedPresets` with previous = `A` and current =
`A` returns the empty list. -/
theorem detectChangedPresets_self (A : List PresetSummary) :
    detectChangedPresets A A = [] := by
  obtain ⟨hnd, -, -⟩ := buildSummaryMap_spec A
  unfold detectChangedPresets
  simp only
  rw [newOrModifiedLoop_eq_nil, deletedLoop_eq_nil]
  · rfl
  · intro e he
    exact (containsKey_iff _ _).mpr (List.mem_map_of_mem Prod.fst he)
  · intro e he
    exact ⟨e.2, lookup_of_mem_of_nodup _ _ _ hnd he, isModified_self e.2⟩

/-- C18: for all projections `P` and `C` that contain the same identifiers and
agree, per identifier, on name, description, shortcut and lastUsed,
`detectChangedPresets` returns the empty list, whatever the `isAvailable` and
`isCurrent` flags and the `outputCount` and `configuration` entries are. -/
theorem detectChangedPresets_ignores_status (P C : List PresetSummary)
    (hids : ∀ key, (∃ p ∈ P, p.presetId = key) ↔ (∃ c ∈ C, c.presetId = key))
    (hagree : ∀ p ∈ P, ∀ c ∈ C, p.presetId = c.presetId →
      c.name = p.name ∧ c.description = p.description ∧ c.shortcut = p.shortcut ∧
        c.lastUsed = p.lastUsed) :
    detectChangedPresets P C = [] := by
  obtain ⟨-, hkeysP, hentP⟩ := buildSummaryMap_spec P
  obtain ⟨-, hkeysC, hentC⟩ := buildSummaryMap_spec C
  unfold detectChangedPresets
  simp only
  rw [newOrModifiedLoop_eq_nil, deletedLoop_eq_nil]
  · rfl
  · intro e he
    rw [containsKey_iff, hkeysC, ← hids]
    exact ⟨e.2, (hentP e he).1, (hentP e he).2⟩
  · intro e he
    obtain ⟨hc, hck⟩ := hentC e he
    have hkey : e.1 ∈ (buildSummaryMap P).map Prod.fst := by
      rw [hkeysP, hids]
      exact ⟨e.2, hc, hck⟩
    obtain ⟨p, hp⟩ := exists_lookup_of_mem_keys _ _ hkey
    obtain ⟨hpP, hpk⟩ := hentP _ (mem_of_lookup_eq_some _ _ _ hp)
    refine ⟨p, hp, ?_⟩
    have hag := hagree p hpP e.2 hc (hpk.trans hck.symm)
    cases hm : isModified e.2 p with
    | false => rfl
    | true =>
      have := (isModified_iff e.2 p).mp hm
      simp [hag.1, hag.2.1, hag.2.2.1, hag.2.2.2] at this

/-- C18 at a concrete input: the projections differ in `isAvailable`, `isCurrent`,
`outputCount` and `configuration` only, and nothing is reported. -/
theorem detectChangedPresets_ignores_status_witness :
    detectChangedPresets statusBefore statusAfter = [] :=
  detectChangedPresets_ignores_status statusBefore statusAfter
    (by simp [statusBefore, statusAfter])
    (by simp [statusBefore, statusAfter])

/-! ## Saving under a name -/

theorem replaceFirstById_eq_map (presetId : String) (preset : DisplayPreset)
    (l : List DisplayPreset) (hnd : (l.map (fun p => p.id)).Nodup) :
    replaceFirstById presetId preset l =
      l.map (fun p => if p.id = presetId then preset else p) := by
  induction l with
  | nil => rfl
  | cons q rest ih =>
    simp only [List.map_cons, List.nodup_cons] at hnd
    unfold replaceFirstById
    by_cases hq : q.id = presetId
    · have hrest : rest.map (fun p => if p.id = presetId then preset else p) = rest := by
        conv_rhs => rw [← List.map_id rest]
        apply List.map_congr_left
        intro p hp
        have : ¬ p.id = presetId := by
          intro hpid
          apply hnd.1
          rw [hq, ← hpid]
          exact List.mem_map_of_mem (fun p => p.id) hp
        simp [this]
      simp [hq, hrest]
    · simp [hq, ih hnd.2]

/-- C19, as stated, fails when two snapshots share an identifier: the names
`Home` and `Work` are distinct; saving under `Work` locates `Work`, whose
identifier `X` is also that of `Home`, and `updatePreset` overwrites the first
snapshot with that identifier, `Home`. Two snapshots are then named `Work` and
`Home` is gone. -/
theorem savePreset_names_counterexample :
    (sharedIdStore.m_presets.map (fun p => p.name)).Nodup ∧
    ((savePreset sharedIdStore "Work" "new" (some scenarioEConfig) "Y" (some 2000)
      (some 2001)).m_presets.map (fun p => p.name)) = ["Work", "Work"] ∧
    ¬ ((savePreset sharedIdStore "Work" "new" (some scenarioEConfig) "Y" (some 2000)
      (some 2001)).m_presets.map (fun p => p.name)).Nodup := by
  have hnames : ((savePreset sharedIdStore "Work" "new" (some scenarioEConfig) "Y" (some 2000)
      (some 2001)).m_presets.map (fun p => p.name)) = ["Work", "Work"] := by
    simp [savePreset, sharedIdStore, Presets.findPresetByName, Presets.updatePreset,
      replaceFirstById]
  refine ⟨by simp [sharedIdStore], hnames, ?_⟩
  rw [hnames]
  simp

/-- C19 (amended): for every store whose snapshot names are pairwise distinct and
whose snapshot identifiers are pairwise distinct, and every valid live
configuration, after `savePreset(name, ...)` the names are still pairwise
distinct and exactly one snapshot is named `name`; the number of snapshots is
unchanged when a snapshot of that name already existed and grows by exactly
one otherwise, and every snapshot with another name is unchanged and keeps its
position. -/
theorem savePreset_names_unique (self : Presets) (name description : String)
    (config : Config) (presetId : String) (createdNow lastUsedNow : QDateTime)
    (hnames : (self.m_presets.map (fun p => p.name)).Nodup)
    (hids : (self.m_presets.map (fun p => p.id)).Nodup) :
    ((savePreset self name description (some config) presetId createdNow
      lastUsedNow).m_presets.map (fun p => p.name)).Nodup ∧
    ((savePreset self name description (some config) presetId createdNow
      lastUsedNow).m_presets.map (fun p => p.name)).count name = 1 ∧
    ((∃ p ∈ self.m_presets, p.name = name) →
      (savePreset self name description (some config) presetId createdNow
        lastUsedNow).m_presets.length = self.m_presets.length) ∧
    ((∀ p ∈ self.m_presets, p.name ≠ name) →
      (savePreset self name description (some config) presetId createdNow
        lastUsedNow).m_presets.length = self.m_presets.length + 1) ∧
    (∀ (i : Nat) (p : DisplayPreset), self.m_presets[i]? = some p → p.name ≠ name →
      (savePreset self name description (some config) presetId createdNow
        lastUsedNow).m_presets[i]? = some p) := by
  cases hf : self.findPresetByName name with
  | none =>
    have hno : ∀ p ∈ self.m_presets, p.name ≠ name := by
      intro p hp
      have := List.find?_eq_none.mp hf p hp
      simpa using this
    have hnot : name ∉ self.m_presets.map (fun p => p.name) := by
      intro hmem
      obtain ⟨p, hp, hpn⟩ := List.mem_map.mp hmem
      exact hno p hp hpn
    simp only [savePreset, hf, Presets.addPreset, List.map_append, List.map_cons, List.map_nil,
      List.length_append, List.length_singleton]
    refine ⟨?_, ?_, ?_, fun _ => trivial, ?_⟩
    · exact List.Nodup.append hnames (List.nodup_singleton _) (by simpa using hnot)
    · rw [List.count_append, List.count_eq_zero_of_not_mem hnot]
      simp
    · rintro ⟨p, hp, hpn⟩
      exact absurd hpn (hno p hp)
    · intro i p hi _
      have hlt : i < self.m_presets.length := by
        by_contra hge
        rw [List.getElem?_eq_none (Nat.le_of_not_lt hge)] at hi
        exact Option.noConfusion hi
      rw [List.getElem?_append_left hlt, hi]
  | some existing =>
    have hmem : existing ∈ self.m_presets := List.mem_of_find?_eq_some hf
    have hename : existing.name = name := by
      have := List.find?_some hf
      simpa using this
    have hinj := List.inj_on_of_nodup_map hids
    have hsame : ∀ p ∈ self.m_presets, p.id = existing.id → p = existing :=
      fun p hp hid => hinj hp hmem hid
    simp only [savePreset, hf, Presets.updatePreset]
    rw [replaceFirstById_eq_map _ _ _ hids]
    have hnamesEq : (self.m_presets.map (fun p => if p.id = existing.id then
        ({ id := presetId, name := name, description := description,
           created := existing.created, lastUsed := lastUsedNow,
           outputIds := (config.outputs.filter (fun output => output.enabled)).map
             (fun output => output.hashMd5),
           configuration := some (configToVariantMap config) } : DisplayPreset)
        else p)).map (fun p => p.name) = self.m_presets.map (fun p => p.name) := by
      rw [List.map_map]
      apply List.map_congr_left
      intro p hp
      by_cases hid : p.id = existing.id
      · simp [hid, ← hename, hsame p hp hid]
      · simp [hid]
    have hin : name ∈ self.m_presets.map (fun p => p.name) :=
      List.mem_map.mpr ⟨existing, hmem, hename⟩
    refine ⟨?_, ?_, ?_, ?_, ?_⟩
    · rw [hnamesEq]; exact hnames
    · rw [hnamesEq]; exact List.count_eq_one_of_mem hnames hin
    · intro _; simp
    · intro hno
      exact absurd hename (hno existing hmem)
    · intro i p hi hpn
      rw [List.getElem?_map, hi]
      have hp : p ∈ self.m_presets := List.getElem?_mem hi
      have hid : ¬ p.id = existing.id := by
        intro hid
        apply hpn
        rw [hsame p hp hid]
        exact hename
      simp [hid]

/-- C19 at Scenario-E-like inputs: saving under `Work` in a store holding `Home`
and `Work` keeps two snapshots, one of them named `Work`, and `Home` stays
first and unchanged. -/
theorem savePreset_names_unique_witness :
    ((savePreset homeWorkStore "Work" "new" (some scenarioEConfig) "Y" (some 2000)
      (some 2001)).m_presets.map (fun p => p.name)).count "Work" = 1 ∧
    (savePreset homeWorkStore "Work" "new" (some scenarioEConfig) "Y" (some 2000)
      (some 2001)).m_presets.length = 2 ∧
    (savePreset homeWorkStore "Work" "new" (some scenarioEConfig) "Y" (some 2000)
      (some 2001)).m_presets[0]? = some { id := "H", name := "Home", created := some 900 } := by
  have h := savePreset_names_unique homeWorkStore "Work" "new" scenarioEConfig "Y" (some 2000)
    (some 2001) (by simp [homeWorkStore]) (by simp [homeWorkStore])
  exact ⟨h.2.1,
    h.2.2.1 ⟨{ id := "X", name := "Work", created := some 1000 }, by simp [homeWorkStore], rfl⟩,
    h.2.2.2.2 0 _ rfl (by decide)⟩

/-! ## Operations on an unknown identifier -/

/-- C20: for every store and every identifier that no snapshot of the store has,
`renamePreset`, `updatePresetDescription`, `updatePresetShortcut`,
`deletePreset` (`removePreset`) and `updateLastUsed` leave the store, and so the
list of snapshots, unchanged, and `getPreset` returns the default snapshot, whose
id is empty. The operations are total functions, so none of them fails. -/
theorem unknown_id_is_noop (self : Presets) (presetId : String)
    (newName newDescription : String) (shortcut : QKeySequence) (now : QDateTime)
    (h : ∀ p ∈ self.m_presets, p.id ≠ presetId) :
    renamePreset self presetId newName = self ∧
    updatePresetDescription self presetId newDescription = self ∧
    updatePresetShortcut self presetId shortcut = self ∧
    deletePreset self presetId = self ∧
    self.removePreset presetId = self ∧
    self.updateLastUsed presetId now = self ∧
    self.getPreset presetId = {} ∧
    (self.getPreset presetId).id = "" := by
  have hf : self.m_presets.find? (fun preset => preset.id == presetId) = none :=
    (find?_id_eq_none_iff _ _).mpr h
  have hget := getPreset_of_not_mem self presetId h
  refine ⟨?_, ?_, ?_, ?_, ?_, ?_, hget, ?_⟩
  · simp [renamePreset, Presets.findPreset, hf]
  · simp [updatePresetDescription, Presets.findPreset, hf]
  · simp [updatePresetShortcut, Presets.findPreset, hf]
  · simp [deletePreset, Presets.removePreset, hf]
  · simp [Presets.removePreset, hf]
  · simp [Presets.updateLastUsed, hf]
  · rw [hget]

/-- C20 at a concrete input: the store holds `H` and `X`; the operations on the
identifier `missing` change nothing. -/
theorem unknown_id_is_noop_witness :
    renamePreset homeWorkStore "missing" "Den" = homeWorkStore ∧
    deletePreset homeWorkStore "missing" = homeWorkStore ∧
    homeWorkStore.updateLastUsed "missing" (some 2000) = homeWorkStore ∧
    (homeWorkStore.getPreset "missing").id = "" :=
  have h := unknown_id_is_noop homeWorkStore "missing" "Den" "text" [87] (some 2000)
    (by simp [homeWorkStore])
  ⟨h.1, h.2.2.2.1, h.2.2.2.2.2.1, h.2.2.2.2.2.2.2⟩

/-! ## Editing a snapshot -/

theorem modifyFirstById_split_all (presetId : String) (l : List DisplayPreset)
    (h : ∃ p ∈ l, p.id = presetId) :
    ∃ pre p post, l = pre ++ p :: post ∧ p.id = presetId ∧ (∀ q ∈ pre, q.id ≠ presetId) ∧
      ∀ f : DisplayPreset → DisplayPreset, modifyFirstById presetId f l = pre ++ f p :: post := by
  induction l with
  | nil => simp at h
  | cons q rest ih =>
    by_cases hq : q.id = presetId
    · exact ⟨[], q, rest, rfl, hq, by simp, fun f => by simp [modifyFirstById, hq]⟩
    · have hrest : ∃ p ∈ rest, p.id = presetId := by
        obtain ⟨p, hp, hid⟩ := h
        rcases List.mem_cons.mp hp with rfl | hp
        · exact absurd hid hq
        · exact ⟨p, hp, hid⟩
      obtain ⟨pre, p, post, h1, h2, h3, h4⟩ := ih hrest
      refine ⟨q :: pre, p, post, by simp [h1], h2, ?_, fun f => by simp [modifyFirstById, hq, h4]⟩
      intro r hr
      rcases List.mem_cons.mp hr with rfl | hr
      · exact hq
      · exact h3 r hr

/-- C21: for every store and every identifier present in it, the list of snapshots
splits around the first snapshot `p` with that identifier, and `renamePreset`
replaces `p` by `p` with only the name changed, `updatePresetDescription` by `p`
with only the description changed, and `updatePresetShortcut` by `p` with only
the shortcut changed; the identifier, creation timestamp, lastUsed, output ids
and configuration of `p`, every other snapshot, the order of the list and the
live configuration known to the store are unchanged. -/
theorem edit_changes_one_field (self : Presets) (presetId : String)
    (newName newDescription : String) (shortcut : QKeySequence)
    (h : ∃ p ∈ self.m_presets, p.id = presetId) :
    ∃ pre p post, self.m_presets = pre ++ p :: post ∧ p.id = presetId ∧
      (∀ q ∈ pre, q.id ≠ presetId) ∧
      renamePreset self presetId newName =
        { m_presets := pre ++ { p with name := newName } :: post,
          m_screenConfiguration := self.m_screenConfiguration } ∧
      updatePresetDescription self presetId newDescription =
        { m_presets := pre ++ { p with description := newDescription } :: post,
          m_screenConfiguration := self.m_screenConfiguration } ∧
      updatePresetShortcut self presetId shortcut =
        { m_presets := pre ++ { p with shortcut := shortcut } :: post,
          m_screenConfiguration := self.m_screenConfiguration } := by
  obtain ⟨pre, p, post, h1, h2, h3, h4⟩ := modifyFirstById_split_all presetId self.m_presets h
  have hf : ∃ q, self.m_presets.find? (fun preset => preset.id == presetId) = some q := by
    cases hfind : self.m_presets.find? (fun preset => preset.id == presetId) with
    | some q => exact ⟨q, rfl⟩
    | none =>
      obtain ⟨r, hr, hid⟩ := h
      exact absurd hid ((find?_id_eq_none_iff _ _).mp hfind r hr)
  obtain ⟨q, hq⟩ := hf
  refine ⟨pre, p, post, h1, h2, h3, ?_, ?_, ?_⟩
  · simp [renamePreset, Presets.findPreset, hq, h4]
  · simp [updatePresetDescription, Presets.findPreset, hq, h4]
  · simp [updatePresetShortcut, Presets.findPreset, hq, h4]

/-- C21 at a concrete input: in the store holding `H` and `X` the edits of `X`
change one field of the second snapshot each. -/
theorem edit_changes_one_field_witness :
    ∃ pre p post, homeWorkStore.m_presets = pre ++ p :: post ∧ p.id = "X" ∧
      (∀ q ∈ pre, q.id ≠ "X") ∧
      renamePreset homeWorkStore "X" "Office" =
        { m_presets := pre ++ { p with name := "Office" } :: post,
          m_screenConfiguration := homeWorkStore.m_screenConfiguration } ∧
      updatePresetDescription homeWorkStore "X" "text" =
        { m_presets := pre ++ { p with description := "text" } :: post,
          m_screenConfiguration := homeWorkStore.m_screenConfiguration } ∧
      updatePresetShortcut homeWorkStore "X" [87] =
        { m_presets := pre ++ { p with shortcut := [87] } :: post,
          m_screenConfiguration := homeWorkStore.m_screenConfiguration } :=
  edit_changes_one_field homeWorkStore "X" "Office" "text" [87]
    ⟨{ id := "X", name := "Work", created := some 1000 }, by simp [homeWorkStore], rfl⟩

/-! ## The matcher reads the preset's entries only -/

/-- The snapshot that `savePreset` builds is in the store afterwards; its creation
timestamp is `createdNow` or that of the snapshot it replaces. -/
theorem savePreset_stores (self : Presets) (name description : String) (config : Config)
    (presetId : String) (createdNow lastUsedNow : QDateTime) :
    ∃ created, DisplayPreset.mk presetId name description created lastUsedNow
        ((config.outputs.filter (fun output => output.enabled)).map
          (fun output => output.hashMd5))
        (some (configToVariantMap config)) [] ∈
      (savePreset self name description (some config) presetId createdNow
        lastUsedNow).m_presets := by
  cases hf : self.findPresetByName name with
  | none =>
    refine ⟨createdNow, ?_⟩
    simp [savePreset, hf, Presets.addPreset]
  | some existing =>
    refine ⟨existing.created, ?_⟩
    simp only [savePreset, hf, Presets.updatePreset]
    exact mem_replaceFirstById _ _ _ ⟨existing, List.mem_of_find?_eq_some hf, rfl⟩

theorem mem_configToVariantMap (config : Config) (s : OutputSpec)
    (h : s ∈ (configToVariantMap config).outputs) :
    ∃ o ∈ config.outputs, o.enabled = true ∧ s = outputToVariantMap o := by
  simp only [configToVariantMap, List.mem_map, List.mem_filter] at h
  obtain ⟨o, ⟨ho, hen⟩, rfl⟩ := h
  exact ⟨o, ho, hen, rfl⟩

/-- C23, as stated, fails for a live output that is enabled and reports no current
mode: `savePreset` stores an entry for it with `enabled = true` and without a
mode entry. -/
theorem savePreset_mode_counterexample :
    liveNoMode.enabled = true ∧ liveNoMode.currentMode = none ∧
    (savePreset {} "Dock" "" (some { outputs := [liveNoMode] }) "Y" (some 2000)
      (some 2001)).m_presets =
      [{ id := "Y", name := "Dock", created := some 2000, lastUsed := some 2001,
         outputIds := [""],
         configuration := some { outputs := [outputToVariantMap liveNoMode] } }] ∧
    (outputToVariantMap liveNoMode).enabled = true ∧
    (outputToVariantMap liveNoMode).mode = none := by
  refine ⟨rfl, rfl, ?_, rfl, rfl⟩
  simp [savePreset, Presets.findPresetByName, Presets.addPreset, configToVariantMap, liveNoMode]

/-- C23 (amended): for every live configuration passed to `savePreset`, the stored
snapshot's configuration holds one entry for each enabled output, with
`enabled = true`; the entry has a mode entry, with the width, height and
refresh rate of the output's current mode, exactly when the output reports a
current mode, and an enabled output without a current mode is stored without a
mode entry. -/
theorem savePreset_mode_entries (self : Presets) (name description : String)
    (config : Config) (presetId : String) (createdNow lastUsedNow : QDateTime) :
    ∃ p ∈ (savePreset self name description (some config) presetId createdNow
        lastUsedNow).m_presets,
      p.id = presetId ∧ p.configuration = some (configToVariantMap config) ∧
      ∀ s ∈ p.outputsList, s.enabled = true ∧
        ∃ o ∈ config.outputs, o.enabled = true ∧ s.name = o.name ∧
          (∀ m, o.currentMode = some m →
            s.mode = some { id := o.currentModeId, width := m.width, height := m.height,
                            refreshRate := m.refreshRate }) ∧
          (o.currentMode = none → s.mode = none) := by
  obtain ⟨created, hmem⟩ :=
    savePreset_stores self name description config presetId createdNow lastUsedNow
  refine ⟨_, hmem, rfl, rfl, ?_⟩
  intro s hs
  obtain ⟨o, ho, hen, rfl⟩ := mem_configToVariantMap config s hs
  refine ⟨hen, o, ho, hen, rfl, ?_, ?_⟩
  · intro m hm
    simp [outputToVariantMap, hm]
  · intro hm
    simp [outputToVariantMap, hm]

/-! ## A live output without a current mode -/

/-- C25: for every preset and live configuration in which some connected, enabled
live output reports no current mode and has a same-named enabled entry,
`isPresetCurrent` returns false, whatever mode the entry stores. The function is
total, so the call does not fail. -/
theorem no_current_mode_not_current (self : Presets) (presetId : String) (config : Config)
    (o : LiveOutput) (s : OutputSpec)
    (hcfg : self.m_screenConfiguration = some config)
    (ho : o ∈ config.outputs) (hconn : o.connected = true) (hen : o.enabled = true)
    (hmode : o.currentMode = none)
    (_hs : s ∈ (self.getPreset presetId).outputsList) (_hname : s.name = o.name)
    (_hsen : s.enabled = true) :
    self.isPresetCurrent presetId = false := by
  cases hcur : self.isPresetCurrent presetId with
  | false => rfl
  | true =>
    obtain ⟨-, hfwd, -⟩ := (isPresetCurrent_eq_true_iff self presetId config hcfg).mp hcur
    have hf := hfwd o ho hconn
    unfold ForwardOk at hf
    cases hfind : findSpec (self.getPreset presetId).outputsList o.name with
    | none =>
      rw [hfind] at hf
      simp [hen] at hf
    | some s1 =>
      rw [hfind] at hf
      obtain ⟨-, -, -, ⟨m, hm, -⟩, -⟩ := hf.2 hen
      rw [hmode] at hm
      exact Option.noConfusion hm

/-- C25 at a concrete input: the live `DP-1` is connected and enabled without a
current mode; the snapshot that stores 1920x1080 at 60 for it is not current. -/
theorem no_current_mode_not_current_witness :
    noModeStore.isPresetCurrent "preset-n" = false :=
  no_current_mode_not_current noModeStore "preset-n" { outputs := [liveNoMode] } liveNoMode
    { name := "DP-1", enabled := true, scale := some 1, rotation := some 1,
      mode := some { width := 1920, height := 1080, refreshRate := 60 } }
    rfl (List.mem_singleton.mpr rfl) rfl rfl rfl
    (by simp [noModeStore, Presets.getPreset, DisplayPreset.outputsList]) rfl rfl

/-! ## Persistence -/

theorem fromIsoDate_toIsoDate_of_whole_seconds (dateTime : QDateTime)
    (h : ∀ msecs, dateTime = some msecs → msecs % 1000 = 0) :
    fromIsoDate (toIsoDate dateTime) = dateTime := by
  cases dateTime with
  | none => rfl
  | some msecs =>
    have hm := h msecs rfl
    simp only [toIsoDate, fromIsoDate, Option.map_some', Option.some.injEq]
    exact Int.ediv_mul_cancel (Int.dvd_of_emod_eq_zero hm)

/-- C24, as stated, fails for a timestamp that is not a whole number of seconds:
a snapshot created and last used 1500 ms after the epoch comes back from the
file with both timestamps at 1000 ms. -/
theorem persistence_round_trip_counterexample :
    loadPresetsFromDisk (savePresetsToDisk [halfSecondPreset]) =
      [{ halfSecondPreset with created := some 1000, lastUsed := some 1000 }] ∧
    loadPresetsFromDisk (savePresetsToDisk [halfSecondPreset]) ≠ [halfSecondPreset] := by
  have h : loadPresetsFromDisk (savePresetsToDisk [halfSecondPreset]) =
      [{ halfSecondPreset with created := some 1000, lastUsed := some 1000 }] := by
    simp [loadPresetsFromDisk, savePresetsToDisk, halfSecondPreset, toIsoDate, fromIsoDate]
  refine ⟨h, ?_⟩
  rw [h]
  simp [halfSecondPreset]

/-- C24 (amended): writing a list of snapshots with `savePresetsToDisk` and reading
the document back with `loadPresetsFromDisk` yields the same ordered list with
id, name, description, outputIds, shortcut and configuration of every snapshot
equal, and with `created` and `lastUsed` cut to whole seconds. When every
timestamp is invalid or a whole number of seconds, the list read back is the
list written. -/
theorem persistence_round_trip (m_presets : List DisplayPreset) :
    loadPresetsFromDisk (savePresetsToDisk m_presets) =
      m_presets.map (fun preset =>
        { preset with
          created := fromIsoDate (toIsoDate preset.created)
          lastUsed := fromIsoDate (toIsoDate preset.lastUsed) }) ∧
    ((∀ preset ∈ m_presets, ∀ msecs,
        (preset.created = some msecs ∨ preset.lastUsed = some msecs) → msecs % 1000 = 0) →
      loadPresetsFromDisk (savePresetsToDisk m_presets) = m_presets) := by
  have h : loadPresetsFromDisk (savePresetsToDisk m_presets) =
      m_presets.map (fun preset =>
        { preset with
          created := fromIsoDate (toIsoDate preset.created)
          lastUsed := fromIsoDate (toIsoDate preset.lastUsed) }) := by
    simp [loadPresetsFromDisk, savePresetsToDisk, List.map_map, Function.comp_def]
  refine ⟨h, ?_⟩
  intro hwhole
  rw [h]
  conv_rhs => rw [← List.map_id m_presets]
  apply List.map_congr_left
  intro preset hp
  rw [fromIsoDate_toIsoDate_of_whole_seconds preset.created
      (fun msecs hm => hwhole preset hp msecs (Or.inl hm)),
    fromIsoDate_toIsoDate_of_whole_seconds preset.lastUsed
      (fun msecs hm => hwhole preset hp msecs (Or.inr hm))]
  rfl

/-- C24 at a concrete input: a snapshot whose timestamps are whole seconds is read
back as written, with its configuration, output ids and shortcut. -/
theorem persistence_round_trip_witness :
    loadPresetsFromDisk (savePresetsToDisk [wholeSecondPreset]) = [wholeSecondPreset] :=
  (persistence_round_trip [wholeSecondPreset]).2
    (by
      intro preset hp msecs hm
      simp only [List.mem_singleton] at hp
      subst hp
      rcases hm with hm | hm <;> simp [wholeSecondPreset] at hm <;> subst hm <;> decide)

/-! ## Publication -/

theorem getPresets_ids (text : TextFormat) (self : Presets) (key : String) :
    (∃ c ∈ getPresets text self, c.presetId = key) ↔ ∃ p ∈ self.m_presets, p.id = key := by
  simp [getPresets, presetSummary]

/-- C26: for every store and every identifier, the record that `getPresetInfo`
builds carries the identifier; it has `deleted = true`, and no other entry, if
and only if no snapshot of the store has that identifier; otherwise it has
`deleted = false` and its name, description, shortcut and lastUsed are those of
the first stored snapshot with the identifier. Hence every identifier that
`detectChangedPresets` reports and that is absent from the current projection
is published by `emitPresetsChanged` with `deleted = true`. -/
theorem getPresetInfo_spec (text : TextFormat) (self : Presets) (presetId : String) :
    (getPresetInfo text self presetId).presetId = presetId ∧
    ((getPresetInfo text self presetId).deleted = true ↔
      ∀ p ∈ self.m_presets, p.id ≠ presetId) ∧
    ((∀ p ∈ self.m_presets, p.id ≠ presetId) →
      (getPresetInfo text self presetId).entries = none) ∧
    ((∃ p ∈ self.m_presets, p.id = presetId) →
      (getPresetInfo text self presetId).deleted = false ∧
      ∃ e, (getPresetInfo text self presetId).entries = some e ∧
        e.presetId = presetId ∧
        e.name = (self.getPreset presetId).name ∧
        e.description = (self.getPreset presetId).description ∧
        e.shortcut = text.keySequence (self.getPreset presetId).shortcut ∧
        e.lastUsed = text.isoDate (toIsoDate (self.getPreset presetId).lastUsed)) ∧
    (∀ (previous : List PresetSummary),
      presetId ∈ detectChangedPresets previous (getPresets text self) →
      (¬ ∃ c ∈ getPresets text self, c.presetId = presetId) →
      getPresetInfo text self presetId ∈ emitPresetsChanged text self
        (detectChangedPresets previous (getPresets text self)) ∧
      (getPresetInfo text self presetId).deleted = true) := by
  have hdel : (getPresetInfo text self presetId).deleted = true ↔
      ∀ p ∈ self.m_presets, p.id ≠ presetId := by
    unfold getPresetInfo
    cases hf : self.m_presets.find? (fun preset => preset.id == presetId) with
    | none => simpa using (find?_id_eq_none_iff _ _).mp hf
    | some q =>
      have h1 := List.find?_some hf
      have h2 := List.mem_of_find?_eq_some hf
      simp only [beq_iff_eq] at h1
      simp only [Bool.false_eq_true, false_iff]
      intro hall
      exact hall q h2 h1
  refine ⟨?_, hdel, ?_, ?_, ?_⟩
  · unfold getPresetInfo
    cases self.m_presets.find? (fun preset => preset.id == presetId) <;> rfl
  · intro hno
    unfold getPresetInfo
    rw [(find?_id_eq_none_iff _ _).mpr hno]
  · rintro ⟨p, hp, hid⟩
    unfold getPresetInfo Presets.getPreset
    cases hf : self.m_presets.find? (fun preset => preset.id == presetId) with
    | none => exact absurd hid ((find?_id_eq_none_iff _ _).mp hf p hp)
    | some q => exact ⟨rfl, _, rfl, rfl, rfl, rfl, rfl, rfl⟩
  · intro previous hmem habsent
    constructor
    · unfold emitPresetsChanged
      have hne : (detectChangedPresets previous (getPresets text self)).isEmpty = false := by
        cases hl : detectChangedPresets previous (getPresets text self) with
        | nil => rw [hl] at hmem; simp at hmem
        | cons a l => rfl
      rw [hne]
      simp only [Bool.false_eq_true, if_false]
      exact List.mem_map_of_mem _ hmem
    · rw [hdel]
      intro p hp hid
      exact habsent ((getPresets_ids text self presetId).mpr ⟨p, hp, hid⟩)

/-- C26 at concrete inputs: in the store holding `H` and `X`, the record of `X` is
not deleted and carries the name `Work`; the record of `P2`, which the
previous projection of Scenario D held and the store does not, is published
with `deleted = true`. -/
theorem getPresetInfo_spec_witness :
    (getPresetInfo sampleText homeWorkStore "X").deleted = false ∧
    (∃ e, (getPresetInfo sampleText homeWorkStore "X").entries = some e ∧ e.name = "Work") ∧
    (getPresetInfo sampleText homeWorkStore "P2").deleted = true ∧
    (getPresetInfo sampleText homeWorkStore "P2").entries = none := by
  have hX := (getPresetInfo_spec sampleText homeWorkStore "X").2.2.2.1
    ⟨{ id := "X", name := "Work", created := some 1000 }, by simp [homeWorkStore], rfl⟩
  have hP := getPresetInfo_spec sampleText homeWorkStore "P2"
  have hno : ∀ p ∈ homeWorkStore.m_presets, p.id ≠ "P2" := by simp [homeWorkStore]
  obtain ⟨e, he, -, hname, -⟩ := hX.2
  refine ⟨hX.1, ⟨e, he, ?_⟩, hP.2.1.mpr hno, hP.2.2.1 hno⟩
  rw [hname]
  simp [homeWorkStore, Presets.getPreset]

/-! ## Symmetry and the cache of the change detection -/

theorem lookup_eq_none_iff {α : Type} (hash : QHash α) (key : String) :
    QHash.lookup hash key = none ↔ key ∉ hash.map Prod.fst := by
  constructor
  · intro hnone hmem
    obtain ⟨v, hv⟩ := exists_lookup_of_mem_keys hash key hmem
    rw [hnone] at hv
    exact Option.noConfusion hv
  · intro hno
    cases hl : QHash.lookup hash key with
    | none => rfl
    | some v =>
      exact absurd (List.mem_map_of_mem Prod.fst (mem_of_lookup_eq_some hash key v hl)) hno

theorem isModified_comm (c p : PresetSummary) : isModified c p = isModified p c := by
  rw [Bool.eq_iff_iff, isModified_iff, isModified_iff]
  constructor
  · rintro (h | h | h | h)
    · exact Or.inl (Ne.symm h)
    · exact Or.inr (Or.inl (Ne.symm h))
    · exact Or.inr (Or.inr (Or.inl (Ne.symm h)))
    · exact Or.inr (Or.inr (Or.inr (Ne.symm h)))
  · rintro (h | h | h | h)
    · exact Or.inl (Ne.symm h)
    · exact Or.inr (Or.inl (Ne.symm h))
    · exact Or.inr (Or.inr (Or.inl (Ne.symm h)))
    · exact Or.inr (Or.inr (Or.inr (Ne.symm h)))

/-- An identifier is reported exactly when it is a key of one map and not of the
other, or a key of both with records that differ in a compared field. -/
theorem mem_detectChangedPresets (P C : List PresetSummary) (key : String) :
    key ∈ detectChangedPresets P C ↔
      (key ∈ (buildSummaryMap C).map Prod.fst ∧ key ∉ (buildSummaryMap P).map Prod.fst) ∨
      (key ∈ (buildSummaryMap P).map Prod.fst ∧ key ∉ (buildSummaryMap C).map Prod.fst) ∨
      (∃ c p, QHash.lookup (buildSummaryMap C) key = some c ∧
        QHash.lookup (buildSummaryMap P) key = some p ∧ isModified c p = true) := by
  obtain ⟨hndP, -, -⟩ := buildSummaryMap_spec P
  obtain ⟨hndC, -, -⟩ := buildSummaryMap_spec C
  unfold detectChangedPresets
  simp only [List.mem_append, mem_newOrModifiedLoop, mem_deletedLoop]
  constructor
  · rintro (⟨e, he, hk, hcase⟩ | ⟨e, he, hk, hc⟩)
    · subst hk
      have hkey : e.1 ∈ (buildSummaryMap C).map Prod.fst := List.mem_map_of_mem Prod.fst he
      rcases hcase with hnone | ⟨p, hp, hm⟩
      · exact Or.inl ⟨hkey, (lookup_eq_none_iff _ _).mp hnone⟩
      · exact Or.inr (Or.inr ⟨e.2, p, lookup_of_mem_of_nodup _ _ _ hndC he, hp, hm⟩)
    · subst hk
      refine Or.inr (Or.inl ⟨List.mem_map_of_mem Prod.fst he, ?_⟩)
      intro hmem
      rw [(containsKey_iff _ _).mpr hmem] at hc
      exact Bool.noConfusion hc
  · rintro (⟨hC, hP⟩ | ⟨hP, hC⟩ | ⟨c, p, hc, hp, hm⟩)
    · obtain ⟨e, he, hk⟩ := List.mem_map.mp hC
      refine Or.inl ⟨e, he, hk, Or.inl ?_⟩
      rw [hk]
      exact (lookup_eq_none_iff _ _).mpr hP
    · obtain ⟨e, he, hk⟩ := List.mem_map.mp hP
      refine Or.inr ⟨e, he, hk, ?_⟩
      rw [hk]
      cases hc : QHash.containsKey (buildSummaryMap C) key with
      | false => rfl
      | true => exact absurd ((containsKey_iff _ _).mp hc) hC
    · exact Or.inl ⟨(key, c), mem_of_lookup_eq_some _ _ _ hc, rfl, Or.inr ⟨p, hp, hm⟩⟩

/-- C28: for all projections `A` and `B`, the set of identifiers returned by
`detectChangedPresets` with previous = `A` and current = `B` equals the set
returned with previous = `B` and current = `A`. -/
theorem detectChangedPresets_symmetric (A B : List PresetSummary) :
    {key | key ∈ detectChangedPresets A B} = {key | key ∈ detectChangedPresets B A} := by
  ext key
  simp only [Set.mem_setOf_eq, mem_detectChangedPresets]
  constructor
  · rintro (h | h | ⟨c, p, hc, hp, hm⟩)
    · exact Or.inr (Or.inl h)
    · exact Or.inl h
    · exact Or.inr (Or.inr ⟨p, c, hp, hc, (isModified_comm p c).trans hm⟩)
  · rintro (h | h | ⟨c, p, hc, hp, hm⟩)
    · exact Or.inr (Or.inl h)
    · exact Or.inl h
    · exact Or.inr (Or.inr ⟨p, c, hp, hc, (isModified_comm p c).trans hm⟩)

/-- The change detection of a projection against itself reports nothing. -/
theorem detectChangedPresets_same (A : List PresetSummary) :
    detectChangedPresets A A = [] := by
  rw [List.eq_nil_iff_forall_not_mem]
  intro key hkey
  rcases (mem_detectChangedPresets A A key).mp hkey with h | h | ⟨c, p, hc, hp, hm⟩
  · exact h.2 h.1
  · exact h.2 h.1
  · rw [hc] at hp
    cases hp
    rw [isModified_self] at hm
    exact Bool.noConfusion hm

/-- C30: after every run of `onPresetsModelChanged` the model is unchanged and the
cached previous projection equals the current projection `getPresets()`;
consequently a second run with no intervening change to the store or the live
configuration detects no changed identifiers, emits no signal and leaves the
service as it is. -/
theorem onPresetsModelChanged_cache (text : TextFormat) (self : PresetsService) :
    (onPresetsModelChanged text self).1.m_presets = self.m_presets ∧
    (onPresetsModelChanged text self).1.m_previousPresets =
      getPresets text (onPresetsModelChanged text self).1.m_presets ∧
    (onPresetsModelChanged text self).1.detectChangedPresets text = [] ∧
    (onPresetsModelChanged text (onPresetsModelChanged text self).1).2 = [] ∧
    (onPresetsModelChanged text (onPresetsModelChanged text self).1).1 =
      (onPresetsModelChanged text self).1 := by
  have hdet : (onPresetsModelChanged text self).1.detectChangedPresets text = [] := by
    simp only [onPresetsModelChanged, PresetsService.detectChangedPresets]
    exact detectChangedPresets_same _
  refine ⟨rfl, rfl, hdet, ?_, ?_⟩
  · have h2 : (onPresetsModelChanged text (onPresetsModelChanged text self).1).2 =
        if !((onPresetsModelChanged text self).1.detectChangedPresets text).isEmpty then
          [emitPresetsChanged text (onPresetsModelChanged text self).1.m_presets
            ((onPresetsModelChanged text self).1.detectChangedPresets text)]
        else [] := rfl
    rw [h2, hdet]
    rfl
  · rfl

/-! ## Saving and then matching or applying -/

theorem castUInt32_castInt32 (n : Nat) (h : n < 4294967296) : castUInt32 (castInt32 n) = n := by
  unfold castUInt32 castInt32
  omega

theorem mem_replaceFirstById_cases (presetId : String) (preset q : DisplayPreset)
    (l : List DisplayPreset) (h : q ∈ replaceFirstById presetId preset l) :
    q = preset ∨ q ∈ l := by
  induction l with
  | nil => simp [replaceFirstById] at h
  | cons p rest ih =>
    unfold replaceFirstById at h
    by_cases hp : p.id = presetId
    · simp only [hp, beq_self_eq_true, if_true, List.mem_cons] at h
      rcases h with h | h
      · exact Or.inl h
      · exact Or.inr (List.mem_cons_of_mem _ h)
    · simp only [beq_iff_eq, hp, if_false, List.mem_cons] at h
      rcases h with h | h
      · exact Or.inr (by simp [h])
      · rcases ih h with h' | h'
        · exact Or.inl h'
        · exact Or.inr (List.mem_cons_of_mem _ h')

/-- Every snapshot in the store after `savePreset` was there before or is the one
just built. -/
theorem mem_savePreset (self : Presets) (name description : String) (config : Config)
    (presetId : String) (createdNow lastUsedNow : QDateTime) (q : DisplayPreset)
    (h : q ∈ (savePreset self name description (some config) presetId createdNow
      lastUsedNow).m_presets) :
    q ∈ self.m_presets ∨
      (q.id = presetId ∧ q.configuration = some (configToVariantMap config)) := by
  cases hf : self.findPresetByName name with
  | none =>
    simp only [savePreset, hf, Presets.addPreset, List.mem_append, List.mem_singleton] at h
    rcases h with h | h
    · exact Or.inl h
    · exact Or.inr (by rw [h]; exact ⟨rfl, rfl⟩)
  | some existing =>
    simp only [savePreset, hf, Presets.updatePreset] at h
    rcases mem_replaceFirstById_cases _ _ _ _ h with h | h
    · exact Or.inr (by rw [h]; exact ⟨rfl, rfl⟩)
    · exact Or.inl h

/-- With a fresh identifier, `getPreset` locates the snapshot just saved. -/
theorem getPreset_savePreset (self : Presets) (name description : String) (config : Config)
    (presetId : String) (createdNow lastUsedNow : QDateTime)
    (hfresh : ∀ p ∈ self.m_presets, p.id ≠ presetId) :
    ((savePreset self name description (some config) presetId createdNow
      lastUsedNow).getPreset presetId).id = presetId ∧
    ((savePreset self name description (some config) presetId createdNow
      lastUsedNow).getPreset presetId).configuration = some (configToVariantMap config) := by
  obtain ⟨created, hmem⟩ :=
    savePreset_stores self name description config presetId createdNow lastUsedNow
  obtain ⟨hin, hid⟩ := getPreset_of_mem _ presetId ⟨_, hmem, rfl⟩
  refine ⟨hid, ?_⟩
  rcases mem_savePreset self name description config presetId createdNow lastUsedNow _ hin
    with hold | hnew
  · exact absurd hid (hfresh _ hold)
  · exact hnew.2

theorem findSpec_saved_of_enabled (L : List LiveOutput) (o : LiveOutput)
    (hnames : (L.map (fun o => o.name)).Nodup) (ho : o ∈ L) (hen : o.enabled = true) :
    findSpec ((L.filter (fun output => output.enabled)).map outputToVariantMap) o.name =
      some (outputToVariantMap o) := by
  induction L with
  | nil => simp at ho
  | cons a rest ih =>
    simp only [List.map_cons, List.nodup_cons] at hnames
    rcases List.mem_cons.mp ho with rfl | hmem
    · simp [findSpec, List.filter_cons, hen, outputToVariantMap]
    · have hne : ¬ a.name = o.name := by
        intro heq
        apply hnames.1
        rw [heq]
        exact List.mem_map_of_mem (fun o => o.name) hmem
      have ih' := ih hnames.2 hmem
      unfold findSpec at ih' ⊢
      cases ha : a.enabled with
      | false => simp [List.filter_cons, ha, ih']
      | true =>
        simp only [List.filter_cons, ha, if_true, List.map_cons]
        rw [List.find?_cons_of_neg _ (by simpa [outputToVariantMap] using hne)]
        exact ih'

theorem findSpec_saved_of_disabled (L : List LiveOutput) (o : LiveOutput)
    (hnames : (L.map (fun o => o.name)).Nodup) (ho : o ∈ L) (hen : o.enabled = false) :
    findSpec ((L.filter (fun output => output.enabled)).map outputToVariantMap) o.name =
      none := by
  unfold findSpec
  rw [List.find?_eq_none]
  intro s hs
  simp only [List.mem_map, List.mem_filter] at hs
  obtain ⟨a, ⟨ha, haen⟩, rfl⟩ := hs
  have hinj := List.inj_on_of_nodup_map hnames
  simp only [outputToVariantMap, beq_iff_eq]
  intro heq
  have := hinj ha ho heq
  rw [this, hen] at haen
  exact Bool.noConfusion haen

theorem propertiesAgree_saved (o : LiveOutput) (m : Mode) (hm : o.currentMode = some m)
    (hprio : o.priority < 4294967296) : PropertiesAgree o (outputToVariantMap o) := by
  refine ⟨castUInt32_castInt32 _ hprio, rfl, rfl, ⟨m, hm, ?_, ?_, ?_⟩, ?_, ?_⟩
  · simp [outputToVariantMap, OutputSpec.modeWidth, hm]
  · simp [outputToVariantMap, OutputSpec.modeHeight, hm]
  · exact refreshWithinTolerance_of_eq _ _
      (by simp [outputToVariantMap, OutputSpec.storedRefresh, hm])
  · exact scaleWithinTolerance_of_eq _ _ (by simp [outputToVariantMap, OutputSpec.storedScale])
  · simp [outputToVariantMap, OutputSpec.rotationToInt]

/-- C27: save-then-match round trip. For every live configuration `L` whose outputs
have pairwise distinct names and 32-bit priorities and in which every enabled
output is connected and has a current mode, the snapshot that `savePreset`
creates from `L` under a fresh, non-empty identifier is reported current and
available when the live configuration is `L`. -/
theorem save_then_match (self : Presets) (name description : String) (L : Config)
    (presetId : String) (createdNow lastUsedNow : QDateTime)
    (hne : presetId ≠ "") (hfresh : ∀ p ∈ self.m_presets, p.id ≠ presetId)
    (hnames : (L.outputs.map (fun o => o.name)).Nodup)
    (hprio : ∀ o ∈ L.outputs, o.priority < 4294967296)
    (hen : ∀ o ∈ L.outputs, o.enabled = true →
      o.connected = true ∧ ∃ m, o.currentMode = some m) :
    ((savePreset self name description (some L) presetId createdNow
      lastUsedNow).setScreenConfiguration (some L)).isPresetCurrent presetId = true ∧
    ((savePreset self name description (some L) presetId createdNow
      lastUsedNow).setScreenConfiguration (some L)).isPresetAvailable presetId = true := by
  obtain ⟨hid, hconf⟩ :=
    getPreset_savePreset self name description L presetId createdNow lastUsedNow hfresh
  have hget : ((savePreset self name description (some L) presetId createdNow
      lastUsedNow).setScreenConfiguration (some L)).getPreset presetId =
      (savePreset self name description (some L) presetId createdNow
        lastUsedNow).getPreset presetId := rfl
  have hspecs : (((savePreset self name description (some L) presetId createdNow
      lastUsedNow).setScreenConfiguration (some L)).getPreset presetId).outputsList =
      (L.outputs.filter (fun output => output.enabled)).map outputToVariantMap := by
    rw [hget]
    simp [DisplayPreset.outputsList, hconf, configToVariantMap]
  have hidne : (((savePreset self name description (some L) presetId createdNow
      lastUsedNow).setScreenConfiguration (some L)).getPreset presetId).id ≠ "" := by
    rw [hget, hid]
    exact hne
  have hrev : ∀ s ∈ (L.outputs.filter (fun output => output.enabled)).map outputToVariantMap,
      s.enabled = true →
      ∃ o ∈ L.outputs, o.name = s.name ∧ o.connected = true ∧ o.enabled = true := by
    intro s hs _
    simp only [List.mem_map, List.mem_filter] at hs
    obtain ⟨o, ⟨ho, hoen⟩, rfl⟩ := hs
    exact ⟨o, ho, rfl, (hen o ho hoen).1, hoen⟩
  constructor
  · refine (isPresetCurrent_eq_true_iff _ presetId L rfl).mpr ⟨hidne, ?_, ?_⟩
    · intro o ho _
      rw [hspecs]
      unfold ForwardOk
      cases hoen : o.enabled with
      | false => rw [findSpec_saved_of_disabled L.outputs o hnames ho hoen]
      | true =>
        rw [findSpec_saved_of_enabled L.outputs o hnames ho hoen]
        obtain ⟨-, m, hm⟩ := hen o ho hoen
        exact ⟨hoen, fun _ => propertiesAgree_saved o m hm (hprio o ho)⟩
    · rw [hspecs]
      exact hrev
  · refine (isPresetAvailable_eq_true_iff _ presetId L rfl).mpr ⟨hidne, ?_⟩
    rw [hspecs]
    intro s hs he
    obtain ⟨o, ho, hn, hc, -⟩ := hrev s hs he
    exact ⟨o, ho, hn, hc⟩

/-- C27 at a concrete input: the snapshot saved from `eDP-1` enabled and `HDMI-1`
disabled is current and available against that configuration. -/
theorem save_then_match_witness :
    ((savePreset scenarioEStore "Laptop" "" (some laptopConfig) "fresh" (some 2000)
      (some 2001)).setScreenConfiguration (some laptopConfig)).isPresetCurrent "fresh" = true ∧
    ((savePreset scenarioEStore "Laptop" "" (some laptopConfig) "fresh" (some 2000)
      (some 2001)).setScreenConfiguration (some laptopConfig)).isPresetAvailable "fresh" =
      true :=
  save_then_match scenarioEStore "Laptop" "" laptopConfig "fresh" (some 2000) (some 2001)
    (by decide) (by simp [scenarioEStore])
    (by simp [laptopConfig, liveEDP, liveHDMI])
    (by simp [laptopConfig, liveEDP, liveHDMI])
    (by
      intro o ho he
      simp only [laptopConfig, List.mem_cons, List.mem_singleton, List.not_mem_nil,
        or_false] at ho
      rcases ho with rfl | rfl
      · exact ⟨rfl, { id := "m0", width := 1920, height := 1080, refreshRate := 60 },
          by simp [LiveOutput.currentMode, liveEDP]⟩
      · exact absurd he (by simp [liveHDMI]))

theorem applyPresetToOutput_enabled_flag (output : LiveOutput) (presetOutputMap : OutputSpec) :
    (applyPresetToOutput output presetOutputMap).enabled = presetOutputMap.enabled := by
  unfold applyPresetToOutput
  cases he : presetOutputMap.enabled with
  | false => simp
  | true =>
    simp only [Bool.not_true, Bool.false_eq_true, if_false]
    split_ifs <;> rfl

/-- C29: for every live configuration `L0` passed to `savePreset` under a fresh
identifier and every target live configuration `L`: every entry of the stored
snapshot has `enabled = true`; whenever `applyPreset` hands `L` to the executor,
every output it calls `applyPresetToOutput` on ends enabled, no output's enabled
flag is set to false (an output is unchanged or ends enabled), and an output of
`L` of whose name `L0` has no enabled output is unchanged. -/
theorem saved_preset_never_disables (self : Presets) (name description : String)
    (L0 : Config) (presetId : String) (createdNow lastUsedNow : QDateTime)
    (getConfigOp : GetConfigResult) (setConfigError : Option String) (now : QDateTime)
    (L config' : Config)
    (hfresh : ∀ p ∈ self.m_presets, p.id ≠ presetId)
    (hget : getConfigOp = GetConfigResult.finished (some L))
    (hsub : (applyPreset (savePreset self name description (some L0) presetId createdNow
      lastUsedNow) presetId getConfigOp setConfigError now).submitted = some config') :
    (∀ s ∈ ((savePreset self name description (some L0) presetId createdNow
        lastUsedNow).getPreset presetId).outputsList, s.enabled = true) ∧
    (∀ call ∈ (applyPreset (savePreset self name description (some L0) presetId createdNow
        lastUsedNow) presetId getConfigOp setConfigError now).calls,
      call.2.enabled = true ∧ (applyPresetToOutput call.1 call.2).enabled = true) ∧
    (∀ (i : Nat) (o o' : LiveOutput), L.outputs[i]? = some o → config'.outputs[i]? = some o' →
      o' = o ∨ o'.enabled = true) ∧
    (∀ (i : Nat) (o : LiveOutput), L.outputs[i]? = some o →
      (∀ o0 ∈ L0.outputs, o0.name = o.name → o0.enabled = false) →
      config'.outputs[i]? = some o) := by
  obtain ⟨-, hconf⟩ :=
    getPreset_savePreset self name description L0 presetId createdNow lastUsedNow hfresh
  obtain ⟨-, presetData, config, hdata, hget0, hcfg, hcalls, -, -⟩ :=
    applyPreset_submitted _ presetId getConfigOp setConfigError now config' hsub
  rw [hget] at hget0
  simp only [GetConfigResult.finished.injEq, Option.some.injEq] at hget0
  subst hget0
  rw [hconf] at hdata
  simp only [Option.some.injEq] at hdata
  subst hdata
  have hspecs : ((savePreset self name description (some L0) presetId createdNow
      lastUsedNow).getPreset presetId).outputsList = (configToVariantMap L0).outputs := by
    simp [DisplayPreset.outputsList, hconf]
  have hall : ∀ s ∈ (configToVariantMap L0).outputs, s.enabled = true := by
    intro s hs
    obtain ⟨o0, -, hen, rfl⟩ := mem_configToVariantMap L0 s hs
    exact hen
  have hlook : ∀ (n : String) (s : OutputSpec),
      QHash.lookup (buildPresetOutputsMap (configToVariantMap L0).outputs) n = some s →
      s.enabled = true := by
    intro n s hs
    rw [lookup_buildPresetOutputsMap] at hs
    exact hall s (lastSpecNamed_some _ _ _ hs).1
  refine ⟨?_, ?_, ?_, ?_⟩
  · rw [hspecs]; exact hall
  · intro call hcall
    rw [hcalls, applyLoop_snd] at hcall
    simp only [List.mem_filterMap, Option.map_eq_some'] at hcall
    obtain ⟨o, -, s, hs, rfl⟩ := hcall
    exact ⟨hlook _ _ hs, by rw [applyPresetToOutput_enabled_flag]; exact hlook _ _ hs⟩
  · intro i o o' hi hi'
    rw [hcfg] at hi'
    simp only [applyLoop_fst, List.getElem?_map, hi, Option.map_some',
      Option.some.injEq] at hi'
    cases hl : QHash.lookup (buildPresetOutputsMap (configToVariantMap L0).outputs) o.name with
    | none =>
      rw [hl] at hi'
      exact Or.inl hi'.symm
    | some s =>
      rw [hl] at hi'
      right
      rw [← hi', applyPresetToOutput_enabled_flag]
      exact hlook _ _ hl
  · intro i o hi hdis
    rw [hcfg]
    simp only [applyLoop_fst, List.getElem?_map, hi, Option.map_some', Option.some.injEq]
    have hnone : lastSpecNamed o.name (configToVariantMap L0).outputs = none := by
      apply lastSpecNamed_none_of_no_name
      intro s hs hname
      obtain ⟨o0, ho0, hen, rfl⟩ := mem_configToVariantMap L0 s hs
      rw [hdis o0 ho0 hname] at hen
      exact Bool.noConfusion hen
    rw [lookup_buildPresetOutputsMap, hnone]

theorem savePreset_screenConfiguration (self : Presets) (name description : String)
    (config : Option Config) (presetId : String) (createdNow lastUsedNow : QDateTime) :
    (savePreset self name description config presetId createdNow
      lastUsedNow).m_screenConfiguration = self.m_screenConfiguration := by
  cases config with
  | none => rfl
  | some c =>
    cases hf : self.findPresetByName name <;>
      simp [savePreset, hf, Presets.addPreset, Presets.updatePreset]

/-- The run of `applyPreset` on the snapshot saved from `laptopConfig`, with
`laptopConfig` fetched again, reaches the executor. -/
theorem laptop_run (setConfigError : Option String) (now : QDateTime) :
    (applyPreset (savePreset (scenarioAStore laptopConfig.outputs) "Laptop" ""
      (some laptopConfig) "fresh" (some 2000) (some 2001)) "fresh"
      (GetConfigResult.finished (some laptopConfig)) setConfigError now).submitted =
      some { laptopConfig with
        outputs := (applyLoop (buildPresetOutputsMap (configToVariantMap laptopConfig).outputs)
          laptopConfig.outputs).1 } := by
  have hfresh : ∀ p ∈ (scenarioAStore laptopConfig.outputs).m_presets, p.id ≠ "fresh" := by
    simp [scenarioAStore, scenarioAPreset]
  obtain ⟨hid, hconf⟩ := getPreset_savePreset (scenarioAStore laptopConfig.outputs) "Laptop" ""
    laptopConfig "fresh" (some 2000) (some 2001) hfresh
  have hcfg : (savePreset (scenarioAStore laptopConfig.outputs) "Laptop" ""
      (some laptopConfig) "fresh" (some 2000) (some 2001)).m_screenConfiguration =
      some { outputs := laptopConfig.outputs } := by
    rw [savePreset_screenConfiguration]
    rfl
  have hav : (savePreset (scenarioAStore laptopConfig.outputs) "Laptop" ""
      (some laptopConfig) "fresh" (some 2000) (some 2001)).isPresetAvailable "fresh" = true := by
    refine (isPresetAvailable_eq_true_iff _ "fresh" _ hcfg).mpr ⟨by rw [hid]; decide, ?_⟩
    intro s hs _
    simp only [DisplayPreset.outputsList, hconf] at hs
    obtain ⟨o, ho, hen, rfl⟩ := mem_configToVariantMap laptopConfig s hs
    simp only [laptopConfig, List.mem_cons, List.mem_singleton, List.not_mem_nil,
      or_false] at ho
    rcases ho with rfl | rfl
    · exact ⟨liveEDP 1920 1080 60 1 0, by simp [laptopConfig], rfl, rfl⟩
    · exact absurd hen (by simp [liveHDMI])
  have hdata : findPresetData (savePreset (scenarioAStore laptopConfig.outputs) "Laptop" ""
      (some laptopConfig) "fresh" (some 2000) (some 2001)) "fresh" =
      some (configToVariantMap laptopConfig) := by
    rw [findPresetData_eq, hconf]
  cases setConfigError <;> simp [applyPreset, hav, hdata]

/-- C29 at a concrete input: the snapshot saved while `HDMI-1` was disabled is
applied to the same configuration; `HDMI-1`, second in the list, is handed to
the executor unchanged, still disabled. -/
theorem saved_preset_never_disables_witness :
    ((applyLoop (buildPresetOutputsMap (configToVariantMap laptopConfig).outputs)
      laptopConfig.outputs).1)[1]? = some liveHDMI :=
  (saved_preset_never_disables (scenarioAStore laptopConfig.outputs) "Laptop" "" laptopConfig
    "fresh" (some 2000) (some 2001) (GetConfigResult.finished (some laptopConfig)) none
    (some 3000) laptopConfig
    { laptopConfig with
      outputs := (applyLoop (buildPresetOutputsMap (configToVariantMap laptopConfig).outputs)
        laptopConfig.outputs).1 }
    (by simp [scenarioAStore, scenarioAPreset]) rfl (laptop_run none (some 3000))).2.2.2 1
    liveHDMI rfl
    (by
      intro o0 ho0 hname
      simp only [laptopConfig, List.mem_cons, List.mem_singleton, List.not_mem_nil,
        or_false] at ho0
      rcases ho0 with rfl | rfl
      · exact absurd hname (by simp [liveEDP, liveHDMI])
      · rfl)

end KDisplayPresets
